import Mathlib

/-!
# SD card driver over SPI (`sd_functions.c`, `sd_functions.h`)

A shallow embedding of the driver.  The driver context is a record of natural
numbers (bytes are taken modulo 256 where they enter).  Everything outside the
driver is the *environment*:

* the card, a stream `card : Nat → Nat × Nat`; `card k = (b, t)` says that the
  `k`-th one-byte exchange on the bus returns byte `b % 256` and that the 1 ms
  tick interrupt (`SD_timer_tick`) fires `t` times while that exchange runs.
  Every read of a timer in the driver follows an exchange, so ticks are
  attributed to exchanges;
* the bus, seen through the list of `BusEvent`s a driver function emits;
* the HAL, taken to be synchronous: a DMA transfer has completed, and its
  completion callback has run, when the HAL call returns.

A driver function is a value of `SD α`: from a machine state it yields a result,
the next machine state and the bus events it caused, or `none` when the loop
budget `fuel` of an unbounded C loop is used up before the function returns.
`Returns x m r` says that `x` returns `r` from `m` for every large enough
budget; `Fair card` says that the tick keeps firing.

The first part of the file is the embedding and the definitions the statements
use; the second part holds the theorems.
-/

namespace SDCard

/-! ## Constants of `sd_functions.h` -/

def STA_NOINIT : Nat := 0x01
def STA_NODISK : Nat := 0x02
def STA_PROTECT : Nat := 0x04

/-- Result codes of the disk functions (`DRESULT`). -/
inductive DRESULT
  | RES_OK
  | RES_ERROR
  | RES_WRPRT
  | RES_NOTRDY
  | RES_PARERR
deriving DecidableEq, Repr

open DRESULT

def CTRL_SYNC : Nat := 0
def GET_SECTOR_COUNT : Nat := 1
def GET_SECTOR_SIZE : Nat := 2
def GET_BLOCK_SIZE : Nat := 3
def CTRL_TRIM : Nat := 4
def CTRL_POWER : Nat := 5
def MMC_GET_CSD : Nat := 10
def MMC_GET_CID : Nat := 11
def MMC_GET_OCR : Nat := 12

def CMD0 : Nat := 0x40 + 0
def CMD1 : Nat := 0x40 + 1
def CMD8 : Nat := 0x40 + 8
def CMD9 : Nat := 0x40 + 9
def CMD10 : Nat := 0x40 + 10
def CMD12 : Nat := 0x40 + 12
def CMD16 : Nat := 0x40 + 16
def CMD17 : Nat := 0x40 + 17
def CMD18 : Nat := 0x40 + 18
def CMD23 : Nat := 0x40 + 23
def CMD24 : Nat := 0x40 + 24
def CMD25 : Nat := 0x40 + 25
def CMD41 : Nat := 0x40 + 41
def CMD55 : Nat := 0x40 + 55
def CMD58 : Nat := 0x40 + 58

def CT_MMC : Nat := 0x01
def CT_SD1 : Nat := 0x02
def CT_SD2 : Nat := 0x04
def CT_SDC : Nat := 0x06
def CT_BLOCK : Nat := 0x08

/-! ## Driver context, environment and bus trace -/

/-- The internal state of `SD_Context`.  The hardware bindings (`spi_handle`,
`cs_port`, `cs_pin`) are fixed by `SD_init` and never read by the protocol
logic; they are left out. -/
structure SD_Context where
  status : Nat
  card_type : Nat
  power_flag : Nat
  dma_complete : Nat
  timer1 : Nat
  timer2 : Nat
deriving DecidableEq, Repr

/-- What the driver does on the bus, in program order. -/
inductive BusEvent
  /-- Chip-select driven low: `HAL_GPIO_WritePin(.., GPIO_PIN_RESET)`. -/
  | csLow
  /-- Chip-select driven high: `HAL_GPIO_WritePin(.., GPIO_PIN_SET)`. -/
  | csHigh
  /-- Bytes clocked out by `HAL_SPI_Transmit_DMA`. -/
  | tx (bytes : List Nat)
  /-- One byte exchanged by `HAL_SPI_TransmitReceive_DMA`. -/
  | xfer (sent : Nat) (received : Nat)
deriving DecidableEq, Repr

/-- The card and the tick source: for the `k`-th exchange, the byte the card
drives and the number of 1 ms ticks that fire during it. -/
abbrev Card := Nat → Nat × Nat

/-- Driver context together with the number of exchanges done so far. -/
structure Machine where
  ctx : SD_Context
  pos : Nat
deriving DecidableEq, Repr

/-- A driver computation: result, next state and emitted bus events; `none` when
the loop budget ran out. -/
def SD (α : Type) : Type := Machine → Option (α × Machine × List BusEvent)

namespace SD

def ret {α : Type} (a : α) : SD α := fun m => some (a, m, [])

def seq {α β : Type} (x : SD α) (f : α → SD β) : SD β := fun m =>
  match x m with
  | none => none
  | some (a, m1, t1) =>
    match f a m1 with
    | none => none
    | some (b, m2, t2) => some (b, m2, t1 ++ t2)

/-- The loop budget is used up. -/
def stuck {α : Type} : SD α := fun _ => none

def emit (e : BusEvent) : SD Unit := fun m => some ((), m, [e])

def getCtx : SD SD_Context := fun m => some (m.ctx, m, [])

def modifyCtx (f : SD_Context → SD_Context) : SD Unit :=
  fun m => some ((), { m with ctx := f m.ctx }, [])

end SD

instance : Monad SD where
  pure := SD.ret
  bind := SD.seq

/-! ## Public API: initialisation and callbacks -/

/-- The context after `SD_init`. -/
def SD_init : SD_Context :=
  { status := STA_NOINIT, card_type := 0, power_flag := 0, dma_complete := 1,
    timer1 := 0, timer2 := 0 }

/-- The 1 ms tick: `SD_timer_tick`. -/
def SD_timer_tick (ctx : SD_Context) : SD_Context :=
  let ctx := if ctx.timer1 > 0 then { ctx with timer1 := ctx.timer1 - 1 } else ctx
  if ctx.timer2 > 0 then { ctx with timer2 := ctx.timer2 - 1 } else ctx

def SD_spi_tx_complete (ctx : SD_Context) : SD_Context := { ctx with dma_complete := 1 }

def SD_spi_rx_complete (ctx : SD_Context) : SD_Context := { ctx with dma_complete := 1 }

def SD_spi_txrx_complete (ctx : SD_Context) : SD_Context := { ctx with dma_complete := 1 }

/-! ## The HAL, as the environment

The HAL is not part of the repository.  The bus is taken to be synchronous: a
transfer started by a `HAL_SPI_*_DMA` call has run, and its completion callback
has been delivered, when the call returns. -/

/-- The pin write of `HAL_GPIO_WritePin` on the chip-select line; `true` is
`GPIO_PIN_SET`. -/
def HAL_GPIO_WritePin (set : Bool) : SD Unit :=
  SD.emit (if set then BusEvent.csHigh else BusEvent.csLow)

/-- The settle delay `HAL_Delay`.  No bus event; the ticks that fire meanwhile
are not modelled: no `SELECT` or `DESELECT` lies between the arming of a timer
and a read of it. -/
def HAL_Delay (_ms : Nat) : SD Unit := pure ()

/-- Clock out `bytes`, then deliver the transmit-complete callback. -/
def HAL_SPI_Transmit_DMA (bytes : List Nat) : SD Unit := do
  SD.emit (BusEvent.tx bytes)
  SD.modifyCtx SD_spi_tx_complete

/-- Exchange one byte with the card: the card's next byte is received, the ticks
of that exchange fire, and the completion callback is delivered. -/
def HAL_SPI_TransmitReceive_DMA (card : Card) (sent : Nat) : SD Nat := fun m =>
  let b := (card m.pos).1 % 256
  some (b,
    { ctx := SD_spi_txrx_complete (SD_timer_tick^[(card m.pos).2] m.ctx), pos := m.pos + 1 },
    [BusEvent.xfer sent b])

/-! ## SPI functions -/

def SELECT : SD Unit := do
  HAL_GPIO_WritePin false
  HAL_Delay 1

def DESELECT : SD Unit := do
  HAL_GPIO_WritePin true
  HAL_Delay 1

def SPI_TxByte (data : Nat) : SD Unit := do
  let ctx ← SD.getCtx
  if ctx.dma_complete = 1 then
    SD.modifyCtx (fun c => { c with dma_complete := 0 })
    HAL_SPI_Transmit_DMA [data % 256]
  else
    pure ()

def SPI_TxBuffer (buffer : List Nat) : SD Unit := do
  let ctx ← SD.getCtx
  if ctx.dma_complete = 1 then
    SD.modifyCtx (fun c => { c with dma_complete := 0 })
    HAL_SPI_Transmit_DMA buffer
  else
    pure ()

/-- Receive a byte (`dummy = 0xFF` is sent); `0xFF` when no transfer is started. -/
def SPI_RxByte (card : Card) : SD Nat := do
  let ctx ← SD.getCtx
  if ctx.dma_complete = 1 then
    SD.modifyCtx (fun c => { c with dma_complete := 0 })
    HAL_SPI_TransmitReceive_DMA card 0xFF
  else
    pure 0xFF

/-! ## SD functions -/

/-- The `do .. while ((res != 0xFF) && ctx->timer2)` loop of `SD_ReadyWait`. -/
def SD_ReadyWait_loop (card : Card) : Nat → SD Nat
  | 0 => SD.stuck
  | fuel + 1 => do
    let res ← SPI_RxByte card
    let ctx ← SD.getCtx
    if res ≠ 0xFF ∧ ctx.timer2 ≠ 0 then SD_ReadyWait_loop card fuel else pure res

def SD_ReadyWait (card : Card) (fuel : Nat) : SD Nat := do
  SD.modifyCtx (fun c => { c with timer2 := 500 })
  SD_ReadyWait_loop card fuel

/-- The `for (i = 0; i < 10; i++) SPI_TxByte(ctx, 0xFF)` loop of `SD_PowerOn`. -/
def SD_PowerOn_wake : Nat → SD Unit
  | 0 => pure ()
  | n + 1 => do
    SPI_TxByte 0xFF
    SD_PowerOn_wake n

/-- The `while ((SPI_RxByte(ctx) != 0x01) && cnt) cnt--` loop of `SD_PowerOn`,
by the current value of `cnt`. -/
def SD_PowerOn_wait (card : Card) : Nat → SD Unit
  | 0 => do
    let _ ← SPI_RxByte card
    pure ()
  | cnt + 1 => do
    let r ← SPI_RxByte card
    if r ≠ 0x01 then SD_PowerOn_wait card cnt else pure ()

def SD_PowerOn (card : Card) : SD Unit := do
  DESELECT
  SD_PowerOn_wake 10
  SELECT
  SPI_TxBuffer [CMD0, 0, 0, 0, 0, 0x95]
  SD_PowerOn_wait card 0x1FFF
  DESELECT
  SPI_TxByte 0xFF
  SD.modifyCtx (fun c => { c with power_flag := 1 })

def SD_PowerOff : SD Unit :=
  SD.modifyCtx (fun c => { c with power_flag := 0 })

def SD_CheckPower : SD Nat := do
  let ctx ← SD.getCtx
  pure ctx.power_flag

/-- The token wait `do .. while ((token == 0xFF) && ctx->timer1)` of
`SD_RxDataBlock`. -/
def SD_RxDataBlock_token (card : Card) : Nat → SD Nat
  | 0 => SD.stuck
  | fuel + 1 => do
    let token ← SPI_RxByte card
    let ctx ← SD.getCtx
    if token = 0xFF ∧ ctx.timer1 ≠ 0 then SD_RxDataBlock_token card fuel else pure token

/-- The `do { SPI_RxBytePtr(ctx, buff++); } while (len--)` loop of
`SD_RxDataBlock`, by the current value of `len`; the bytes are returned in the
order they are stored from `buff` on. -/
def SD_RxDataBlock_data (card : Card) : Nat → SD (List Nat)
  | 0 => do
    let b ← SPI_RxByte card
    pure [b]
  | len + 1 => do
    let b ← SPI_RxByte card
    let rest ← SD_RxDataBlock_data card len
    pure (b :: rest)

/-- Receive a data block: the result flag and the bytes stored from `buff` on. -/
def SD_RxDataBlock (card : Card) (fuel : Nat) (len : Nat) : SD (Bool × List Nat) := do
  SD.modifyCtx (fun c => { c with timer1 := 200 })
  let token ← SD_RxDataBlock_token card fuel
  if token ≠ 0xFE then
    pure (false, [])
  else
    let data ← SD_RxDataBlock_data card len
    let _ ← SPI_RxByte card
    let _ ← SPI_RxByte card
    pure (true, data)

/-- The `while (i <= 64)` loop of `SD_TxDataBlock`, by the number of iterations
left (`65 - i`) and the current `resp`. -/
def SD_TxDataBlock_resp (card : Card) : Nat → Nat → SD Nat
  | 0, resp => pure resp
  | n + 1, _ => do
    let resp ← SPI_RxByte card
    if resp &&& 0x1F = 0x05 then pure resp else SD_TxDataBlock_resp card n resp

/-- The loop `while (SPI_RxByte(ctx) == 0);` of `SD_TxDataBlock`. -/
def SD_TxDataBlock_drain (card : Card) : Nat → SD Unit
  | 0 => SD.stuck
  | fuel + 1 => do
    let r ← SPI_RxByte card
    if r = 0 then SD_TxDataBlock_drain card fuel else pure ()

/-- Transmit a data block; `buff i` is the byte at `buff[i]`. -/
def SD_TxDataBlock (card : Card) (fuel : Nat) (buff : Nat → Nat) (token : Nat) : SD Bool := do
  let r ← SD_ReadyWait card fuel
  if r ≠ 0xFF then
    pure false
  else
    SPI_TxByte token
    let resp ←
      (if token ≠ 0xFD then do
        SPI_TxBuffer ((List.range 512).map (fun i => buff i % 256))
        let _ ← SPI_RxByte card
        let _ ← SPI_RxByte card
        let resp ← SD_TxDataBlock_resp card 65 0
        SD_TxDataBlock_drain card fuel
        pure resp
      else
        pure 0)
    if resp &&& 0x1F = 0x05 then pure true else pure false

/-- The response poll `do .. while ((res & 0x80) && --n)` of `SD_SendCmd`, by
the current value of `n` (never entered with `n = 0`). -/
def SD_SendCmd_poll (card : Card) : Nat → SD Nat
  | 0 => SPI_RxByte card
  | n + 1 => do
    let res ← SPI_RxByte card
    if res &&& 0x80 ≠ 0 ∧ n ≠ 0 then SD_SendCmd_poll card n else pure res

def SD_SendCmd (card : Card) (fuel : Nat) (cmd : Nat) (arg : Nat) : SD Nat := do
  let r ← SD_ReadyWait card fuel
  if r ≠ 0xFF then
    pure 0xFF
  else
    SPI_TxByte cmd
    SPI_TxByte (arg >>> 24)
    SPI_TxByte (arg >>> 16)
    SPI_TxByte (arg >>> 8)
    SPI_TxByte arg
    let crc := if cmd = CMD0 then 0x95 else if cmd = CMD8 then 0x87 else 1
    SPI_TxByte crc
    (if cmd = CMD12 then do
      let _ ← SPI_RxByte card
      pure ()
    else
      pure ())
    SD_SendCmd_poll card 10

/-! ## Public disk functions -/

/-- A store through a pointer argument: offset from the pointer and value. -/
inductive Store
  /-- A byte store `ptr[off] = val`. -/
  | byte (off : Nat) (val : Nat)
  /-- A 16-bit store `*(WORD *)ptr = val`. -/
  | word (val : Nat)
  /-- A 32-bit store `*(DWORD *)ptr = val`. -/
  | dword (val : Nat)
deriving DecidableEq, Repr

/-- The stores of a received block: `data` written from `buff[off]` on. -/
def blockStores (off : Nat) (data : List Nat) : List Store :=
  (List.range data.length).zipWith (fun i b => Store.byte (off + i) b) data

/-- Four `SPI_RxByte` calls, `for (n = 0; n < 4; n++) ocr[n] = SPI_RxByte(ctx)`. -/
def SD_read_ocr (card : Card) : SD (Nat × Nat × Nat × Nat) := do
  let o0 ← SPI_RxByte card
  let o1 ← SPI_RxByte card
  let o2 ← SPI_RxByte card
  let o3 ← SPI_RxByte card
  pure (o0, o1, o2, o3)

/-- The break condition of the SDv2 loop,
`SD_SendCmd(ctx, CMD55, 0) <= 1 && SD_SendCmd(ctx, CMD41, 1UL << 30) == 0`. -/
def SD_init_sd2_poll (card : Card) (fuel : Nat) : SD Bool := do
  let r55 ← SD_SendCmd card fuel CMD55 0
  if r55 ≤ 1 then
    let r41 ← SD_SendCmd card fuel CMD41 (1 <<< 30)
    pure (decide (r41 = 0))
  else
    pure false

/-- The ACMD41-with-HCS loop of the SDv2 branch:
`do { if (CMD55 <= 1 && CMD41(1UL << 30) == 0) break; } while (ctx->timer1)`. -/
def SD_init_sd2_loop (card : Card) (fuel : Nat) : Nat → SD Unit
  | 0 => SD.stuck
  | n + 1 => do
    let done ← SD_init_sd2_poll card fuel
    if done then
      pure ()
    else
      let ctx ← SD.getCtx
      if ctx.timer1 ≠ 0 then SD_init_sd2_loop card fuel n else pure ()

/-- The break condition of the legacy loop: for `CT_SD1`
`SD_SendCmd(ctx, CMD55, 0) <= 1 && SD_SendCmd(ctx, CMD41, 0) == 0`, otherwise
`SD_SendCmd(ctx, CMD1, 0) == 0`. -/
def SD_init_legacy_poll (card : Card) (fuel : Nat) (type : Nat) : SD Bool :=
  if type = CT_SD1 then do
    let r55 ← SD_SendCmd card fuel CMD55 0
    if r55 ≤ 1 then
      let r41 ← SD_SendCmd card fuel CMD41 0
      pure (decide (r41 = 0))
    else
      pure false
  else do
    let r1 ← SD_SendCmd card fuel CMD1 0
    pure (decide (r1 = 0))

/-- The initialisation loop of the legacy branch: ACMD41 for `CT_SD1`, CMD1
otherwise, `while (ctx->timer1)`. -/
def SD_init_legacy_loop (card : Card) (fuel : Nat) (type : Nat) : Nat → SD Unit
  | 0 => SD.stuck
  | n + 1 => do
    let done ← SD_init_legacy_poll card fuel type
    if done then
      pure ()
    else
      let ctx ← SD.getCtx
      if ctx.timer1 ≠ 0 then SD_init_legacy_loop card fuel type n else pure ()

/-- The branch of `SD_disk_initialize` taken when CMD8 is accepted; the value is
`type`. -/
def SD_init_sd2 (card : Card) (fuel : Nat) : SD Nat := do
  let ocr ← SD_read_ocr card
  if ocr.2.2.1 = 0x01 ∧ ocr.2.2.2 = 0xAA then
    SD_init_sd2_loop card fuel fuel
    let ctx ← SD.getCtx
    if ctx.timer1 ≠ 0 then
      let r58 ← SD_SendCmd card fuel CMD58 0
      if r58 = 0 then
        let ocr ← SD_read_ocr card
        pure (if ocr.1 &&& 0x40 ≠ 0 then CT_SD2 ||| CT_BLOCK else CT_SD2)
      else
        pure 0
    else
      pure 0
  else
    pure 0

/-- The branch of `SD_disk_initialize` taken when CMD8 is rejected; the value is
`type`. -/
def SD_init_legacy (card : Card) (fuel : Nat) : SD Nat := do
  let r55 ← SD_SendCmd card fuel CMD55 0
  let type ←
    (if r55 ≤ 1 then do
      let r41 ← SD_SendCmd card fuel CMD41 0
      pure (if r41 ≤ 1 then CT_SD1 else CT_MMC)
    else
      pure CT_MMC)
  SD_init_legacy_loop card fuel type fuel
  let ctx ← SD.getCtx
  if ctx.timer1 = 0 then
    pure 0
  else
    let r16 ← SD_SendCmd card fuel CMD16 512
    if r16 ≠ 0 then pure 0 else pure type

/-- The card classification of `SD_disk_initialize`, from CMD0 on; the value is
`type`. -/
def SD_init_classify (card : Card) (fuel : Nat) : SD Nat := do
  let r0 ← SD_SendCmd card fuel CMD0 0
  if r0 = 1 then
    SD.modifyCtx (fun c => { c with timer1 := 1000 })
    let r8 ← SD_SendCmd card fuel CMD8 0x1AA
    if r8 = 1 then SD_init_sd2 card fuel else SD_init_legacy card fuel
  else
    pure 0

def SD_disk_initialize (card : Card) (fuel : Nat) : SD Nat := do
  let ctx ← SD.getCtx
  if ctx.status &&& STA_NODISK ≠ 0 then
    pure ctx.status
  else
    SD_PowerOn card
    SELECT
    let type ← SD_init_classify card fuel
    SD.modifyCtx (fun c => { c with card_type := type })
    DESELECT
    let _ ← SPI_RxByte card
    (if type ≠ 0 then
      SD.modifyCtx (fun c => { c with status := c.status &&& (0xFF ^^^ STA_NOINIT) })
    else
      SD_PowerOff)
    let ctx ← SD.getCtx
    pure ctx.status

def SD_disk_status : SD Nat := do
  let ctx ← SD.getCtx
  pure ctx.status

/-- The multi-block loop of `SD_disk_read`,
`do { if (!SD_RxDataBlock(..)) break; buff += 512; } while (--count)`, by the
current `count` (entered with `count > 1` only) and the offset of `buff`; the
value is the final `count` and the stores made. -/
def SD_disk_read_loop (card : Card) (fuel : Nat) : Nat → Nat → SD (Nat × List Store)
  | 0, _ => pure (0, [])
  | count + 1, off => do
    let r ← SD_RxDataBlock card fuel 512
    if r.1 = false then
      pure (count + 1, [])
    else if count ≠ 0 then
      let rest ← SD_disk_read_loop card fuel count (off + 512)
      pure (rest.1, blockStores off r.2 ++ rest.2)
    else
      pure (0, blockStores off r.2)

/-- The transfer of `SD_disk_read`, between `SELECT` and `DESELECT`: the
`if (count == 1) .. else ..` statement, with `sector` already converted; the
value is the final `count` and the stores made through `buff`. -/
def SD_disk_read_transfer (card : Card) (fuel : Nat) (sector : Nat) (count : Nat) :
    SD (Nat × List Store) :=
  if count = 1 then do
    let r ← SD_SendCmd card fuel CMD17 sector
    if r = 0 then
      let b ← SD_RxDataBlock card fuel 512
      if b.1 then pure (0, blockStores 0 b.2) else pure (count, [])
    else
      pure (count, [])
  else do
    let r ← SD_SendCmd card fuel CMD18 sector
    if r = 0 then
      let out ← SD_disk_read_loop card fuel count 0
      let _ ← SD_SendCmd card fuel CMD12 0
      pure out
    else
      pure (count, [])

/-- Read sectors: the result code and the stores made through `buff`. -/
def SD_disk_read (card : Card) (fuel : Nat) (sector : Nat) (count : Nat) :
    SD (DRESULT × List Store) := do
  if count = 0 then
    pure (RES_PARERR, [])
  else
    let ctx ← SD.getCtx
    if ctx.status &&& STA_NOINIT ≠ 0 then
      pure (RES_NOTRDY, [])
    else
      let sector := if ctx.card_type &&& CT_SD2 = 0 then (sector * 512) % 2 ^ 32 else sector
      SELECT
      let out ← SD_disk_read_transfer card fuel sector count
      DESELECT
      let _ ← SPI_RxByte card
      pure (if out.1 ≠ 0 then RES_ERROR else RES_OK, out.2)

/-- The multi-block loop of `SD_disk_write`,
`do { if (!SD_TxDataBlock(.., 0xFC)) break; buff += 512; } while (--count)`, by
the current `count` (entered with `count > 1` only) and the offset of `buff`;
the value is the final `count`. -/
def SD_disk_write_loop (card : Card) (fuel : Nat) (buff : Nat → Nat) : Nat → Nat → SD Nat
  | 0, _ => pure 0
  | count + 1, off => do
    let ok ← SD_TxDataBlock card fuel (fun i => buff (off + i)) 0xFC
    if ok = false then
      pure (count + 1)
    else if count ≠ 0 then
      SD_disk_write_loop card fuel buff count (off + 512)
    else
      pure 0

/-- The transfer of `SD_disk_write`, between `SELECT` and `DESELECT`: the
`if (count == 1) .. else ..` statement, with `sector` already converted; the
value is the final `count`. -/
def SD_disk_write_transfer (card : Card) (fuel : Nat) (buff : Nat → Nat) (sector : Nat)
    (count : Nat) : SD Nat :=
  if count = 1 then do
    let r ← SD_SendCmd card fuel CMD24 sector
    if r = 0 then
      let ok ← SD_TxDataBlock card fuel buff 0xFE
      if ok then pure 0 else pure count
    else
      pure count
  else do
    let ctx ← SD.getCtx
    (if ctx.card_type &&& CT_SD1 ≠ 0 then do
      let _ ← SD_SendCmd card fuel CMD55 0
      let _ ← SD_SendCmd card fuel CMD23 count
      pure ()
    else
      pure ())
    let r ← SD_SendCmd card fuel CMD25 sector
    if r = 0 then
      let count ← SD_disk_write_loop card fuel buff count 0
      let ok ← SD_TxDataBlock card fuel (fun _ => 0) 0xFD
      if ok = false then pure 1 else pure count
    else
      pure count

/-- Write sectors; `buff i` is the byte at `buff[i]`. -/
def SD_disk_write (card : Card) (fuel : Nat) (buff : Nat → Nat) (sector : Nat) (count : Nat) :
    SD DRESULT := do
  if count = 0 then
    pure RES_PARERR
  else
    let ctx ← SD.getCtx
    if ctx.status &&& STA_NOINIT ≠ 0 then
      pure RES_NOTRDY
    else if ctx.status &&& STA_PROTECT ≠ 0 then
      pure RES_WRPRT
    else
      let sector := if ctx.card_type &&& CT_SD2 = 0 then (sector * 512) % 2 ^ 32 else sector
      SELECT
      let count ← SD_disk_write_transfer card fuel buff sector count
      DESELECT
      let _ ← SPI_RxByte card
      pure (if count ≠ 0 then RES_ERROR else RES_OK)

/-- The sector count `GET_SECTOR_COUNT` stores, from the sixteen bytes of
`csd[]`; `csize` is a 16-bit `WORD`, `n` a byte, the result a `DWORD`.  For
`n < 9` the C shift count `n - 9` is negative (undefined); here the shift is by
0. -/
def SD_sector_count (csd : List Nat) : Nat :=
  if csd.getD 0 0 >>> 6 = 1 then
    let csize := (csd.getD 9 0 + (csd.getD 8 0 <<< 8) + 1) % 2 ^ 16
    (csize <<< 10) % 2 ^ 32
  else
    let n := ((csd.getD 5 0 &&& 15) + ((csd.getD 10 0 &&& 128) >>> 7)
      + ((csd.getD 9 0 &&& 3) <<< 1) + 2) % 2 ^ 8
    let csize := ((csd.getD 8 0 >>> 6) + (csd.getD 7 0 <<< 2)
      + ((csd.getD 6 0 &&& 3) <<< 10) + 1) % 2 ^ 16
    (csize <<< (n - 9)) % 2 ^ 32

/-- Control operations: `arg` is the byte `*ptr` read for `CTRL_POWER`; the
value is the result code and the stores made through `buff`.  For
`GET_SECTOR_COUNT` the block goes to the local `csd[16]`: `SD_RxDataBlock(ctx,
csd, 16)` stores seventeen bytes, of which `csd[0..15]` are read afterwards. -/
def SD_disk_ioctl (card : Card) (fuel : Nat) (ctrl : Nat) (arg : Nat) :
    SD (DRESULT × List Store) := do
  if ctrl = CTRL_POWER then
    if arg = 0 then
      SD_PowerOff
      pure (RES_OK, [])
    else if arg = 1 then
      SD_PowerOn card
      pure (RES_OK, [])
    else if arg = 2 then
      let p ← SD_CheckPower
      pure (RES_OK, [Store.byte 1 p])
    else
      pure (RES_PARERR, [])
  else
    let ctx ← SD.getCtx
    if ctx.status &&& STA_NOINIT ≠ 0 then
      pure (RES_NOTRDY, [])
    else
      SELECT
      let out ←
        (if ctrl = GET_SECTOR_COUNT then do
          let r ← SD_SendCmd card fuel CMD9 0
          if r = 0 then
            let b ← SD_RxDataBlock card fuel 16
            if b.1 then pure (RES_OK, [Store.dword (SD_sector_count (b.2.take 16))])
            else pure (RES_ERROR, [])
          else
            pure (RES_ERROR, [])
        else if ctrl = GET_SECTOR_SIZE then
          pure (RES_OK, [Store.word 512])
        else if ctrl = CTRL_SYNC then do
          let r ← SD_ReadyWait card fuel
          if r = 0xFF then pure (RES_OK, []) else pure (RES_ERROR, [])
        else if ctrl = MMC_GET_CSD then do
          let r ← SD_SendCmd card fuel CMD9 0
          if r = 0 then
            let b ← SD_RxDataBlock card fuel 16
            if b.1 then pure (RES_OK, blockStores 0 b.2) else pure (RES_ERROR, blockStores 0 b.2)
          else
            pure (RES_ERROR, [])
        else if ctrl = MMC_GET_CID then do
          let r ← SD_SendCmd card fuel CMD10 0
          if r = 0 then
            let b ← SD_RxDataBlock card fuel 16
            if b.1 then pure (RES_OK, blockStores 0 b.2) else pure (RES_ERROR, blockStores 0 b.2)
          else
            pure (RES_ERROR, [])
        else if ctrl = MMC_GET_OCR then do
          let r ← SD_SendCmd card fuel CMD58 0
          if r = 0 then
            let ocr ← SD_read_ocr card
            pure (RES_OK, [Store.byte 0 ocr.1, Store.byte 1 ocr.2.1, Store.byte 2 ocr.2.2.1,
              Store.byte 3 ocr.2.2.2])
          else
            pure (RES_ERROR, [])
        else
          pure (RES_PARERR, []))
      DESELECT
      let _ ← SPI_RxByte card
      pure out

/-! ## Auxiliary definitions for the statements -/

/-- The machine after one exchange with the card. -/
def Machine.exchanged (card : Card) (m : Machine) : Machine :=
  { ctx := { m.ctx with
      dma_complete := 1
      timer1 := m.ctx.timer1 - (card m.pos).2
      timer2 := m.ctx.timer2 - (card m.pos).2 },
    pos := m.pos + 1 }

/-- The byte received in the next exchange. -/
def Machine.rxByte (card : Card) (m : Machine) : Nat := (card m.pos).1 % 256

/-- A card given by the bytes of its first exchanges; afterwards the data line
idles high (`0xFF`).  No tick fires. -/
def cardOfBytes (l : List Nat) : Card := fun k => (l.getD k 0xFF, 0)

/-- An initialised context with the given card type: `NOINIT`, `NODISK` and
`PROTECT` clear, no transfer pending. -/
def readyCtx (type : Nat) : SD_Context :=
  { status := 0, card_type := type, power_flag := 1, dma_complete := 1, timer1 := 0, timer2 := 0 }

/-- The card side of the SDHC initialisation scenario: idle answer to the
power-on CMD0; then, each after a ready byte `0xFF`: CMD0 → `01`, CMD8 →
`01 00 00 01 AA`, CMD55 → `01`, ACMD41 → `00`, CMD58 → `00 C0 FF 80 00`; last the
byte of the closing dummy exchange. -/
def sdhcInit : List Nat :=
  [0x01, 0xFF, 0x01, 0xFF, 0x01, 0x00, 0x00, 0x01, 0xAA, 0xFF, 0x01, 0xFF, 0x00,
   0xFF, 0x00, 0xC0, 0xFF, 0x80, 0x00, 0xFF]

/-- The SDHC initialisation scenario followed by a second initialisation in which
the card accepts CMD0 and CMD8 but does not echo the check pattern
(`01 00 00 00 00`). -/
def sdhcThenFail : List Nat :=
  sdhcInit ++ [0x01, 0xFF, 0x01, 0xFF, 0x01, 0x00, 0x00, 0x00, 0x00, 0xFF]

/-- An ideal card for a two-block write: ready, R1 `00`; for each block ready,
two bytes during the CRC, data response `05`, one idle byte; ready for the
stop token; the closing dummy byte. -/
def writeTwoBlocks : List Nat :=
  [0xFF, 0x00, 0xFF, 0xFF, 0xFF, 0x05, 0xFF, 0xFF, 0xFF, 0xFF, 0x05, 0xFF, 0xFF, 0xFF]

/-- A card answering SEND_CSD with a version 2.0 CSD whose bytes 8 and 9 are
`b8` and `b9`: ready, R1 `00`, token `FE`, the sixteen CSD bytes. -/
def csdV2Card (b8 b9 : Nat) : Card :=
  cardOfBytes ([0xFF, 0x00, 0xFE] ++ [0x40, 0, 0, 0, 0, 0, 0, 0, b8, b9, 0, 0, 0, 0, 0, 0])

/-- The single-byte transmissions and chip-select changes of a trace. -/
def controlEvents (t : List BusEvent) : List BusEvent :=
  t.filter (fun e => match e with
    | BusEvent.tx [_] => true
    | BusEvent.csLow => true
    | BusEvent.csHigh => true
    | _ => false)

/-- The CSD as `GET_SECTOR_COUNT` obtains it from machine state `m`: the first
sixteen bytes stored by `SD_RxDataBlock(ctx, csd, 16)` when `SEND_CSD` was
answered with 0 and the block was received. -/
def receivedCSD (card : Card) (fuel : Nat) (m : Machine) : Option (List Nat) :=
  match SD_SendCmd card fuel CMD9 0 m with
  | some (r, m1, _) =>
    if r = 0 then
      match SD_RxDataBlock card fuel 16 m1 with
      | some (b, _, _) => if b.1 then some (b.2.take 16) else none
      | none => none
    else none
  | none => none

/-- The field READ_BL_LEN of a version 1.0 CSD, `csd[5] & 15`. -/
def csdReadBlLen (csd : List Nat) : Nat := csd.getD 5 0 &&& 15

/-- The field C_SIZE_MULT of a version 1.0 CSD,
`((csd[9] & 3) << 1) | (csd[10] >> 7)`. -/
def csdCSizeMult (csd : List Nat) : Nat := ((csd.getD 9 0 &&& 3) <<< 1) ||| (csd.getD 10 0 >>> 7)

/-- The field C_SIZE of a version 1.0 CSD,
`((csd[6] & 3) << 10) | (csd[7] << 2) | (csd[8] >> 6)`. -/
def csdCSize (csd : List Nat) : Nat :=
  ((csd.getD 6 0 &&& 3) <<< 10) ||| (csd.getD 7 0 <<< 2) ||| (csd.getD 8 0 >>> 6)

/-- The six single-byte transmissions of a command frame. -/
def frameEvents (cmd a3 a2 a1 a0 crc : Nat) : List BusEvent :=
  [BusEvent.tx [cmd], BusEvent.tx [a3], BusEvent.tx [a2], BusEvent.tx [a1], BusEvent.tx [a0],
    BusEvent.tx [crc]]

/-- The machine during the SDHC initialisation scenario: `NOINIT` still set, card
type not yet assigned, powered on, with the given timers and exchange count. -/
def sdhcAt (timer1 timer2 pos : Nat) : Machine :=
  ⟨{ status := STA_NOINIT, card_type := 0, power_flag := 1, dma_complete := 1,
     timer1 := timer1, timer2 := timer2 }, pos⟩

/-- A version 1.0 CSD with READ_BL_LEN 9, C_SIZE 4095 and C_SIZE_MULT 7. -/
def csdV1 : List Nat :=
  [0x00, 0x26, 0x00, 0x32, 0x5F, 0x59, 0x83, 0xFF, 0xED, 0xB7, 0xFF, 0x9F, 0x16, 0x40, 0x00, 0x01]

/-- The bus trace of `SD_disk_initialize` in the SDHC scenario. -/
def sdhcTrace : List BusEvent :=
  [BusEvent.csHigh] ++ List.replicate 10 (BusEvent.tx [0xFF]) ++ [BusEvent.csLow,
    BusEvent.tx [CMD0, 0, 0, 0, 0, 0x95], BusEvent.xfer 0xFF 0x01, BusEvent.csHigh,
    BusEvent.tx [0xFF]]
  ++ [BusEvent.csLow]
  ++ BusEvent.xfer 0xFF 0xFF :: frameEvents CMD0 0 0 0 0 0x95 ++ [BusEvent.xfer 0xFF 0x01]
  ++ BusEvent.xfer 0xFF 0xFF :: frameEvents CMD8 0 0 0x01 0xAA 0x87 ++ [BusEvent.xfer 0xFF 0x01]
  ++ [BusEvent.xfer 0xFF 0x00, BusEvent.xfer 0xFF 0x00, BusEvent.xfer 0xFF 0x01,
    BusEvent.xfer 0xFF 0xAA]
  ++ BusEvent.xfer 0xFF 0xFF :: frameEvents CMD55 0 0 0 0 0x01 ++ [BusEvent.xfer 0xFF 0x01]
  ++ BusEvent.xfer 0xFF 0xFF :: frameEvents CMD41 0x40 0 0 0 0x01 ++ [BusEvent.xfer 0xFF 0x00]
  ++ BusEvent.xfer 0xFF 0xFF :: frameEvents CMD58 0 0 0 0 0x01 ++ [BusEvent.xfer 0xFF 0x00]
  ++ [BusEvent.xfer 0xFF 0xC0, BusEvent.xfer 0xFF 0xFF, BusEvent.xfer 0xFF 0x80,
    BusEvent.xfer 0xFF 0x00]
  ++ [BusEvent.csHigh, BusEvent.xfer 0xFF 0xFF]

/-- The tick keeps firing: after any number of exchanges there is a later exchange
during which at least one tick fires. -/
def Fair (card : Card) : Prop := ∀ n, ∃ k, n ≤ k ∧ 0 < (card k).2

/-- From `m`, `x` returns `r` whenever the loop budget is large enough. -/
def Returns {α : Type} (x : Nat → SD α) (m : Machine) (r : α × Machine × List BusEvent) : Prop :=
  ∃ F, ∀ fuel, F ≤ fuel → x fuel m = some r

/-- What the bus primitives leave alone: afterwards no transfer is pending, and
status, card type and power flag are as before. -/
def Machine.Kept (m m1 : Machine) : Prop :=
  m1.ctx.dma_complete = 1 ∧ m1.ctx.status = m.ctx.status ∧
    m1.ctx.card_type = m.ctx.card_type ∧ m1.ctx.power_flag = m.ctx.power_flag

/-- The six frame bytes `SD_SendCmd` transmits for `cmd` and `arg`. -/
def commandFrame (cmd arg : Nat) : List BusEvent :=
  frameEvents (cmd % 256) ((arg >>> 24) % 256) ((arg >>> 16) % 256) ((arg >>> 8) % 256)
    (arg % 256) ((if cmd = CMD0 then 0x95 else if cmd = CMD8 then 0x87 else 1) % 256)

/-- Receiving `n` blocks of 512 bytes one after the other, breaking at the first
failure: from `m`, `k` blocks are delivered, the machine ends in `m1` and the
bus trace is `t`.  Either all `n` were delivered, or the block after the `k`-th
failed and no further block was tried. -/
inductive BlocksReceived (card : Card) : Nat → Machine → Nat → Machine → List BusEvent → Prop
  | done (m : Machine) : BlocksReceived card 0 m 0 m []
  | failed {n : Nat} {m m1 : Machine} {d : List Nat} {t : List BusEvent} :
      Returns (fun fuel => SD_RxDataBlock card fuel 512) m ((false, d), m1, t) →
      BlocksReceived card (n + 1) m 0 m1 t
  | delivered {n k : Nat} {m m1 m2 : Machine} {d : List Nat} {t1 t2 : List BusEvent} :
      Returns (fun fuel => SD_RxDataBlock card fuel 512) m ((true, d), m1, t1) →
      BlocksReceived card n m1 k m2 t2 →
      BlocksReceived card (n + 1) m (k + 1) m2 (t1 ++ t2)

/-- The command argument of `SD_disk_read` and `SD_disk_write`: the sector number,
multiplied by 512 (as a `DWORD`) when `CT_SD2` is clear in the card type. -/
def sectorArg (ctx : SD_Context) (sector : Nat) : Nat :=
  if ctx.card_type &&& CT_SD2 = 0 then (sector * 512) % 2 ^ 32 else sector

/-- A card given by the bytes of its first exchanges (then `0xFF`), with one tick
firing during every exchange. -/
def tickingCard (l : List Nat) : Card := fun k => (l.getD k 0xFF, 1)

/-- Time moved on between `m` and `m1`: at least one exchange took place, Timer1
did not grow, and if a tick fired during one of the exchanges in between, Timer1
went down (or is 0). -/
def Machine.Advanced (card : Card) (m m1 : Machine) : Prop :=
  m.pos < m1.pos ∧ m1.ctx.timer1 ≤ m.ctx.timer1 ∧
    ∀ k, m.pos ≤ k → k < m1.pos → 0 < (card k).2 →
      m1.ctx.timer1 < m.ctx.timer1 ∨ m1.ctx.timer1 = 0

/-- From `m` (no transfer pending), `x` returns for every large enough loop
budget, leaving status, card type and power flag as they were. -/
def Total {α : Type} (x : Nat → SD α) (m : Machine) : Prop :=
  ∃ a m1 t, Returns x m (a, m1, t) ∧ m.Kept m1

/-- From `m`, `x` returns for every large enough loop budget, with no transfer
pending afterwards. -/
def Halts {α : Type} (x : Nat → SD α) (m : Machine) : Prop :=
  ∃ a m1 t, Returns x m (a, m1, t) ∧ m1.ctx.dma_complete = 1

/-- The machine at the end of the SDHC scenario when one tick fires per exchange. -/
def sdhcDoneTicking : Machine :=
  ⟨{ status := 0, card_type := 0x0C, power_flag := 1, dma_complete := 1, timer1 := 983,
     timer2 := 493 }, 20⟩

/-- A bus event that is not a chip-select change. -/
def BusEvent.isData : BusEvent → Bool
  | BusEvent.csLow => false
  | BusEvent.csHigh => false
  | _ => true

/-- A receive exchange: `0xFF` is sent while a byte is read. -/
def BusEvent.isListen : BusEvent → Bool
  | BusEvent.xfer 0xFF _ => true
  | _ => false

/-- The bytes given to `HAL_SPI_Transmit_DMA` in a trace, in order; the `0xFF`
sent while a byte is received is not among them. -/
def txBytes : List BusEvent → List Nat
  | [] => []
  | BusEvent.tx l :: t => l ++ txBytes t
  | _ :: t => txBytes t

/-- What every step of the driver leaves alone between `m` and `m1`: status, card
type and power flag; and no transfer is pending afterwards if none was before. -/
def Machine.Framed (m m1 : Machine) : Prop :=
  (m.ctx.dma_complete = 1 → m1.ctx.dma_complete = 1) ∧ m1.ctx.status = m.ctx.status ∧
    m1.ctx.card_type = m.ctx.card_type ∧ m1.ctx.power_flag = m.ctx.power_flag

/-- Every run of `x` that returns leaves status, card type and power flag alone
and emits only bus events on which `P` holds. -/
def Inner {α : Type} (P : BusEvent → Bool) (x : SD α) : Prop :=
  ∀ m a m1 t, x m = some (a, m1, t) → m.Framed m1 ∧ ∀ e ∈ t, P e = true

/-- The card side of an SDv1 initialisation: idle answer to the power-on CMD0;
then, each after a ready byte `FF`: CMD0 → `01`, CMD8 → `05` (illegal command),
probe CMD55 → `01`, probe ACMD41 → `01`, loop CMD55 → `01`, ACMD41 → `01`, CMD55 →
`01`, ACMD41 → `00`, CMD16 → `00`; last the byte of the closing dummy exchange. -/
def sdv1Init : List Nat :=
  [0x01, 0xFF, 0x01, 0xFF, 0x05, 0xFF, 0x01, 0xFF, 0x01, 0xFF, 0x01, 0xFF, 0x01, 0xFF, 0x01,
   0xFF, 0x00, 0xFF, 0x00, 0xFF]

/-- The card type the legacy branch of `SD_disk_initialize` works with, from the
answers `r55` and `r41` to the probe APP_CMD and the probe SEND_OP_COND(0). -/
def legacyType (r55 r41 : Nat) : Nat := if r55 ≤ 1 ∧ r41 ≤ 1 then CT_SD1 else CT_MMC

/-- A card for a single-block write: ready, R1 `00`, ready, two bytes while the
checksum is clocked, data response `05`, three busy bytes `00`, then `FF`. -/
def writeBusy : List Nat :=
  [0xFF, 0x00, 0xFF, 0xAA, 0xBB, 0x05, 0x00, 0x00, 0x00, 0xFF, 0xFF]

/-- A card that sends the start token `FE`, the sixteen payload bytes `01 .. 10`,
the checksum bytes `AA BB` and then `CC`. -/
def blockCard : Card :=
  cardOfBytes [0xFE, 0x01, 0x02, 0x03, 0x04, 0x05, 0x06, 0x07, 0x08, 0x09, 0x0A, 0x0B, 0x0C,
    0x0D, 0x0E, 0x0F, 0x10, 0xAA, 0xBB, 0xCC]

/-- The byte the card drives in exchange `k`. -/
def cardByte (card : Card) (k : Nat) : Nat := (card k).1 % 256

/-- The exchange in which `SD_SendCmd` reads the first response byte, when the
ready-wait ended in state `ma`: the next one, or the one after the stuff byte for
CMD12. -/
def responseStart (cmd : Nat) (ma : Machine) : Nat :=
  if cmd = CMD12 then ma.pos + 1 else ma.pos

/-- A card that is ready and then answers with ten bytes `80`. -/
def tenTimes80 : Card :=
  cardOfBytes [0xFF, 0x80, 0x80, 0x80, 0x80, 0x80, 0x80, 0x80, 0x80, 0x80, 0x80]

/-- Data blocks of a multi-block write, sent one after the other from machine
state `m` with `n` blocks still requested, as the card answers them: each of the
first `k - 1` blocks is accepted and the `k`-th is rejected, the card being ready
for every one of them; the machine ends in the last argument.

For every block the ready-wait returns `0xFF` (in state `ma`), and two bytes are
read in place of the checksum.  For an accepted block the next byte, the data
response, has low five bits `00101`.  For the rejected block none of the 65
bytes the driver polls for a data response has low five bits `00101`.  In both
cases the card then holds the line at `00` for `j` bytes and drives a non-zero
byte, with `j` below the loop budget. -/
inductive RejectedAt (card : Card) (fuel : Nat) : Nat → Machine → Nat → Machine → Prop
  | rejected {n j : Nat} {m ma : Machine} {ta : List BusEvent} :
      SD_ReadyWait card fuel m = some (0xFF, ma, ta) →
      (∀ i, i < 65 → cardByte card (ma.pos + 2 + i) &&& 0x1F ≠ 0x05) →
      (∀ i, i < j → cardByte card (ma.pos + 67 + i) = 0) →
      cardByte card (ma.pos + 67 + j) ≠ 0 → j < fuel →
      RejectedAt card fuel (n + 1) m 1 ((Machine.exchanged card)^[j + 68] ma)
  | accepted {n k j : Nat} {m ma m2 : Machine} {ta : List BusEvent} :
      SD_ReadyWait card fuel m = some (0xFF, ma, ta) →
      cardByte card (ma.pos + 2) &&& 0x1F = 0x05 →
      (∀ i, i < j → cardByte card (ma.pos + 3 + i) = 0) →
      cardByte card (ma.pos + 3 + j) ≠ 0 → j < fuel →
      RejectedAt card fuel n ((Machine.exchanged card)^[j + 4] ma) k m2 →
      RejectedAt card fuel (n + 1) m (k + 1) m2

/-- A card for a two-block write whose second block is rejected: ready, R1 `00`;
first block: ready, two bytes while the checksum is clocked, data response `05`,
one idle byte; second block: ready, two bytes, data response `0B`; afterwards the
line idles at `FF`. -/
def writeSecondRejected : List Nat :=
  [0xFF, 0x00, 0xFF, 0xAA, 0xBB, 0x05, 0xFF, 0xFF, 0xAA, 0xBB, 0x0B]

/-- A card for a two-block write that answers the first block with the data
response `0B` (checksum error) and drives `05` in the byte after it: ready, R1
`00`, ready, two bytes while the checksum is clocked, `0B`, `05`; afterwards the
line idles at `FF`, so the card is ready at every ready-wait. -/
def lateAccept : List Nat := [0xFF, 0x00, 0xFF, 0xAA, 0xBB, 0x0B, 0x05]

/-- A card that holds the line at `00` after a data block: ready, R1 `00`, ready,
two bytes while the checksum is clocked, data response `05`, and `00` ever
after.  One tick fires during every exchange. -/
def heldBusy : Card := fun k => (([0xFF, 0x00, 0xFF, 0xAA, 0xBB, 0x05] : List Nat).getD k 0x00, 1)

/-- The machine in which a single-block write to `heldBusy` enters the drain loop
of `SD_TxDataBlock`: six exchanges done, chip-select low. -/
def heldBusyAtDrain : Machine := ⟨{ readyCtx 0x0C with timer2 := 496 }, 6⟩

/-- The bus trace of a single-block write of 512 zero bytes to sector 0 of
`heldBusy`, up to the drain loop of `SD_TxDataBlock`. -/
def heldBusyOpening : List BusEvent :=
  [BusEvent.csLow, BusEvent.xfer 0xFF 0xFF] ++ frameEvents CMD24 0 0 0 0 0x01
  ++ [BusEvent.xfer 0xFF 0x00, BusEvent.xfer 0xFF 0xFF, BusEvent.tx [0xFE],
    BusEvent.tx (List.replicate 512 0), BusEvent.xfer 0xFF 0xAA, BusEvent.xfer 0xFF 0xBB,
    BusEvent.xfer 0xFF 0x05]

/-- The chip-select line along a trace, from the state `asserted`: the state at
the end, or `none` if chip-select is driven low while it is already low. -/
def csRun : Bool → List BusEvent → Option Bool
  | asserted, [] => some asserted
  | asserted, BusEvent.csLow :: t => if asserted then none else csRun true t
  | _, BusEvent.csHigh :: t => csRun false t
  | asserted, BusEvent.tx _ :: t => csRun asserted t
  | asserted, BusEvent.xfer _ _ :: t => csRun asserted t

/-- One dummy byte `0xFF` clocked out: transmitted by `SPI_TxByte(ctx, 0xFF)` or
sent by `SPI_RxByte` while a byte is read. -/
def BusEvent.isDummy : BusEvent → Bool
  | BusEvent.tx [0xFF] => true
  | BusEvent.xfer 0xFF _ => true
  | _ => false

/-- The last two bus actions of the trace are the deassertion of chip-select and
one dummy byte. -/
def endsIdle (t : List BusEvent) : Bool :=
  match t.reverse with
  | d :: BusEvent.csHigh :: _ => d.isDummy
  | _ => false

/-- Chip-select discipline of the trace of one call, entered with chip-select
deasserted: chip-select is never asserted while asserted, it is deasserted at
the end, and if it was asserted at all the trace ends with the deassertion and
one dummy byte. -/
def Disciplined (t : List BusEvent) : Prop :=
  csRun false t = some false ∧ (BusEvent.csLow ∈ t → endsIdle t = true)

/-- One chip-select bracket: assertion, data traffic, deassertion, one dummy
byte. -/
def Bracket (t : List BusEvent) : Prop :=
  ∃ q d, t = BusEvent.csLow :: (q ++ [BusEvent.csHigh, d]) ∧ (∀ e ∈ q, BusEvent.isData e = true) ∧
    BusEvent.isDummy d = true

/-- The card does not hold the data line at `00` for ever: after any number of
exchanges there is a later exchange in which it drives a non-zero byte. -/
def Releases (card : Card) : Prop := ∀ n, ∃ k, n ≤ k ∧ cardByte card k ≠ 0

/-! # Theorems -/

/-! ## Reasoning about `SD` computations -/

namespace SD

@[simp] theorem pure_apply {α : Type} (a : α) (m : Machine) :
    (pure a : SD α) m = some (a, m, []) := rfl

@[simp] theorem ret_apply {α : Type} (a : α) (m : Machine) :
    (SD.ret a : SD α) m = some (a, m, []) := rfl

@[simp] theorem stuck_apply {α : Type} (m : Machine) : (SD.stuck : SD α) m = none := rfl

@[simp] theorem emit_apply (e : BusEvent) (m : Machine) : SD.emit e m = some ((), m, [e]) := rfl

@[simp] theorem getCtx_apply (m : Machine) : SD.getCtx m = some (m.ctx, m, []) := rfl

@[simp] theorem modifyCtx_apply (f : SD_Context → SD_Context) (m : Machine) :
    SD.modifyCtx f m = some ((), { m with ctx := f m.ctx }, []) := rfl

theorem bind_apply {α β : Type} (x : SD α) (f : α → SD β) (m : Machine) :
    (x >>= f) m = SD.seq x f m := rfl

theorem ite_apply {α : Type} (c : Prop) [Decidable c] (x y : SD α) (m : Machine) :
    (if c then x else y) m = if c then x m else y m := by
  split <;> rfl

/-- Running `x >>= f` when the run of `x` is known. -/
theorem bind_of_eq {α β : Type} {x : SD α} {f : α → SD β} {m m1 : Machine} {a : α}
    {t1 : List BusEvent} (h : x m = some (a, m1, t1)) :
    (x >>= f) m = (f a m1).map (fun r => (r.1, r.2.1, t1 ++ r.2.2)) := by
  show SD.seq x f m = _
  unfold SD.seq
  simp only [h]
  cases hf : f a m1 with
  | none => simp
  | some r => simp

theorem bind_of_stuck {α β : Type} {x : SD α} {f : α → SD β} {m : Machine}
    (h : x m = none) : (x >>= f) m = none := by
  show SD.seq x f m = _
  unfold SD.seq
  simp only [h]

/-- A run of `x >>= f` that returns splits into a run of `x` and a run of `f`. -/
theorem bind_eq_some {α β : Type} {x : SD α} {f : α → SD β} {m m2 : Machine} {b : β}
    {t : List BusEvent} (h : (x >>= f) m = some (b, m2, t)) :
    ∃ a m1 t1 t2, x m = some (a, m1, t1) ∧ f a m1 = some (b, m2, t2) ∧ t = t1 ++ t2 := by
  cases hx : x m with
  | none => rw [bind_of_stuck hx] at h; cases h
  | some r =>
    obtain ⟨a, m1, t1⟩ := r
    rw [bind_of_eq hx] at h
    cases hf : f a m1 with
    | none => rw [hf] at h; cases h
    | some r2 =>
      obtain ⟨b2, m3, t2⟩ := r2
      rw [hf] at h
      simp only [Option.map_some', Option.some.injEq, Prod.mk.injEq] at h
      obtain ⟨rfl, rfl, rfl⟩ := h
      exact ⟨a, m1, t1, t2, rfl, hf, rfl⟩

end SD

/-! ### The primitives on a machine state -/

theorem SELECT_apply (m : Machine) : SELECT m = some ((), m, [BusEvent.csLow]) := rfl

theorem DESELECT_apply (m : Machine) : DESELECT m = some ((), m, [BusEvent.csHigh]) := rfl

/-- The effect of `n` ticks on the context. -/
theorem SD_timer_tick_iterate (n : Nat) (ctx : SD_Context) :
    SD_timer_tick^[n] ctx
      = { ctx with timer1 := ctx.timer1 - n, timer2 := ctx.timer2 - n } := by
  induction n generalizing ctx with
  | zero => rfl
  | succ n ih =>
    rw [Function.iterate_succ_apply, ih]
    obtain ⟨s, c, p, d, t1, t2⟩ := ctx
    unfold SD_timer_tick
    by_cases h1 : t1 > 0 <;> by_cases h2 : t2 > 0 <;> simp [h1, h2] <;> omega

theorem SPI_RxByte_apply (card : Card) (m : Machine) (h : m.ctx.dma_complete = 1) :
    SPI_RxByte card m
      = some (m.rxByte card, m.exchanged card, [BusEvent.xfer 0xFF (m.rxByte card)]) := by
  unfold SPI_RxByte
  rw [SD.bind_of_eq (SD.getCtx_apply m)]
  simp only [h, if_true]
  rw [SD.bind_of_eq (SD.modifyCtx_apply _ m)]
  simp only [HAL_SPI_TransmitReceive_DMA, SD_timer_tick_iterate, SD_spi_txrx_complete,
    Machine.exchanged, Machine.rxByte, Option.map_some', List.nil_append]

theorem SPI_RxByte_skip (card : Card) (m : Machine) (h : m.ctx.dma_complete ≠ 1) :
    SPI_RxByte card m = some (0xFF, m, []) := by
  unfold SPI_RxByte
  rw [SD.bind_of_eq (SD.getCtx_apply m)]
  simp only [h, if_false]
  rfl

theorem SPI_TxByte_apply (data : Nat) (m : Machine) (h : m.ctx.dma_complete = 1) :
    SPI_TxByte data m = some ((), m, [BusEvent.tx [data % 256]]) := by
  unfold SPI_TxByte
  rw [SD.bind_of_eq (SD.getCtx_apply m)]
  simp only [h, if_true]
  rw [SD.bind_of_eq (SD.modifyCtx_apply _ m)]
  obtain ⟨ctx, pos⟩ := m
  obtain ⟨a, b, c, d, e, f⟩ := ctx
  simp only at h
  subst h
  rfl





open DRESULT

/-! ## Early returns -/

theorem SD_disk_read_zero (card : Card) (fuel sector : Nat) (m : Machine) :
    SD_disk_read card fuel sector 0 m = some ((RES_PARERR, []), m, []) := by
  simp [SD_disk_read]

theorem SD_disk_read_noinit (card : Card) (fuel sector count : Nat) (m : Machine)
    (hcount : 1 ≤ count) (h : m.ctx.status &&& STA_NOINIT ≠ 0) :
    SD_disk_read card fuel sector count m = some ((RES_NOTRDY, []), m, []) := by
  have hc : count ≠ 0 := by omega
  simp [SD_disk_read, hc, SD.bind_apply, SD.seq, h]

theorem SD_disk_write_noinit (card : Card) (fuel : Nat) (buff : Nat → Nat) (sector count : Nat)
    (m : Machine) (hcount : 1 ≤ count) (h : m.ctx.status &&& STA_NOINIT ≠ 0) :
    SD_disk_write card fuel buff sector count m = some (RES_NOTRDY, m, []) := by
  have hc : count ≠ 0 := by omega
  simp [SD_disk_write, hc, SD.bind_apply, SD.seq, h]

theorem SD_disk_write_protect (card : Card) (fuel : Nat) (buff : Nat → Nat) (sector count : Nat)
    (m : Machine) (hcount : 1 ≤ count) (h : m.ctx.status &&& STA_NOINIT = 0)
    (hp : m.ctx.status &&& STA_PROTECT ≠ 0) :
    SD_disk_write card fuel buff sector count m = some (RES_WRPRT, m, []) := by
  have hc : count ≠ 0 := by omega
  simp [SD_disk_write, hc, SD.bind_apply, SD.seq, h, hp]

theorem SD_disk_write_zero (card : Card) (fuel : Nat) (buff : Nat → Nat) (sector : Nat)
    (m : Machine) : SD_disk_write card fuel buff sector 0 m = some (RES_PARERR, m, []) := by
  simp [SD_disk_write]

/-- C7: for `count ≥ 1`, `SD_disk_read` and `SD_disk_write` return `RES_NOTRDY`
whenever `NOINIT` is set (for write whatever `PROTECT` is), and `SD_disk_write`
returns `RES_WRPRT` when `NOINIT` is clear and `PROTECT` is set; in each case
(for any loop budget) the machine state, hence status, card type, power flag
and both timers, is unchanged, no exchange took place and the trace is empty. -/
theorem not_ready_and_write_protect (card : Card) (fuel : Nat) (buff : Nat → Nat)
    (sector count : Nat) (m : Machine) (hcount : 1 ≤ count) :
    (m.ctx.status &&& STA_NOINIT ≠ 0 →
      SD_disk_read card fuel sector count m = some ((RES_NOTRDY, []), m, []) ∧
      SD_disk_write card fuel buff sector count m = some (RES_NOTRDY, m, [])) ∧
    (m.ctx.status &&& STA_NOINIT = 0 → m.ctx.status &&& STA_PROTECT ≠ 0 →
      SD_disk_write card fuel buff sector count m = some (RES_WRPRT, m, [])) :=
  ⟨fun h => ⟨SD_disk_read_noinit card fuel sector count m hcount h,
      SD_disk_write_noinit card fuel buff sector count m hcount h⟩,
    fun h hp => SD_disk_write_protect card fuel buff sector count m hcount h hp⟩

/-- C7, witness: a context with `NOINIT` and `PROTECT` set (status 5) and one with
only `PROTECT` set (status 4), `count = 3`. -/
theorem not_ready_and_write_protect_witness :
    (SD_disk_read (cardOfBytes []) 0 7 3 ⟨{ readyCtx CT_SD1 with status := 5 }, 0⟩
        = some ((RES_NOTRDY, []), ⟨{ readyCtx CT_SD1 with status := 5 }, 0⟩, []) ∧
      SD_disk_write (cardOfBytes []) 0 (fun _ => 0) 7 3 ⟨{ readyCtx CT_SD1 with status := 5 }, 0⟩
        = some (RES_NOTRDY, ⟨{ readyCtx CT_SD1 with status := 5 }, 0⟩, [])) ∧
    SD_disk_write (cardOfBytes []) 0 (fun _ => 0) 7 3 ⟨{ readyCtx CT_SD1 with status := 4 }, 0⟩
        = some (RES_WRPRT, ⟨{ readyCtx CT_SD1 with status := 4 }, 0⟩, []) :=
  ⟨(not_ready_and_write_protect (cardOfBytes []) 0 (fun _ => 0) 7 3
      ⟨{ readyCtx CT_SD1 with status := 5 }, 0⟩ (by decide)).1 (by decide),
    (not_ready_and_write_protect (cardOfBytes []) 0 (fun _ => 0) 7 3
      ⟨{ readyCtx CT_SD1 with status := 4 }, 0⟩ (by decide)).2 (by decide) (by decide)⟩

/-! ## Unknown control codes -/

theorem SD_disk_ioctl_unknown_noinit (card : Card) (fuel ctrl arg : Nat) (m : Machine)
    (hp : ctrl ≠ CTRL_POWER) (h : m.ctx.status &&& STA_NOINIT ≠ 0) :
    SD_disk_ioctl card fuel ctrl arg m = some ((RES_NOTRDY, []), m, []) := by
  simp [SD_disk_ioctl, hp, SD.bind_apply, SD.seq, h]

theorem SD_disk_ioctl_unknown (card : Card) (fuel ctrl arg : Nat) (m : Machine)
    (h0 : ctrl ≠ CTRL_SYNC) (h1 : ctrl ≠ GET_SECTOR_COUNT) (h2 : ctrl ≠ GET_SECTOR_SIZE)
    (h5 : ctrl ≠ CTRL_POWER) (h10 : ctrl ≠ MMC_GET_CSD) (h11 : ctrl ≠ MMC_GET_CID)
    (h12 : ctrl ≠ MMC_GET_OCR) (h : m.ctx.status &&& STA_NOINIT = 0) :
    SD_disk_ioctl card fuel ctrl arg m
      = if m.ctx.dma_complete = 1 then
          some ((RES_PARERR, []), m.exchanged card,
            [BusEvent.csLow, BusEvent.csHigh, BusEvent.xfer 0xFF (m.rxByte card)])
        else
          some ((RES_PARERR, []), m, [BusEvent.csLow, BusEvent.csHigh]) := by
  by_cases hd : m.ctx.dma_complete = 1
  · simp [SD_disk_ioctl, h0, h1, h2, h5, h10, h11, h12, SD.bind_apply, SD.seq, h, hd,
      SELECT_apply, DESELECT_apply, SPI_RxByte_apply]
  · simp [SD_disk_ioctl, h0, h1, h2, h5, h10, h11, h12, SD.bind_apply, SD.seq, h, hd,
      SELECT_apply, DESELECT_apply, SPI_RxByte_skip]

/-- C6, counterexample: with control code 3 (`GET_BLOCK_SIZE`, not handled by the
switch) an initialised driver returns `RES_PARERR` only after asserting
chip-select, releasing it and exchanging a dummy byte; an uninitialised one
returns `RES_NOTRDY`. -/
theorem unknown_ioctl_counterexample :
    SD_disk_ioctl (cardOfBytes []) 0 GET_BLOCK_SIZE 0 ⟨readyCtx CT_SD2, 0⟩
      = some ((RES_PARERR, []), ⟨{ readyCtx CT_SD2 with dma_complete := 1 }, 1⟩,
          [BusEvent.csLow, BusEvent.csHigh, BusEvent.xfer 0xFF 0xFF]) ∧
    SD_disk_ioctl (cardOfBytes []) 0 GET_BLOCK_SIZE 0 ⟨SD_init, 0⟩
      = some ((RES_NOTRDY, []), ⟨SD_init, 0⟩, []) := by
  decide!

/-- C6, amended: in every context state `SD_disk_read` and `SD_disk_write` with
`count = 0` return `RES_PARERR` with an empty trace and an unchanged machine;
`SD_disk_ioctl` with a control code outside the handled ones returns
`RES_NOTRDY` with an empty trace when `NOINIT` is set, and when `NOINIT` is clear
returns `RES_PARERR` after chip-select low, chip-select high and (when no
transfer is pending) one exchange of a dummy `0xFF` byte. -/
theorem parameter_error_paths (card : Card) (fuel : Nat) (buff : Nat → Nat)
    (sector ctrl arg : Nat) (m : Machine)
    (hctrl : ctrl ≠ CTRL_SYNC ∧ ctrl ≠ GET_SECTOR_COUNT ∧ ctrl ≠ GET_SECTOR_SIZE ∧
      ctrl ≠ CTRL_POWER ∧ ctrl ≠ MMC_GET_CSD ∧ ctrl ≠ MMC_GET_CID ∧ ctrl ≠ MMC_GET_OCR) :
    SD_disk_read card fuel sector 0 m = some ((RES_PARERR, []), m, []) ∧
    SD_disk_write card fuel buff sector 0 m = some (RES_PARERR, m, []) ∧
    (m.ctx.status &&& STA_NOINIT ≠ 0 →
      SD_disk_ioctl card fuel ctrl arg m = some ((RES_NOTRDY, []), m, [])) ∧
    (m.ctx.status &&& STA_NOINIT = 0 →
      SD_disk_ioctl card fuel ctrl arg m
        = if m.ctx.dma_complete = 1 then
            some ((RES_PARERR, []), m.exchanged card,
              [BusEvent.csLow, BusEvent.csHigh, BusEvent.xfer 0xFF (m.rxByte card)])
          else
            some ((RES_PARERR, []), m, [BusEvent.csLow, BusEvent.csHigh])) := by
  obtain ⟨h0, h1, h2, h5, h10, h11, h12⟩ := hctrl
  exact ⟨SD_disk_read_zero card fuel sector m, SD_disk_write_zero card fuel buff sector m,
    SD_disk_ioctl_unknown_noinit card fuel ctrl arg m h5,
    SD_disk_ioctl_unknown card fuel ctrl arg m h0 h1 h2 h5 h10 h11 h12⟩

/-- C6, witness: control code 4 (`CTRL_TRIM`), on the context left by `SD_init`
(`NOINIT` set) and on an initialised context. -/
theorem parameter_error_paths_witness :
    (SD_disk_read (cardOfBytes []) 0 9 0 ⟨SD_init, 0⟩ = some ((RES_PARERR, []), ⟨SD_init, 0⟩, []) ∧
      SD_disk_write (cardOfBytes []) 0 (fun _ => 0) 9 0 ⟨SD_init, 0⟩
        = some (RES_PARERR, ⟨SD_init, 0⟩, []) ∧
      SD_disk_ioctl (cardOfBytes []) 0 CTRL_TRIM 0 ⟨SD_init, 0⟩
        = some ((RES_NOTRDY, []), ⟨SD_init, 0⟩, [])) ∧
    SD_disk_ioctl (cardOfBytes []) 0 CTRL_TRIM 0 ⟨readyCtx CT_SD2, 0⟩
      = if (⟨readyCtx CT_SD2, 0⟩ : Machine).ctx.dma_complete = 1 then
          some ((RES_PARERR, []), (⟨readyCtx CT_SD2, 0⟩ : Machine).exchanged (cardOfBytes []),
            [BusEvent.csLow, BusEvent.csHigh,
              BusEvent.xfer 0xFF ((⟨readyCtx CT_SD2, 0⟩ : Machine).rxByte (cardOfBytes []))])
        else
          some ((RES_PARERR, []), ⟨readyCtx CT_SD2, 0⟩, [BusEvent.csLow, BusEvent.csHigh]) :=
  have h := parameter_error_paths (cardOfBytes []) 0 (fun _ => 0) 9 CTRL_TRIM 0 ⟨SD_init, 0⟩
    (by decide)
  have h1 := parameter_error_paths (cardOfBytes []) 0 (fun _ => 0) 9 CTRL_TRIM 0
    ⟨readyCtx CT_SD2, 0⟩ (by decide)
  ⟨⟨h.1, h.2.1, h.2.2.1 (by decide)⟩, h1.2.2.2 (by decide)⟩

/-! ## Runs on concrete cards -/

/-- C1, the code at the failing input: on a standard-capacity SDv2 card
(`card_type = 0x04`, `BLOCK` clear) the frames of READ_SINGLE_BLOCK and
WRITE_BLOCK for sector 3 carry the argument bytes `00 00 00 03`, the sector
number itself, where `3 * 512` would be `00 00 06 00`. -/
theorem sd2_standard_capacity_address :
    (SD_disk_read (cardOfBytes [0xFF, 0x00, 0xFE]) 1 3 1 ⟨readyCtx CT_SD2, 0⟩).map
        (fun r => (r.1.1, r.2.2.take 8))
      = some (RES_OK, [BusEvent.csLow, BusEvent.xfer 0xFF 0xFF, BusEvent.tx [CMD17],
          BusEvent.tx [0x00], BusEvent.tx [0x00], BusEvent.tx [0x00], BusEvent.tx [0x03],
          BusEvent.tx [0x01]]) ∧
    (SD_disk_write (cardOfBytes [0xFF, 0x00, 0xFF, 0xFF, 0xFF, 0x05]) 1 (fun _ => 0) 3 1
        ⟨readyCtx CT_SD2, 0⟩).map (fun r => (r.1, r.2.2.take 8))
      = some (RES_OK, [BusEvent.csLow, BusEvent.xfer 0xFF 0xFF, BusEvent.tx [CMD24],
          BusEvent.tx [0x00], BusEvent.tx [0x00], BusEvent.tx [0x00], BusEvent.tx [0x03],
          BusEvent.tx [0x01]]) := by
  decide!

/-- C2, the code at the failing input: a two-block write to a card that is always
ready, accepts WRITE_MULTIPLE_BLOCK and answers both blocks with data response
`0x05`.  The driver sends the frame, two blocks with token `0xFC` and the stop
token `0xFD`, and returns `RES_ERROR`. -/
theorem multi_block_write_reports_error :
    (SD_disk_write (cardOfBytes writeTwoBlocks) 1 (fun _ => 0) 0 2 ⟨readyCtx 0x0C, 0⟩).map
        (fun r => (r.1, controlEvents r.2.2))
      = some (RES_ERROR, [BusEvent.csLow, BusEvent.tx [CMD25], BusEvent.tx [0], BusEvent.tx [0],
          BusEvent.tx [0], BusEvent.tx [0], BusEvent.tx [1], BusEvent.tx [0xFC],
          BusEvent.tx [0xFC], BusEvent.tx [0xFD], BusEvent.csHigh]) := by
  decide!

/-- C4, the code at the failing input: for a version 2.0 CSD with bytes 8 and 9
both `0xFF` the 16-bit `csize` wraps to 0 and `GET_SECTOR_COUNT` stores 0, where
`(0xFFFF + 1) << 10` is 67108864; with bytes `0x00 0xFF` it stores 262144. -/
theorem sector_count_v2_wraps :
    (SD_disk_ioctl (csdV2Card 0xFF 0xFF) 1 GET_SECTOR_COUNT 0 ⟨readyCtx 0x0C, 0⟩).map
        (fun r => r.1) = some (RES_OK, [Store.dword 0]) ∧
    (SD_disk_ioctl (csdV2Card 0x00 0xFF) 1 GET_SECTOR_COUNT 0 ⟨readyCtx 0x0C, 0⟩).map
        (fun r => r.1) = some (RES_OK, [Store.dword 262144]) := by
  decide!

/-- C8, the code at the failing input: from `SD_init`, a first
`SD_disk_initialize` classifies an SDHC card (status 0, card type `0x0C`); a
second one, in which the card does not echo the CMD8 check pattern, leaves card
type 0 while the returned status still has `NOINIT` clear. -/
theorem failed_reinit_leaves_noinit_clear :
    (( SD_disk_initialize (cardOfBytes sdhcThenFail) 1 ⟨SD_init, 0⟩).bind (fun r =>
        ( SD_disk_initialize (cardOfBytes sdhcThenFail) 1 r.2.1).map (fun r2 =>
          ((r.1, r.2.1.ctx.card_type), (r2.1, r2.2.1.ctx.status, r2.2.1.ctx.card_type)))))
      = some ((0, 0x0C), (0, 0, 0)) := by
  decide!

/-! ## Received bytes -/

theorem SPI_RxByte_total (card : Card) (m : Machine) :
    ∃ b m1 t, SPI_RxByte card m = some (b, m1, t) ∧ b < 256 := by
  by_cases h : m.ctx.dma_complete = 1
  · exact ⟨_, _, _, SPI_RxByte_apply card m h, Nat.mod_lt _ (by decide)⟩
  · exact ⟨_, _, _, SPI_RxByte_skip card m h, by decide⟩

theorem SD_RxDataBlock_data_bytes (card : Card) (len : Nat) :
    ∀ (m m1 : Machine) (data : List Nat) (t : List BusEvent),
      SD_RxDataBlock_data card len m = some (data, m1, t) →
      data.length = len + 1 ∧ ∀ b ∈ data, b < 256 := by
  induction len with
  | zero =>
    intro m m1 data t h
    unfold SD_RxDataBlock_data at h
    obtain ⟨b, ma, ta, hb, hlt⟩ := SPI_RxByte_total card m
    rw [SD.bind_of_eq hb] at h
    simp at h
    obtain ⟨rfl, -, -⟩ := h
    simp [hlt]
  | succ len ih =>
    intro m m1 data t h
    unfold SD_RxDataBlock_data at h
    obtain ⟨b, ma, ta, hb, hlt⟩ := SPI_RxByte_total card m
    rw [SD.bind_of_eq hb] at h
    cases hr : SD_RxDataBlock_data card len ma with
    | none => rw [SD.bind_of_stuck hr] at h; simp at h
    | some r =>
      obtain ⟨rest, mb, tb⟩ := r
      rw [SD.bind_of_eq hr] at h
      simp at h
      obtain ⟨rfl, -, -⟩ := h
      obtain ⟨hl, hall⟩ := ih ma mb rest tb hr
      constructor
      · simp [hl]
      · intro x hx
        rcases List.mem_cons.mp hx with rfl | hx
        · exact hlt
        · exact hall x hx



/-! ## Bit fields of the CSD -/

theorem getD_lt (l : List Nat) (h : ∀ b ∈ l, b < 256) (i : Nat) : l.getD i 0 < 256 := by
  rw [List.getD_eq_getElem?_getD]
  cases hi : l[i]? with
  | none => simp
  | some b => simpa using h b (List.getElem?_mem hi)

theorem and3 (x : Nat) : x &&& 3 = x % 4 := Nat.and_pow_two_sub_one_eq_mod x 2
theorem and15 (x : Nat) : x &&& 15 = x % 16 := Nat.and_pow_two_sub_one_eq_mod x 4

set_option maxRecDepth 100000 in
theorem and128 : ∀ x, x < 256 → (x &&& 128) >>> 7 = x / 128 := by decide

theorem or_fields (a b c : Nat) (hb : b < 256) (hc : c < 4) :
    (a <<< 10 ||| b <<< 2) ||| c = c + b * 4 + a * 1024 := by
  rw [Nat.shiftLeft_eq, Nat.shiftLeft_eq]
  have h1 : a * 2 ^ 10 ||| b * 2 ^ 2 = 2 ^ 10 * a + b * 2 ^ 2 := by
    rw [Nat.mul_add_lt_is_or (by omega) a, Nat.mul_comm]
  have h2 : 2 ^ 10 * a + b * 2 ^ 2 = 2 ^ 2 * (a * 256 + b) := by omega
  rw [h1, h2, ← Nat.mul_add_lt_is_or (by omega : c < 2 ^ 2)]
  omega

theorem or_mult (p q : Nat) (hq : q < 2) : p <<< 1 ||| q = q + p * 2 := by
  rw [Nat.shiftLeft_eq]
  have h : p * 2 ^ 1 = 2 ^ 1 * p := by omega
  rw [h, ← Nat.mul_add_lt_is_or (by omega : q < 2 ^ 1)]
  omega

/-! ## `GET_SECTOR_COUNT` -/

theorem SD_RxDataBlock_bytes (card : Card) (fuel len : Nat) (m m1 : Machine) (data : List Nat)
    (t : List BusEvent) (h : SD_RxDataBlock card fuel len m = some ((true, data), m1, t)) :
    data.length = len + 1 ∧ ∀ b ∈ data, b < 256 := by
  unfold SD_RxDataBlock at h
  obtain ⟨_, ma, ta, tb, -, h, -⟩ := SD.bind_eq_some h
  obtain ⟨token, mb, tc, td, -, h, -⟩ := SD.bind_eq_some h
  by_cases htok : token ≠ 0xFE
  · simp [htok] at h
  · simp only [htok, if_false] at h
    obtain ⟨d, mc, te, tf, hd, h, -⟩ := SD.bind_eq_some h
    obtain ⟨_, md, tg, th, -, h, -⟩ := SD.bind_eq_some h
    obtain ⟨_, me, ti, tj, -, h, -⟩ := SD.bind_eq_some h
    simp at h
    obtain ⟨rfl, -, -⟩ := h
    exact SD_RxDataBlock_data_bytes card len mb mc d te hd

theorem receivedCSD_eq_some {card : Card} {fuel : Nat} {m : Machine} {csd : List Nat}
    (h : receivedCSD card fuel m = some csd) :
    ∃ m1 t1 data m2 t2, SD_SendCmd card fuel CMD9 0 m = some (0, m1, t1) ∧
      SD_RxDataBlock card fuel 16 m1 = some ((true, data), m2, t2) ∧ csd = data.take 16 := by
  unfold receivedCSD at h
  cases hc : SD_SendCmd card fuel CMD9 0 m with
  | none => simp [hc] at h
  | some r =>
    obtain ⟨r, m1, t1⟩ := r
    simp only [hc] at h
    by_cases hr : r = 0
    · subst hr
      simp only [if_true] at h
      cases hb : SD_RxDataBlock card fuel 16 m1 with
      | none => simp [hb] at h
      | some b =>
        obtain ⟨⟨ok, data⟩, m2, t2⟩ := b
        simp only [hb] at h
        cases ok with
        | false => simp at h
        | true =>
          simp at h
          exact ⟨m1, t1, data, m2, t2, rfl, hb, h.symm⟩
    · simp [hr] at h

theorem SD_disk_ioctl_sector_count (card : Card) (fuel arg : Nat) (m : Machine) (csd : List Nat)
    (hinit : m.ctx.status &&& STA_NOINIT = 0) (hcsd : receivedCSD card fuel m = some csd) :
    ∃ m1 tr, SD_disk_ioctl card fuel GET_SECTOR_COUNT arg m
      = some ((RES_OK, [Store.dword (SD_sector_count csd)]), m1, tr) := by
  obtain ⟨m1, t1, data, m2, t2, hc, hb, rfl⟩ := receivedCSD_eq_some hcsd
  obtain ⟨b, m3, t3, hrx, -⟩ := SPI_RxByte_total card m2
  have hne : GET_SECTOR_COUNT ≠ CTRL_POWER := by decide
  refine ⟨m3, [BusEvent.csLow] ++ (t1 ++ t2) ++ ([BusEvent.csHigh] ++ t3), ?_⟩
  simp [SD_disk_ioctl, hne, SD.bind_apply, SD.seq, hinit, SELECT_apply, hc, hb, DESELECT_apply, hrx]


theorem receivedCSD_bytes {card : Card} {fuel : Nat} {m : Machine} {csd : List Nat}
    (h : receivedCSD card fuel m = some csd) : csd.length = 16 ∧ ∀ b ∈ csd, b < 256 := by
  obtain ⟨m1, t1, data, m2, t2, -, hb, rfl⟩ := receivedCSD_eq_some h
  obtain ⟨hl, hall⟩ := SD_RxDataBlock_bytes card fuel 16 m1 m2 data t2 hb
  exact ⟨by simp [hl], fun b hb => hall b (List.mem_of_mem_take hb)⟩

theorem SD_sector_count_v1 (csd : List Nat) (hb : ∀ b ∈ csd, b < 256)
    (hver : csd.getD 0 0 >>> 6 ≠ 1) (hn : 9 ≤ csdReadBlLen csd + csdCSizeMult csd + 2) :
    SD_sector_count csd
        = (csdCSize csd + 1) <<< (csdCSizeMult csd + 2 + csdReadBlLen csd - 9) ∧
      SD_sector_count csd * 512
        = (csdCSize csd + 1) * 2 ^ (csdCSizeMult csd + 2) * 2 ^ csdReadBlLen csd ∧
      (csdCSize csd + 1) <<< (csdCSizeMult csd + 2 + csdReadBlLen csd - 9) < 2 ^ 32 := by
  have h5 := getD_lt csd hb 5
  have h6 := getD_lt csd hb 6
  have h7 := getD_lt csd hb 7
  have h8 := getD_lt csd hb 8
  have h9 := getD_lt csd hb 9
  have h10 := getD_lt csd hb 10
  have e10 := and128 (csd.getD 10 0) h10
  have hq : csd.getD 10 0 >>> 7 < 2 := by
    rw [Nat.shiftRight_eq_div_pow]; omega
  have hc : csd.getD 8 0 >>> 6 < 4 := by
    rw [Nat.shiftRight_eq_div_pow]; omega
  have hmult : csdCSizeMult csd = csd.getD 10 0 >>> 7 + (csd.getD 9 0 &&& 3) * 2 := by
    unfold csdCSizeMult; exact or_mult _ _ hq
  have hsize : csdCSize csd
      = csd.getD 8 0 >>> 6 + csd.getD 7 0 * 4 + (csd.getD 6 0 &&& 3) * 1024 := by
    unfold csdCSize; exact or_fields _ _ _ h7 hc
  have ha : csd.getD 6 0 &&& 3 < 4 := by rw [and3]; omega
  have hp : csd.getD 9 0 &&& 3 < 4 := by rw [and3]; omega
  have hr : csdReadBlLen csd < 16 := by unfold csdReadBlLen; rw [and15]; omega
  have hn8 : ((csd.getD 5 0 &&& 15) + ((csd.getD 10 0 &&& 128) >>> 7)
      + ((csd.getD 9 0 &&& 3) <<< 1) + 2) % 2 ^ 8
      = csdCSizeMult csd + 2 + csdReadBlLen csd := by
    rw [hmult, e10, Nat.shiftLeft_eq, Nat.shiftRight_eq_div_pow]
    unfold csdReadBlLen at hr ⊢
    omega
  have hcs : ((csd.getD 8 0 >>> 6) + (csd.getD 7 0 <<< 2)
      + ((csd.getD 6 0 &&& 3) <<< 10) + 1) % 2 ^ 16 = csdCSize csd + 1 := by
    rw [hsize, Nat.shiftLeft_eq, Nat.shiftLeft_eq]
    omega
  have hC : csdCSize csd + 1 ≤ 2 ^ 12 := by rw [hsize]; omega
  have hM : csdCSizeMult csd < 8 := by rw [hmult]; omega
  have hpow : 2 ^ (csdCSizeMult csd + 2 + csdReadBlLen csd - 9) ≤ 2 ^ 15 :=
    Nat.pow_le_pow_right (by decide) (by omega)
  have hlt : (csdCSize csd + 1) <<< (csdCSizeMult csd + 2 + csdReadBlLen csd - 9) < 2 ^ 32 := by
    rw [Nat.shiftLeft_eq]
    calc (csdCSize csd + 1) * 2 ^ (csdCSizeMult csd + 2 + csdReadBlLen csd - 9)
        ≤ 2 ^ 12 * 2 ^ 15 := Nat.mul_le_mul hC hpow
      _ < 2 ^ 32 := by decide
  have hval : SD_sector_count csd
      = (csdCSize csd + 1) <<< (csdCSizeMult csd + 2 + csdReadBlLen csd - 9) := by
    unfold SD_sector_count
    simp only [hver, if_false]
    rw [hn8, hcs, Nat.mod_eq_of_lt hlt]
  refine ⟨hval, ?_, hlt⟩
  rw [hval, Nat.shiftLeft_eq, Nat.mul_assoc, Nat.mul_assoc, ← Nat.pow_add,
    show (512 : Nat) = 2 ^ 9 from rfl, ← Nat.pow_add]
  congr 2
  omega


/-! ## Card classification -/

theorem SD_init_sd2_type {card : Card} {fuel ty : Nat} {m m1 : Machine} {t : List BusEvent}
    (h : SD_init_sd2 card fuel m = some (ty, m1, t)) :
    ty = 0 ∨ ty = CT_SD2 ∨ ty = CT_SD2 ||| CT_BLOCK := by
  unfold SD_init_sd2 at h
  obtain ⟨ocr, ma, ta, tb, -, h, -⟩ := SD.bind_eq_some h
  split at h
  · obtain ⟨_, mb, tc, td, -, h, -⟩ := SD.bind_eq_some h
    obtain ⟨ctx, mc, te, tf, -, h, -⟩ := SD.bind_eq_some h
    split at h
    · obtain ⟨r58, md, tg, th, -, h, -⟩ := SD.bind_eq_some h
      split at h
      · obtain ⟨ocr2, me, ti, tj, -, h, -⟩ := SD.bind_eq_some h
        simp only [SD.pure_apply, Option.some.injEq, Prod.mk.injEq] at h
        obtain ⟨rfl, -, -⟩ := h
        split
        · exact Or.inr (Or.inr rfl)
        · exact Or.inr (Or.inl rfl)
      · simp only [SD.pure_apply, Option.some.injEq, Prod.mk.injEq] at h
        exact Or.inl h.1.symm
    · simp only [SD.pure_apply, Option.some.injEq, Prod.mk.injEq] at h
      exact Or.inl h.1.symm
  · simp only [SD.pure_apply, Option.some.injEq, Prod.mk.injEq] at h
    exact Or.inl h.1.symm

theorem SD_init_legacy_type {card : Card} {fuel ty : Nat} {m m1 : Machine} {t : List BusEvent}
    (h : SD_init_legacy card fuel m = some (ty, m1, t)) :
    ty = 0 ∨ ty = CT_MMC ∨ ty = CT_SD1 := by
  unfold SD_init_legacy at h
  obtain ⟨r55, ma, ta, tb, -, h, -⟩ := SD.bind_eq_some h
  obtain ⟨ty0, mb, tc, td, hty, h, -⟩ := SD.bind_eq_some h
  have hty0 : ty0 = CT_MMC ∨ ty0 = CT_SD1 := by
    split at hty
    · obtain ⟨r41, mc, te, tf, -, hty, -⟩ := SD.bind_eq_some hty
      simp only [SD.pure_apply, Option.some.injEq, Prod.mk.injEq] at hty
      obtain ⟨rfl, -, -⟩ := hty
      split
      · exact Or.inr rfl
      · exact Or.inl rfl
    · simp only [SD.pure_apply, Option.some.injEq, Prod.mk.injEq] at hty
      exact Or.inl hty.1.symm
  obtain ⟨_, mc, te, tf, -, h, -⟩ := SD.bind_eq_some h
  obtain ⟨ctx, md, tg, th, -, h, -⟩ := SD.bind_eq_some h
  split at h
  · simp only [SD.pure_apply, Option.some.injEq, Prod.mk.injEq] at h
    exact Or.inl h.1.symm
  · obtain ⟨r16, me, ti, tj, -, h, -⟩ := SD.bind_eq_some h
    split at h
    · simp only [SD.pure_apply, Option.some.injEq, Prod.mk.injEq] at h
      exact Or.inl h.1.symm
    · simp only [SD.pure_apply, Option.some.injEq, Prod.mk.injEq] at h
      obtain ⟨rfl, -, -⟩ := h
      exact Or.inr hty0

theorem SD_init_classify_type {card : Card} {fuel ty : Nat} {m m1 : Machine}
    {t : List BusEvent} (h : SD_init_classify card fuel m = some (ty, m1, t)) :
    ty = 0 ∨ ty = CT_MMC ∨ ty = CT_SD1 ∨ ty = CT_SD2 ∨ ty = CT_SD2 ||| CT_BLOCK := by
  unfold SD_init_classify at h
  obtain ⟨r0, ma, ta, tb, -, h, -⟩ := SD.bind_eq_some h
  split at h
  · obtain ⟨_, mb, tc, td, -, h, -⟩ := SD.bind_eq_some h
    obtain ⟨r8, mc, te, tf, -, h, -⟩ := SD.bind_eq_some h
    split at h
    · rcases SD_init_sd2_type h with h | h | h
      · exact Or.inl h
      · exact Or.inr (Or.inr (Or.inr (Or.inl h)))
      · exact Or.inr (Or.inr (Or.inr (Or.inr h)))
    · rcases SD_init_legacy_type h with h | h | h
      · exact Or.inl h
      · exact Or.inr (Or.inl h)
      · exact Or.inr (Or.inr (Or.inl h))
  · simp only [SD.pure_apply, Option.some.injEq, Prod.mk.injEq] at h
    exact Or.inl h.1.symm


/-! ## `SD_disk_initialize` -/

theorem SPI_RxByte_ctx {card : Card} {m m1 : Machine} {b : Nat} {t : List BusEvent}
    (h : SPI_RxByte card m = some (b, m1, t)) :
    m1.ctx.status = m.ctx.status ∧ m1.ctx.card_type = m.ctx.card_type ∧
      m1.ctx.power_flag = m.ctx.power_flag := by
  by_cases hd : m.ctx.dma_complete = 1
  · rw [SPI_RxByte_apply card m hd] at h
    simp only [Option.some.injEq, Prod.mk.injEq] at h
    obtain ⟨-, rfl, -⟩ := h
    exact ⟨rfl, rfl, rfl⟩
  · rw [SPI_RxByte_skip card m hd] at h
    simp only [Option.some.injEq, Prod.mk.injEq] at h
    obtain ⟨-, rfl, -⟩ := h
    exact ⟨rfl, rfl, rfl⟩

theorem and_not_noinit (s : Nat) : (s &&& (0xFF ^^^ STA_NOINIT)) &&& STA_NOINIT = 0 := by
  rw [Nat.and_assoc]
  show s &&& 0 = 0
  exact Nat.and_zero s

/-- The end of `SD_disk_initialize`, once `type` is known. -/
theorem SD_disk_initialize_result {card : Card} {fuel st : Nat} {m m1 : Machine}
    {tr : List BusEvent} (hnodisk : m.ctx.status &&& STA_NODISK = 0)
    (h : SD_disk_initialize card fuel m = some (st, m1, tr)) :
    ∃ ma ta mb tb, SD_PowerOn card m = some ((), ma, ta) ∧
      SD_init_classify card fuel ma = some (m1.ctx.card_type, mb, tb) ∧
      st = m1.ctx.status ∧
      (m1.ctx.card_type ≠ 0 → st = mb.ctx.status &&& (0xFF ^^^ STA_NOINIT)) ∧
      (m1.ctx.card_type = 0 → st = mb.ctx.status ∧ m1.ctx.power_flag = 0) := by
  unfold SD_disk_initialize at h
  rw [SD.bind_of_eq (SD.getCtx_apply m)] at h
  simp only [hnodisk, ne_eq, not_true_eq_false, if_false] at h
  cases hp : SD_PowerOn card m with
  | none => rw [SD.bind_of_stuck hp] at h; simp at h
  | some r =>
    obtain ⟨⟨⟩, ma, ta⟩ := r
    rw [SD.bind_of_eq hp, SD.bind_of_eq (SELECT_apply ma)] at h
    cases hc : SD_init_classify card fuel ma with
    | none => rw [SD.bind_of_stuck hc] at h; simp at h
    | some r =>
      obtain ⟨ty, mb, tb⟩ := r
      rw [SD.bind_of_eq hc, SD.bind_of_eq (SD.modifyCtx_apply _ mb),
        SD.bind_of_eq (DESELECT_apply _)] at h
      obtain ⟨b, mc, tc, hrx, -⟩ := SPI_RxByte_total card
        { mb with ctx := { mb.ctx with card_type := ty } }
      obtain ⟨hs, hct, hpf⟩ := SPI_RxByte_ctx hrx
      rw [SD.bind_of_eq hrx] at h
      by_cases hty : ty = 0
      · subst hty
        simp only [ne_eq, not_true_eq_false, if_false] at h
        rw [SD.bind_of_eq (show SD_PowerOff mc = some ((), _, []) from rfl),
          SD.bind_of_eq (SD.getCtx_apply _)] at h
        simp only [SD.pure_apply, Option.map_some', Option.some.injEq, Prod.mk.injEq] at h
        obtain ⟨rfl, rfl, -⟩ := h
        refine ⟨ma, ta, mb, tb, rfl, ?_, rfl, ?_, ?_⟩
        · show SD_init_classify card fuel ma = some (mc.ctx.card_type, mb, tb)
          rw [hct]; exact hc
        · intro hne; exact absurd hct hne
        · intro _; exact ⟨hs, rfl⟩
      · simp only [ne_eq, hty, not_false_eq_true, if_true] at h
        rw [SD.bind_of_eq (SD.modifyCtx_apply _ mc), SD.bind_of_eq (SD.getCtx_apply _)] at h
        simp only [SD.pure_apply, Option.map_some', Option.some.injEq, Prod.mk.injEq] at h
        obtain ⟨rfl, rfl, -⟩ := h
        refine ⟨ma, ta, mb, tb, rfl, ?_, rfl, ?_, ?_⟩
        · show SD_init_classify card fuel ma = some (mc.ctx.card_type, mb, tb)
          rw [hct]; exact hc
        · intro _
          show mc.ctx.status &&& _ = _
          rw [hs]
        · intro h0
          exact absurd (hct.symm.trans h0) hty


theorem SPI_TxByte_total (data : Nat) (m : Machine) :
    ∃ m1 t, SPI_TxByte data m = some ((), m1, t) := by
  by_cases h : m.ctx.dma_complete = 1
  · exact ⟨_, _, SPI_TxByte_apply data m h⟩
  · refine ⟨m, [], ?_⟩
    unfold SPI_TxByte
    rw [SD.bind_of_eq (SD.getCtx_apply m)]
    simp only [h, if_false]
    rfl

theorem SPI_TxBuffer_total (buffer : List Nat) (m : Machine) :
    ∃ m1 t, SPI_TxBuffer buffer m = some ((), m1, t) := by
  by_cases h : m.ctx.dma_complete = 1
  · unfold SPI_TxBuffer
    rw [SD.bind_of_eq (SD.getCtx_apply m)]
    simp only [h, if_true]
    rw [SD.bind_of_eq (SD.modifyCtx_apply _ m)]
    exact ⟨_, _, rfl⟩
  · refine ⟨m, [], ?_⟩
    unfold SPI_TxBuffer
    rw [SD.bind_of_eq (SD.getCtx_apply m)]
    simp only [h, if_false]
    rfl

theorem SD_PowerOn_wake_total (n : Nat) :
    ∀ m : Machine, ∃ m1 t, SD_PowerOn_wake n m = some ((), m1, t) := by
  induction n with
  | zero => intro m; exact ⟨m, [], rfl⟩
  | succ n ih =>
    intro m
    obtain ⟨ma, ta, ha⟩ := SPI_TxByte_total 0xFF m
    obtain ⟨mb, tb, hb⟩ := ih ma
    refine ⟨mb, ta ++ tb, ?_⟩
    unfold SD_PowerOn_wake
    rw [SD.bind_of_eq ha, hb]
    rfl

theorem SD_PowerOn_wait_total (card : Card) (cnt : Nat) :
    ∀ m : Machine, ∃ m1 t, SD_PowerOn_wait card cnt m = some ((), m1, t) := by
  induction cnt with
  | zero =>
    intro m
    obtain ⟨b, ma, ta, ha, -⟩ := SPI_RxByte_total card m
    refine ⟨ma, ta ++ [], ?_⟩
    unfold SD_PowerOn_wait
    rw [SD.bind_of_eq ha]
    rfl
  | succ cnt ih =>
    intro m
    obtain ⟨b, ma, ta, ha, -⟩ := SPI_RxByte_total card m
    unfold SD_PowerOn_wait
    rw [SD.bind_of_eq ha]
    by_cases hb : b ≠ 0x01
    · obtain ⟨mb, tb, hb2⟩ := ih ma
      refine ⟨mb, ta ++ tb, ?_⟩
      rw [if_pos hb, hb2]
      rfl
    · refine ⟨ma, ta ++ [], ?_⟩
      rw [if_neg hb]
      rfl

/-- Power-on always returns: all its loops are bounded. -/
theorem SD_PowerOn_total (card : Card) (m : Machine) :
    ∃ m1 t, SD_PowerOn card m = some ((), m1, t) := by
  unfold SD_PowerOn
  rw [SD.bind_of_eq (DESELECT_apply m)]
  obtain ⟨ma, ta, ha⟩ := SD_PowerOn_wake_total 10 m
  rw [SD.bind_of_eq ha, SD.bind_of_eq (SELECT_apply ma)]
  obtain ⟨mb, tb, hb⟩ := SPI_TxBuffer_total [CMD0, 0, 0, 0, 0, 0x95] ma
  rw [SD.bind_of_eq hb]
  obtain ⟨mc, tc, hc⟩ := SD_PowerOn_wait_total card 0x1FFF mb
  rw [SD.bind_of_eq hc, SD.bind_of_eq (DESELECT_apply mc)]
  obtain ⟨md, td, hd⟩ := SPI_TxByte_total 0xFF mc
  rw [SD.bind_of_eq hd]
  exact ⟨_, _, rfl⟩

/-- Once the classification returns `ty`, `SD_disk_initialize` returns: the card
type is `ty`, and the returned status is the context status, with `NOINIT`
cleared when `ty` is not 0. -/
theorem SD_disk_initialize_of_classify {card : Card} {fuel ty : Nat} {m ma mb : Machine}
    {ta tb : List BusEvent} (hnodisk : m.ctx.status &&& STA_NODISK = 0)
    (hp : SD_PowerOn card m = some ((), ma, ta))
    (hc : SD_init_classify card fuel ma = some (ty, mb, tb)) :
    ∃ st m1 tr, SD_disk_initialize card fuel m = some (st, m1, tr) ∧
      m1.ctx.card_type = ty ∧ st = m1.ctx.status ∧ (ty ≠ 0 → st &&& STA_NOINIT = 0) := by
  unfold SD_disk_initialize
  rw [SD.bind_of_eq (SD.getCtx_apply m)]
  simp only [hnodisk, ne_eq, not_true_eq_false, if_false]
  rw [SD.bind_of_eq hp, SD.bind_of_eq (SELECT_apply ma), SD.bind_of_eq hc,
    SD.bind_of_eq (SD.modifyCtx_apply _ mb), SD.bind_of_eq (DESELECT_apply _)]
  obtain ⟨b, mc, tc, hrx, -⟩ := SPI_RxByte_total card
    { mb with ctx := { mb.ctx with card_type := ty } }
  obtain ⟨hs, hct, hpf⟩ := SPI_RxByte_ctx hrx
  rw [SD.bind_of_eq hrx]
  by_cases hty : ty = 0
  · subst hty
    simp only [ne_eq, not_true_eq_false, if_false]
    rw [SD.bind_of_eq (show SD_PowerOff mc = some ((), _, []) from rfl),
      SD.bind_of_eq (SD.getCtx_apply _)]
    exact ⟨_, _, _, rfl, hct, rfl, by simp⟩
  · simp only [ne_eq, hty, not_false_eq_true, if_true]
    rw [SD.bind_of_eq (SD.modifyCtx_apply _ mc), SD.bind_of_eq (SD.getCtx_apply _)]
    exact ⟨_, _, _, rfl, hct, rfl, fun _ => and_not_noinit _⟩




/-- C10: SDv2 classification.  In an initialise run with `NODISK` clear in which,
after power-on, CMD0 returns 1, CMD8(0x1AA) returns 1, the R7 bytes end in
`01 AA`, the APP_CMD/SEND_OP_COND(HCS) loop ends with Timer1 not yet zero (it
ended because the op-cond command returned 0), and CMD58 returns 0 followed by
OCR bytes `o0 .. o3`: `SD_disk_initialize` returns, the card type is `0x0C` when
`o0` has bit `0x40` set and `0x04` otherwise, and the returned status (the
context status) has `NOINIT` clear. -/
theorem sdv2_classification (card : Card) (fuel : Nat) (m m0 m1 m2 m3 m4 m5 m6 : Machine)
    (t0 t1 t2 t3 t4 t5 t6 : List BusEvent) (r0 r1 o0 o1 o2 o3 : Nat)
    (hnodisk : m.ctx.status &&& STA_NODISK = 0)
    (hpower : SD_PowerOn card m = some ((), m0, t0))
    (hcmd0 : SD_SendCmd card fuel CMD0 0 m0 = some (1, m1, t1))
    (hcmd8 : SD_SendCmd card fuel CMD8 0x1AA { m1 with ctx := { m1.ctx with timer1 := 1000 } }
      = some (1, m2, t2))
    (hr7 : SD_read_ocr card m2 = some ((r0, r1, 0x01, 0xAA), m3, t3))
    (hopcond : SD_init_sd2_loop card fuel fuel m3 = some ((), m4, t4))
    (htimer : m4.ctx.timer1 ≠ 0)
    (hcmd58 : SD_SendCmd card fuel CMD58 0 m4 = some (0, m5, t5))
    (hocr : SD_read_ocr card m5 = some ((o0, o1, o2, o3), m6, t6)) :
    ∃ st m7 tr, SD_disk_initialize card fuel m = some (st, m7, tr) ∧
      m7.ctx.card_type = (if o0 &&& 0x40 ≠ 0 then 0x0C else 0x04) ∧
      st = m7.ctx.status ∧ st &&& STA_NOINIT = 0 := by
  have hsd2 : SD_init_sd2 card fuel m2
      = some (if o0 &&& 0x40 ≠ 0 then 0x0C else 0x04, m6, t3 ++ (t4 ++ ([] ++ (t5 ++ (t6 ++ []))))) := by
    unfold SD_init_sd2
    rw [SD.bind_of_eq hr7]
    simp only [and_self, if_true]
    rw [SD.bind_of_eq hopcond, SD.bind_of_eq (SD.getCtx_apply m4), if_pos htimer,
      SD.bind_of_eq hcmd58]
    simp only [if_true]
    rw [SD.bind_of_eq hocr]
    rfl
  have hcl : SD_init_classify card fuel m0
      = some (if o0 &&& 0x40 ≠ 0 then 0x0C else 0x04, m6,
          t1 ++ ([] ++ (t2 ++ (t3 ++ (t4 ++ ([] ++ (t5 ++ (t6 ++ []))))))))  := by
    unfold SD_init_classify
    rw [SD.bind_of_eq hcmd0]
    simp only [if_true]
    rw [SD.bind_of_eq (SD.modifyCtx_apply _ m1), SD.bind_of_eq hcmd8]
    simp only [if_true, hsd2]
    rfl
  obtain ⟨st, m7, tr, h, hty, hst, hno⟩ := SD_disk_initialize_of_classify hnodisk hpower hcl
  refine ⟨st, m7, tr, h, hty, hst, hno ?_⟩
  split <;> decide

/-- C10, witness: the SDHC scenario, OCR bytes `C0 FF 80 00`. -/
theorem sdv2_classification_witness :
    ∃ st m7 tr, SD_disk_initialize (cardOfBytes sdhcInit) 1 ⟨SD_init, 0⟩ = some (st, m7, tr) ∧
      m7.ctx.card_type = (if 0xC0 &&& 0x40 ≠ 0 then 0x0C else 0x04) ∧
      st = m7.ctx.status ∧ st &&& STA_NOINIT = 0 :=
  sdv2_classification (cardOfBytes sdhcInit) 1 ⟨SD_init, 0⟩
    (sdhcAt 0 0 1) (sdhcAt 0 500 3) (sdhcAt 1000 500 5) (sdhcAt 1000 500 9)
    (sdhcAt 1000 500 13) (sdhcAt 1000 500 15) (sdhcAt 1000 500 19)
    ([BusEvent.csHigh] ++ List.replicate 10 (BusEvent.tx [0xFF]) ++ [BusEvent.csLow,
      BusEvent.tx [CMD0, 0, 0, 0, 0, 0x95], BusEvent.xfer 0xFF 0x01, BusEvent.csHigh,
      BusEvent.tx [0xFF]])
    (BusEvent.xfer 0xFF 0xFF :: frameEvents CMD0 0 0 0 0 0x95 ++ [BusEvent.xfer 0xFF 0x01])
    (BusEvent.xfer 0xFF 0xFF :: frameEvents CMD8 0 0 0x01 0xAA 0x87 ++ [BusEvent.xfer 0xFF 0x01])
    [BusEvent.xfer 0xFF 0x00, BusEvent.xfer 0xFF 0x00, BusEvent.xfer 0xFF 0x01,
      BusEvent.xfer 0xFF 0xAA]
    (BusEvent.xfer 0xFF 0xFF :: frameEvents CMD55 0 0 0 0 0x01 ++ [BusEvent.xfer 0xFF 0x01]
      ++ BusEvent.xfer 0xFF 0xFF :: frameEvents CMD41 0x40 0 0 0 0x01
      ++ [BusEvent.xfer 0xFF 0x00])
    (BusEvent.xfer 0xFF 0xFF :: frameEvents CMD58 0 0 0 0 0x01 ++ [BusEvent.xfer 0xFF 0x00])
    [BusEvent.xfer 0xFF 0xC0, BusEvent.xfer 0xFF 0xFF, BusEvent.xfer 0xFF 0x80,
      BusEvent.xfer 0xFF 0x00]
    0x00 0x00 0xC0 0xFF 0x80 0x00
    (by decide) (by decide!) (by decide!) (by decide!) (by decide!) (by decide!) (by decide)
    (by decide!) (by decide!)

/-! ## Sector count -/

/-- What `GET_SECTOR_COUNT` computes for a version 2.0 CSD: the 16-bit `csize`
wraps, so the value is `((((csd[8] << 8) | csd[9]) + 1) mod 2^16) << 10`; it is
`(((csd[8] << 8) | csd[9]) + 1) << 10` unless bytes 8 and 9 are both `0xFF`. -/
theorem SD_sector_count_v2 (csd : List Nat) (hb : ∀ b ∈ csd, b < 256)
    (hver : csd.getD 0 0 >>> 6 = 1) :
    SD_sector_count csd = ((((csd.getD 8 0 <<< 8) ||| csd.getD 9 0) + 1) % 2 ^ 16) <<< 10 ∧
    (¬ (csd.getD 8 0 = 0xFF ∧ csd.getD 9 0 = 0xFF) →
      SD_sector_count csd = (((csd.getD 8 0 <<< 8) ||| csd.getD 9 0) + 1) <<< 10) := by
  have h8 := getD_lt csd hb 8
  have h9 := getD_lt csd hb 9
  have hor : (csd.getD 8 0 <<< 8) ||| csd.getD 9 0 = csd.getD 9 0 + csd.getD 8 0 <<< 8 := by
    rw [Nat.shiftLeft_eq, Nat.mul_comm, ← Nat.mul_add_lt_is_or (by omega : csd.getD 9 0 < 2 ^ 8)]
    omega
  have hval : SD_sector_count csd
      = ((((csd.getD 8 0 <<< 8) ||| csd.getD 9 0) + 1) % 2 ^ 16) <<< 10 := by
    unfold SD_sector_count
    simp only [hver, if_true]
    rw [hor]
    apply Nat.mod_eq_of_lt
    rw [Nat.shiftLeft_eq]
    have : (csd.getD 9 0 + csd.getD 8 0 <<< 8 + 1) % 2 ^ 16 < 2 ^ 16 := Nat.mod_lt _ (by decide)
    omega
  refine ⟨hval, fun hne => ?_⟩
  rw [hval, hor, Nat.shiftLeft_eq (csd.getD 8 0)]
  congr 1
  apply Nat.mod_eq_of_lt
  omega

/-- C5: for every CSD received by `GET_SECTOR_COUNT` (sixteen bytes) whose
structure version is not 1 and with `READ_BL_LEN + C_SIZE_MULT + 2 ≥ 9`, the
ioctl returns `RES_OK` and stores `(C_SIZE + 1) << (C_SIZE_MULT + 2 +
READ_BL_LEN - 9)`; that value times 512 is `(C_SIZE + 1) * 2^(C_SIZE_MULT + 2) *
2^READ_BL_LEN`, and it is below `2^32`. -/
theorem sector_count_v1 (card : Card) (fuel arg : Nat) (m : Machine) (csd : List Nat)
    (hinit : m.ctx.status &&& STA_NOINIT = 0) (hcsd : receivedCSD card fuel m = some csd)
    (hver : csd.getD 0 0 >>> 6 ≠ 1) (hn : 9 ≤ csdReadBlLen csd + csdCSizeMult csd + 2) :
    ∃ v m1 tr, SD_disk_ioctl card fuel GET_SECTOR_COUNT arg m
        = some ((RES_OK, [Store.dword v]), m1, tr) ∧
      csd.length = 16 ∧
      v = (csdCSize csd + 1) <<< (csdCSizeMult csd + 2 + csdReadBlLen csd - 9) ∧
      v * 512 = (csdCSize csd + 1) * 2 ^ (csdCSizeMult csd + 2) * 2 ^ csdReadBlLen csd ∧
      v < 2 ^ 32 := by
  obtain ⟨m1, tr, h⟩ := SD_disk_ioctl_sector_count card fuel arg m csd hinit hcsd
  obtain ⟨hlen, hb⟩ := receivedCSD_bytes hcsd
  obtain ⟨hv, hcap, hlt⟩ := SD_sector_count_v1 csd hb hver hn
  exact ⟨SD_sector_count csd, m1, tr, h, hlen, hv, hcap, hv ▸ hlt⟩

/-- C5, witness: a 1 GiB card, READ_BL_LEN 9, C_SIZE 4095, C_SIZE_MULT 7. -/
theorem sector_count_v1_witness :
    ∃ v m1 tr, SD_disk_ioctl (cardOfBytes ([0xFF, 0x00, 0xFE] ++ csdV1)) 1 GET_SECTOR_COUNT 0
          ⟨readyCtx CT_SD1, 0⟩ = some ((RES_OK, [Store.dword v]), m1, tr) ∧
      csdV1.length = 16 ∧
      v = (csdCSize csdV1 + 1) <<< (csdCSizeMult csdV1 + 2 + csdReadBlLen csdV1 - 9) ∧
      v * 512 = (csdCSize csdV1 + 1) * 2 ^ (csdCSizeMult csdV1 + 2) * 2 ^ csdReadBlLen csdV1 ∧
      v < 2 ^ 32 :=
  sector_count_v1 (cardOfBytes ([0xFF, 0x00, 0xFE] ++ csdV1)) 1 0 ⟨readyCtx CT_SD1, 0⟩ csdV1
    (by decide) (by decide!) (by decide) (by decide)

/-! ## Returning under a fair tick -/

theorem Returns.of_eq {α : Type} {x : Nat → SD α} {m : Machine}
    {r : α × Machine × List BusEvent} (h : ∀ fuel, x fuel m = some r) : Returns x m r :=
  ⟨0, fun fuel _ => h fuel⟩

theorem Returns.bind {α β : Type} {x : Nat → SD α} {f : Nat → α → SD β} {m m1 m2 : Machine}
    {a : α} {b : β} {t1 t2 : List BusEvent} (hx : Returns x m (a, m1, t1))
    (hf : Returns (fun n => f n a) m1 (b, m2, t2)) :
    Returns (fun n => x n >>= f n) m (b, m2, t1 ++ t2) := by
  obtain ⟨F1, h1⟩ := hx
  obtain ⟨F2, h2⟩ := hf
  refine ⟨max F1 F2, fun fuel hfuel => ?_⟩
  show (x fuel >>= f fuel) m = _
  have h2' : f fuel a m1 = some (b, m2, t2) := h2 fuel (le_trans (le_max_right _ _) hfuel)
  rw [SD.bind_of_eq (h1 fuel (le_trans (le_max_left _ _) hfuel)), h2']
  rfl

theorem Returns.result_unique {α : Type} {x : Nat → SD α} {m : Machine}
    {r r1 : α × Machine × List BusEvent} (h : Returns x m r) (h1 : Returns x m r1) : r = r1 := by
  obtain ⟨F, hF⟩ := h
  obtain ⟨F1, hF1⟩ := h1
  have := (hF (max F F1) (le_max_left _ _)).symm.trans (hF1 (max F F1) (le_max_right _ _))
  exact Option.some.inj this

theorem Machine.Kept.refl {m : Machine} (h : m.ctx.dma_complete = 1) : m.Kept m :=
  ⟨h, rfl, rfl, rfl⟩

theorem Machine.Kept.trans {m m1 m2 : Machine} (h : m.Kept m1) (h1 : m1.Kept m2) : m.Kept m2 :=
  ⟨h1.1, h1.2.1.trans h.2.1, h1.2.2.1.trans h.2.2.1, h1.2.2.2.trans h.2.2.2⟩

theorem Machine.Kept.exchanged (card : Card) (m : Machine) : m.Kept (m.exchanged card) :=
  ⟨rfl, rfl, rfl, rfl⟩

/-- A polling loop `do res = SPI_RxByte() while (C res ctx)` whose condition needs
a running timer returns under a fair tick. -/
theorem poll_returns {card : Card} (hfair : Fair card) (loop : Nat → SD Nat)
    (C : Nat → SD_Context → Prop) [∀ r c, Decidable (C r c)] (timer : SD_Context → Nat)
    (hloop : ∀ f, loop (f + 1) = (do
      let res ← SPI_RxByte card
      let ctx ← SD.getCtx
      if C res ctx then loop f else pure res))
    (hC : ∀ r c, C r c → timer c ≠ 0)
    (htick : ∀ m : Machine, timer (m.exchanged card).ctx = timer m.ctx - (card m.pos).2) :
    ∀ (T : Nat) (m : Machine), timer m.ctx ≤ T → m.ctx.dma_complete = 1 →
      ∃ r m1 t, Returns loop m (r, m1, t) ∧ m.Kept m1 := by
  -- one iteration that exits
  have hexit : ∀ m : Machine, m.ctx.dma_complete = 1 →
      ¬ C (m.rxByte card) (m.exchanged card).ctx →
      ∃ r m1 t, Returns loop m (r, m1, t) ∧ m.Kept m1 := by
    intro m hd hn
    refine ⟨m.rxByte card, m.exchanged card, [BusEvent.xfer 0xFF (m.rxByte card)] ++ ([] ++ []),
      ⟨1, fun fuel hfuel => ?_⟩, Machine.Kept.exchanged card m⟩
    obtain ⟨f, rfl⟩ : ∃ f, fuel = f + 1 := ⟨fuel - 1, by omega⟩
    rw [hloop, SD.bind_of_eq (SPI_RxByte_apply card m hd), SD.bind_of_eq (SD.getCtx_apply _),
      if_neg hn]
    rfl
  -- one iteration that continues
  have hstep : ∀ m : Machine, m.ctx.dma_complete = 1 →
      C (m.rxByte card) (m.exchanged card).ctx →
      (∃ r m1 t, Returns loop (m.exchanged card) (r, m1, t) ∧ (m.exchanged card).Kept m1) →
      ∃ r m1 t, Returns loop m (r, m1, t) ∧ m.Kept m1 := by
    intro m hd hc ⟨r, m1, t, ⟨F, hF⟩, hk⟩
    refine ⟨r, m1, [BusEvent.xfer 0xFF (m.rxByte card)] ++ ([] ++ t),
      ⟨F + 1, fun fuel hfuel => ?_⟩, (Machine.Kept.exchanged card m).trans hk⟩
    obtain ⟨f, rfl⟩ : ∃ f, fuel = f + 1 := ⟨fuel - 1, by omega⟩
    rw [hloop, SD.bind_of_eq (SPI_RxByte_apply card m hd), SD.bind_of_eq (SD.getCtx_apply _),
      if_pos hc, hF f (by omega)]
    rfl
  intro T
  induction T with
  | zero =>
    intro m hT hd
    apply hexit m hd
    intro hc
    have := hC _ _ hc
    rw [htick] at this
    omega
  | succ T ih =>
    intro m hT hd
    obtain ⟨k, hk, htk⟩ := hfair m.pos
    obtain ⟨d, hd'⟩ : ∃ d, m.pos + d = k := ⟨k - m.pos, by omega⟩
    clear hk
    induction d generalizing m with
    | zero =>
      by_cases hc : C (m.rxByte card) (m.exchanged card).ctx
      · apply hstep m hd hc
        apply ih _ _ rfl
        rw [htick]
        have : m.pos = k := by omega
        rw [this]
        omega
      · exact hexit m hd hc
    | succ d ihd =>
      by_cases hc : C (m.rxByte card) (m.exchanged card).ctx
      · apply hstep m hd hc
        apply ihd (m.exchanged card) _ rfl
        · show m.pos + 1 + d = k
          omega
        · rw [htick]; omega
      · exact hexit m hd hc



theorem SD_ReadyWait_returns {card : Card} (hfair : Fair card) (m : Machine)
    (hd : m.ctx.dma_complete = 1) :
    ∃ r m1 t, Returns (SD_ReadyWait card) m (r, m1, t) ∧ m.Kept m1 := by
  obtain ⟨r, m1, t, hr, hk⟩ := poll_returns hfair (SD_ReadyWait_loop card)
    (fun res ctx => res ≠ 0xFF ∧ ctx.timer2 ≠ 0) (fun c => c.timer2) (fun _ => rfl)
    (fun _ _ h => h.2) (fun _ => rfl) 500
    { m with ctx := { m.ctx with timer2 := 500 } } (le_refl _) hd
  refine ⟨r, m1, [] ++ t, ?_, hk⟩
  exact Returns.bind (x := fun _ => SD.modifyCtx (fun c => { c with timer2 := 500 }))
    (f := fun n _ => SD_ReadyWait_loop card n) (Returns.of_eq (fun _ => rfl)) hr

theorem SD_RxDataBlock_token_returns {card : Card} (hfair : Fair card) (m : Machine)
    (hd : m.ctx.dma_complete = 1) :
    ∃ r m1 t, Returns (SD_RxDataBlock_token card) m (r, m1, t) ∧ m.Kept m1 :=
  poll_returns hfair (SD_RxDataBlock_token card)
    (fun token ctx => token = 0xFF ∧ ctx.timer1 ≠ 0) (fun c => c.timer1) (fun _ => rfl)
    (fun _ _ h => h.2) (fun _ => rfl) m.ctx.timer1 m (le_refl _) hd

/-! ## Progress of time through a command -/

theorem Machine.Advanced.exchange (card : Card) (m : Machine) :
    m.Advanced card (m.exchanged card) := by
  refine ⟨Nat.lt_succ_self _, Nat.sub_le _ _, fun k h1 h2 hk => ?_⟩
  have hk' : k = m.pos := Nat.le_antisymm (Nat.lt_succ_iff.mp h2) h1
  subst hk'
  show m.ctx.timer1 - (card m.pos).2 < m.ctx.timer1 ∨ m.ctx.timer1 - (card m.pos).2 = 0
  omega

theorem Machine.Advanced.chain {card : Card} {m m1 m2 : Machine} (h : m.Advanced card m1)
    (h1 : m1.Advanced card m2) : m.Advanced card m2 := by
  obtain ⟨hp, ht, hk⟩ := h
  obtain ⟨hp1, ht1, hk1⟩ := h1
  refine ⟨Nat.lt_trans hp hp1, Nat.le_trans ht1 ht, fun k h1 h2 hpos => ?_⟩
  by_cases hlt : k < m1.pos
  · rcases hk k h1 hlt hpos with h | h <;> omega
  · rcases hk1 k (by omega) h2 hpos with h | h <;> omega

theorem SD_SendCmd_poll_total (card : Card) (n : Nat) :
    ∀ m : Machine, m.ctx.dma_complete = 1 →
      ∃ r m1 t, SD_SendCmd_poll card n m = some (r, m1, t) ∧ m.Kept m1 ∧
        m.Advanced card m1 := by
  induction n with
  | zero =>
    intro m hd
    exact ⟨_, _, _, SPI_RxByte_apply card m hd, Machine.Kept.exchanged card m,
      Machine.Advanced.exchange card m⟩
  | succ n ih =>
    intro m hd
    unfold SD_SendCmd_poll
    rw [SD.bind_of_eq (SPI_RxByte_apply card m hd)]
    by_cases hc : m.rxByte card &&& 0x80 ≠ 0 ∧ n ≠ 0
    · obtain ⟨r, m1, t, h, hk, ha⟩ := ih (m.exchanged card) rfl
      rw [if_pos hc, h]
      exact ⟨_, _, _, rfl, (Machine.Kept.exchanged card m).trans hk,
        (Machine.Advanced.exchange card m).chain ha⟩
    · rw [if_neg hc]
      exact ⟨_, _, _, rfl, Machine.Kept.exchanged card m, Machine.Advanced.exchange card m⟩

/-- The part of `SD_SendCmd` after a successful ready-wait does not depend on the
loop budget: the frame is transmitted, then (after one stuff byte for CMD12) the
response is polled. -/
theorem SD_SendCmd_of_ready (card : Card) (cmd arg : Nat) (ma : Machine)
    (hd : ma.ctx.dma_complete = 1) :
    ∃ r mb tb, ma.Kept mb ∧ ma.Advanced card mb ∧
      ∀ (fuel : Nat) (m : Machine) (ta : List BusEvent),
        SD_ReadyWait card fuel m = some (0xFF, ma, ta) →
        SD_SendCmd card fuel cmd arg m = some (r, mb, ta ++ (commandFrame cmd arg ++ tb)) := by
  by_cases h12 : cmd = CMD12
  · obtain ⟨r, mb, tb, hp, hk, ha⟩ := SD_SendCmd_poll_total card 10 (ma.exchanged card) rfl
    refine ⟨r, mb, BusEvent.xfer 0xFF (ma.rxByte card) :: tb,
      (Machine.Kept.exchanged card ma).trans hk, (Machine.Advanced.exchange card ma).chain ha,
      fun fuel m ta h => ?_⟩
    unfold SD_SendCmd
    rw [SD.bind_of_eq h]
    simp only [ne_eq, not_true_eq_false, if_false]
    rw [SD.bind_of_eq (SPI_TxByte_apply _ ma hd), SD.bind_of_eq (SPI_TxByte_apply _ ma hd),
      SD.bind_of_eq (SPI_TxByte_apply _ ma hd), SD.bind_of_eq (SPI_TxByte_apply _ ma hd),
      SD.bind_of_eq (SPI_TxByte_apply _ ma hd), SD.bind_of_eq (SPI_TxByte_apply _ ma hd)]
    simp only [h12, if_true]
    have hstuff : (do let _ ← SPI_RxByte card; pure ()) ma
        = some ((), ma.exchanged card, [BusEvent.xfer 0xFF (ma.rxByte card)] ++ []) := by
      rw [SD.bind_of_eq (SPI_RxByte_apply card ma hd)]; rfl
    rw [SD.bind_of_eq hstuff, hp]
    subst h12
    rfl
  · obtain ⟨r, mb, tb, hp, hk, ha⟩ := SD_SendCmd_poll_total card 10 ma hd
    refine ⟨r, mb, tb, hk, ha, fun fuel m ta h => ?_⟩
    unfold SD_SendCmd
    rw [SD.bind_of_eq h]
    simp only [ne_eq, not_true_eq_false, if_false]
    rw [SD.bind_of_eq (SPI_TxByte_apply _ ma hd), SD.bind_of_eq (SPI_TxByte_apply _ ma hd),
      SD.bind_of_eq (SPI_TxByte_apply _ ma hd), SD.bind_of_eq (SPI_TxByte_apply _ ma hd),
      SD.bind_of_eq (SPI_TxByte_apply _ ma hd), SD.bind_of_eq (SPI_TxByte_apply _ ma hd)]
    simp only [h12, if_false]
    rw [SD.bind_of_eq (SD.pure_apply () ma), hp]
    rfl



theorem SD_SendCmd_returns {card : Card} (hfair : Fair card) (cmd arg : Nat) (m : Machine)
    (hd : m.ctx.dma_complete = 1) :
    ∃ r m1 t, Returns (fun fuel => SD_SendCmd card fuel cmd arg) m (r, m1, t) ∧ m.Kept m1 := by
  obtain ⟨r0, ma, ta, ⟨F, hF⟩, hk⟩ := SD_ReadyWait_returns hfair m hd
  by_cases hr : r0 = 0xFF
  · subst hr
    obtain ⟨r, mb, tb, hkb, -, h⟩ := SD_SendCmd_of_ready card cmd arg ma hk.1
    exact ⟨r, mb, _, ⟨F, fun fuel hfuel => h fuel m ta (hF fuel hfuel)⟩, hk.trans hkb⟩
  · refine ⟨0xFF, ma, ta ++ [], ⟨F, fun fuel hfuel => ?_⟩, hk⟩
    show SD_SendCmd card fuel cmd arg m = _
    unfold SD_SendCmd
    rw [SD.bind_of_eq (hF fuel hfuel), if_pos hr]
    rfl

theorem SD_RxDataBlock_data_total (card : Card) (len : Nat) :
    ∀ m : Machine, m.ctx.dma_complete = 1 →
      ∃ data m1 t, SD_RxDataBlock_data card len m = some (data, m1, t) ∧ m.Kept m1 := by
  induction len with
  | zero =>
    intro m hd
    unfold SD_RxDataBlock_data
    rw [SD.bind_of_eq (SPI_RxByte_apply card m hd)]
    exact ⟨_, _, _, rfl, Machine.Kept.exchanged card m⟩
  | succ len ih =>
    intro m hd
    obtain ⟨data, m1, t, h, hk⟩ := ih (m.exchanged card) rfl
    unfold SD_RxDataBlock_data
    rw [SD.bind_of_eq (SPI_RxByte_apply card m hd), SD.bind_of_eq h]
    exact ⟨_, _, _, rfl, (Machine.Kept.exchanged card m).trans hk⟩

theorem SD_RxDataBlock_returns {card : Card} (hfair : Fair card) (len : Nat) (m : Machine)
    (hd : m.ctx.dma_complete = 1) :
    ∃ b m1 t, Returns (fun fuel => SD_RxDataBlock card fuel len) m (b, m1, t) ∧ m.Kept m1 := by
  obtain ⟨tok, ma, ta, ⟨F, hF⟩, hk⟩ := SD_RxDataBlock_token_returns hfair
    { m with ctx := { m.ctx with timer1 := 200 } } hd
  have hk0 : m.Kept ma := ⟨hk.1, hk.2.1, hk.2.2.1, hk.2.2.2⟩
  by_cases htok : tok ≠ 0xFE
  · refine ⟨(false, []), ma, [] ++ (ta ++ []), ⟨F, fun fuel hfuel => ?_⟩, hk0⟩
    show SD_RxDataBlock card fuel len m = _
    unfold SD_RxDataBlock
    rw [SD.bind_of_eq (SD.modifyCtx_apply _ m), SD.bind_of_eq (hF fuel hfuel), if_pos htok]
    rfl
  · obtain ⟨data, mb, tb, hdata, hkb⟩ := SD_RxDataBlock_data_total card len ma hk.1
    refine ⟨(true, data), (mb.exchanged card).exchanged card,
      ta ++ (tb ++ [BusEvent.xfer 0xFF (mb.rxByte card),
        BusEvent.xfer 0xFF ((mb.exchanged card).rxByte card)]), ⟨F, fun fuel hfuel => ?_⟩,
      (hk0.trans hkb).trans ((Machine.Kept.exchanged card mb).trans
        (Machine.Kept.exchanged card _))⟩
    show SD_RxDataBlock card fuel len m = _
    unfold SD_RxDataBlock
    rw [SD.bind_of_eq (SD.modifyCtx_apply _ m), SD.bind_of_eq (hF fuel hfuel), if_neg htok,
      SD.bind_of_eq hdata, SD.bind_of_eq (SPI_RxByte_apply card mb hkb.1),
      SD.bind_of_eq (SPI_RxByte_apply card _ rfl)]
    rfl



theorem SD_disk_read_loop_returns {card : Card} (hfair : Fair card) (c : Nat) :
    ∀ (m : Machine) (off : Nat), m.ctx.dma_complete = 1 →
      ∃ k out mb tb, BlocksReceived card (c + 1) m k mb tb ∧
        Returns (fun fuel => SD_disk_read_loop card fuel (c + 1) off) m (out, mb, tb) ∧
        (out.1 = 0 ↔ k = c + 1) ∧ m.Kept mb := by
  induction c with
  | zero =>
    intro m off hd
    obtain ⟨⟨ok, d⟩, m1, t1, hb, hk⟩ := SD_RxDataBlock_returns hfair 512 m hd
    obtain ⟨F, hF⟩ := hb
    cases ok with
    | false =>
      refine ⟨0, (1, []), m1, t1, BlocksReceived.failed ⟨F, hF⟩, ⟨F, fun fuel hfuel => ?_⟩,
        by simp, hk⟩
      show SD_disk_read_loop card fuel (0 + 1) off m = _
      unfold SD_disk_read_loop
      rw [SD.bind_of_eq (hF fuel hfuel)]
      simp
    | true =>
      refine ⟨1, (0, blockStores off d), m1, t1 ++ [],
        BlocksReceived.delivered ⟨F, hF⟩ (BlocksReceived.done m1), ⟨F, fun fuel hfuel => ?_⟩,
        by simp, hk⟩
      show SD_disk_read_loop card fuel (0 + 1) off m = _
      unfold SD_disk_read_loop
      rw [SD.bind_of_eq (hF fuel hfuel)]
      simp
  | succ c ih =>
    intro m off hd
    obtain ⟨⟨ok, d⟩, m1, t1, hb, hk⟩ := SD_RxDataBlock_returns hfair 512 m hd
    obtain ⟨F, hF⟩ := hb
    cases ok with
    | false =>
      refine ⟨0, (c + 1 + 1, []), m1, t1, BlocksReceived.failed ⟨F, hF⟩,
        ⟨F, fun fuel hfuel => ?_⟩, by simp, hk⟩
      show SD_disk_read_loop card fuel (c + 1 + 1) off m = _
      unfold SD_disk_read_loop
      rw [SD.bind_of_eq (hF fuel hfuel)]
      simp
    | true =>
      obtain ⟨k, out, mb, tb, hrun, ⟨F2, hF2⟩, hout, hkb⟩ := ih m1 (off + 512) hk.1
      refine ⟨k + 1, (out.1, blockStores off d ++ out.2), mb, t1 ++ tb,
        BlocksReceived.delivered ⟨F, hF⟩ hrun, ⟨max F F2, fun fuel hfuel => ?_⟩,
        by rw [hout]; omega, hk.trans hkb⟩
      show SD_disk_read_loop card fuel (c + 1 + 1) off m = _
      unfold SD_disk_read_loop
      have h2 : SD_disk_read_loop card fuel (c + 1) (off + 512) m1 = some (out, mb, tb) :=
        hF2 fuel (le_trans (le_max_right _ _) hfuel)
      rw [SD.bind_of_eq (hF fuel (le_trans (le_max_left _ _) hfuel))]
      simp [SD.bind_of_eq h2]

/-! ## `SD_disk_read` -/

/-- The end of `SD_disk_read` once the transfer has returned `out`. -/
theorem SD_disk_read_of_transfer {card : Card} {fuel sector count : Nat} {m mb : Machine}
    {out : Nat × List Store} {tb : List BusEvent} (hcount : count ≠ 0)
    (hinit : m.ctx.status &&& STA_NOINIT = 0)
    (ht : SD_disk_read_transfer card fuel (sectorArg m.ctx sector) count m = some (out, mb, tb))
    (hd : mb.ctx.dma_complete = 1) :
    SD_disk_read card fuel sector count m
      = some ((if out.1 ≠ 0 then RES_ERROR else RES_OK, out.2), mb.exchanged card,
          BusEvent.csLow :: (tb ++ [BusEvent.csHigh, BusEvent.xfer 0xFF (mb.rxByte card)])) := by
  unfold SD_disk_read
  rw [if_neg hcount, SD.bind_of_eq (SD.getCtx_apply m), if_neg (by simpa using hinit),
    SD.bind_of_eq (SELECT_apply m)]
  unfold sectorArg at ht
  simp only []
  rw [SD.bind_of_eq ht, SD.bind_of_eq (DESELECT_apply mb),
    SD.bind_of_eq (SPI_RxByte_apply card mb hd)]
  rfl



/-- C3: for an initialised context (no transfer pending), a fair tick and
`count ≥ 1`, `SD_disk_read` returns.  With `r` the R1 answer to the read command
(READ_SINGLE_BLOCK for `count = 1`, READ_MULTIPLE_BLOCK otherwise) and, when
`r = 0`, `k` the number of blocks delivered before the first failed block
receive: the result is `RES_OK` iff `r = 0` and `k = count`, and `RES_ERROR`
otherwise.  For `count > 1` and `r = 0` the trace is chip-select low, the read
command, the block receives up to the first failure, exactly one
STOP_TRANSMISSION command, chip-select high and the dummy exchange. -/
theorem read_result {card : Card} (hfair : Fair card) (m : Machine) (sector count : Nat)
    (hd : m.ctx.dma_complete = 1) (hinit : m.ctx.status &&& STA_NOINIT = 0)
    (hcount : 1 ≤ count) :
    ∃ r m1 t1 k mb tb res stores m2 tr,
      Returns (fun fuel => SD_SendCmd card fuel (if count = 1 then CMD17 else CMD18)
        (sectorArg m.ctx sector)) m (r, m1, t1) ∧
      (r = 0 → BlocksReceived card count m1 k mb tb) ∧
      Returns (fun fuel => SD_disk_read card fuel sector count) m ((res, stores), m2, tr) ∧
      (res = RES_OK ↔ r = 0 ∧ k = count) ∧
      (res ≠ RES_OK → res = RES_ERROR) ∧
      (1 < count → r = 0 → ∃ r12 m12 t12,
        Returns (fun fuel => SD_SendCmd card fuel CMD12 0) mb (r12, m12, t12) ∧
        tr = BusEvent.csLow :: (t1 ++ (tb ++ (t12 ++
          [BusEvent.csHigh, BusEvent.xfer 0xFF (m12.rxByte card)])))) := by
  have hc0 : count ≠ 0 := by omega
  obtain ⟨r, m1, t1, ⟨F1, hF1⟩, hk1⟩ := SD_SendCmd_returns hfair
    (if count = 1 then CMD17 else CMD18) (sectorArg m.ctx sector) m hd
  by_cases hr : r = 0
  · subst hr
    by_cases h1 : count = 1
    · subst h1
      obtain ⟨⟨ok, d⟩, mb, tb, ⟨F2, hF2⟩, hk2⟩ := SD_RxDataBlock_returns hfair 512 m1 hk1.1
      have hrun : ∀ fuel, max F1 F2 ≤ fuel →
          SD_disk_read card fuel sector 1 m
            = some ((if ok then RES_OK else RES_ERROR, if ok then blockStores 0 d else []),
                mb.exchanged card,
                BusEvent.csLow :: ((t1 ++ tb) ++
                  [BusEvent.csHigh, BusEvent.xfer 0xFF (mb.rxByte card)])) := by
        intro fuel hfuel
        have e1 : SD_SendCmd card fuel CMD17 (sectorArg m.ctx sector) m = some (0, m1, t1) :=
          hF1 fuel (le_trans (le_max_left _ _) hfuel)
        have e2 : SD_RxDataBlock card fuel 512 m1 = some ((ok, d), mb, tb) :=
          hF2 fuel (le_trans (le_max_right _ _) hfuel)
        have ht : SD_disk_read_transfer card fuel (sectorArg m.ctx sector) 1 m
            = some ((if ok then 0 else 1, if ok then blockStores 0 d else []), mb, t1 ++ tb) := by
          unfold SD_disk_read_transfer
          rw [if_pos rfl, SD.bind_of_eq e1, if_pos rfl, SD.bind_of_eq e2]
          cases ok <;> simp
        rw [SD_disk_read_of_transfer hc0 hinit ht hk2.1]
        cases ok <;> simp
      cases ok with
      | false =>
        refine ⟨0, m1, t1, 0, mb, tb, RES_ERROR, [], _, _, ⟨F1, hF1⟩,
          fun _ => BlocksReceived.failed ⟨F2, hF2⟩, ⟨max F1 F2, hrun⟩, by simp, by simp, ?_⟩
        intro h; omega
      | true =>
        refine ⟨0, m1, t1, 1, mb, tb ++ [], RES_OK, blockStores 0 d, _, _, ⟨F1, hF1⟩,
          fun _ => BlocksReceived.delivered ⟨F2, hF2⟩ (BlocksReceived.done mb),
          ⟨max F1 F2, hrun⟩, by simp, by simp, ?_⟩
        intro h; omega
    · obtain ⟨c, rfl⟩ : ∃ c, count = c + 1 := ⟨count - 1, by omega⟩
      obtain ⟨k, out, mb, tb, hblocks, ⟨F2, hF2⟩, hout, hk2⟩ :=
        SD_disk_read_loop_returns hfair c m1 0 hk1.1
      obtain ⟨r12, m12, t12, ⟨F3, hF3⟩, hk3⟩ := SD_SendCmd_returns hfair CMD12 0 mb hk2.1
      have hrun : ∀ fuel, max F1 (max F2 F3) ≤ fuel →
          SD_disk_read card fuel sector (c + 1) m
            = some ((if out.1 ≠ 0 then RES_ERROR else RES_OK, out.2), m12.exchanged card,
                BusEvent.csLow :: (t1 ++ (tb ++ (t12 ++
                  [BusEvent.csHigh, BusEvent.xfer 0xFF (m12.rxByte card)])))) := by
        intro fuel hfuel
        have e1 : SD_SendCmd card fuel CMD18 (sectorArg m.ctx sector) m = some (0, m1, t1) := by
          have := hF1 fuel (le_trans (le_max_left _ _) hfuel)
          simpa [h1] using this
        have e2 : SD_disk_read_loop card fuel (c + 1) 0 m1 = some (out, mb, tb) :=
          hF2 fuel (le_trans (le_trans (le_max_left _ _) (le_max_right _ _)) hfuel)
        have e3 : SD_SendCmd card fuel CMD12 0 mb = some (r12, m12, t12) :=
          hF3 fuel (le_trans (le_trans (le_max_right _ _) (le_max_right _ _)) hfuel)
        have ht : SD_disk_read_transfer card fuel (sectorArg m.ctx sector) (c + 1) m
            = some (out, m12, t1 ++ (tb ++ (t12 ++ []))) := by
          unfold SD_disk_read_transfer
          rw [if_neg h1, SD.bind_of_eq e1, if_pos rfl, SD.bind_of_eq e2, SD.bind_of_eq e3]
          rfl
        rw [SD_disk_read_of_transfer hc0 hinit ht hk3.1]
        simp
      refine ⟨0, m1, t1, k, mb, tb, if out.1 ≠ 0 then RES_ERROR else RES_OK, out.2, _, _,
        ⟨F1, hF1⟩, fun _ => hblocks, ⟨max F1 (max F2 F3), hrun⟩, ?_, ?_, ?_⟩
      · rw [← hout]
        by_cases ho : out.1 = 0 <;> simp [ho]
      · by_cases ho : out.1 = 0 <;> simp [ho]
      · intro _ _
        exact ⟨r12, m12, t12, ⟨F3, hF3⟩, rfl⟩
  · have hrun : ∀ fuel, F1 ≤ fuel →
        SD_disk_read card fuel sector count m
          = some ((RES_ERROR, []), m1.exchanged card,
              BusEvent.csLow :: (t1 ++
                [BusEvent.csHigh, BusEvent.xfer 0xFF (m1.rxByte card)])) := by
      intro fuel hfuel
      have e1 := hF1 fuel hfuel
      have ht : SD_disk_read_transfer card fuel (sectorArg m.ctx sector) count m
          = some ((count, []), m1, t1 ++ []) := by
        unfold SD_disk_read_transfer
        by_cases h1 : count = 1
        · simp only [h1, if_true] at e1 ⊢
          rw [SD.bind_of_eq e1, if_neg hr]
          rfl
        · simp only [h1, if_false] at e1 ⊢
          rw [SD.bind_of_eq e1, if_neg hr]
          rfl
      rw [SD_disk_read_of_transfer hc0 hinit ht hk1.1]
      simp [hc0]
    refine ⟨r, m1, t1, 0, m1, [], RES_ERROR, [], _, _, ⟨F1, hF1⟩, fun h => absurd h hr,
      ⟨F1, hrun⟩, by simp [hr], by simp, fun _ h => absurd h hr⟩

theorem tickingCard_fair (l : List Nat) : Fair (tickingCard l) :=
  fun n => ⟨n, le_refl n, Nat.one_pos⟩

/-- The block run from a machine state is determined: two runs deliver the same
number of blocks, end in the same state and have the same trace. -/
theorem BlocksReceived.run_unique {card : Card} {n k k1 : Nat} {m mb mb1 : Machine}
    {tb tb1 : List BusEvent} (h : BlocksReceived card n m k mb tb)
    (h1 : BlocksReceived card n m k1 mb1 tb1) : k = k1 ∧ mb = mb1 ∧ tb = tb1 := by
  induction h generalizing k1 mb1 tb1 with
  | done m => cases h1; exact ⟨rfl, rfl, rfl⟩
  | failed hf =>
    cases h1 with
    | failed hf1 =>
      have := Returns.result_unique hf hf1
      simp only [Prod.mk.injEq] at this
      exact ⟨rfl, this.2.1, this.2.2⟩
    | delivered hd1 _ =>
      have := Returns.result_unique hf hd1
      simp at this
  | delivered hd _ ih =>
    cases h1 with
    | failed hf1 =>
      have := Returns.result_unique hd hf1
      simp at this
    | delivered hd1 hrest1 =>
      have := Returns.result_unique hd hd1
      simp only [Prod.mk.injEq] at this
      obtain ⟨⟨-, -⟩, rfl, rfl⟩ := this
      obtain ⟨rfl, rfl, rfl⟩ := ih hrest1
      exact ⟨rfl, rfl, rfl⟩

/-- C3, witness: a two-block read of sector 5 on a block-addressed card, one tick
per exchange. -/
theorem read_result_witness :
    ∃ r m1 t1 k mb tb res stores m2 tr,
      Returns (fun fuel => SD_SendCmd (tickingCard [0xFF, 0x00, 0xFE]) fuel
        (if 2 = 1 then CMD17 else CMD18) (sectorArg (readyCtx 0x0C) 5))
        ⟨readyCtx 0x0C, 0⟩ (r, m1, t1) ∧
      (r = 0 → BlocksReceived (tickingCard [0xFF, 0x00, 0xFE]) 2 m1 k mb tb) ∧
      Returns (fun fuel => SD_disk_read (tickingCard [0xFF, 0x00, 0xFE]) fuel 5 2)
        ⟨readyCtx 0x0C, 0⟩ ((res, stores), m2, tr) ∧
      (res = RES_OK ↔ r = 0 ∧ k = 2) ∧
      (res ≠ RES_OK → res = RES_ERROR) ∧
      (1 < 2 → r = 0 → ∃ r12 m12 t12,
        Returns (fun fuel => SD_SendCmd (tickingCard [0xFF, 0x00, 0xFE]) fuel CMD12 0) mb
          (r12, m12, t12) ∧
        tr = BusEvent.csLow :: (t1 ++ (tb ++ (t12 ++
          [BusEvent.csHigh,
            BusEvent.xfer 0xFF (m12.rxByte (tickingCard [0xFF, 0x00, 0xFE]))])))) :=
  read_result (tickingCard_fair [0xFF, 0x00, 0xFE]) ⟨readyCtx 0x0C, 0⟩ 5 2 rfl (by decide)
    (by decide)

/-! ## The stop token and multi-block writes -/

/-- With the stop token `0xFD`, `SD_TxDataBlock` never reports success. -/
theorem SD_TxDataBlock_stop {card : Card} {fuel : Nat} {buff : Nat → Nat} {m m1 : Machine}
    {ok : Bool} {t : List BusEvent}
    (h : SD_TxDataBlock card fuel buff 0xFD m = some (ok, m1, t)) : ok = false := by
  unfold SD_TxDataBlock at h
  obtain ⟨r, ma, ta, tb, -, h, -⟩ := SD.bind_eq_some h
  split at h
  · simp only [SD.pure_apply, Option.some.injEq, Prod.mk.injEq] at h
    exact h.1.symm
  · obtain ⟨_, mb, tc, td, -, h, -⟩ := SD.bind_eq_some h
    obtain ⟨resp, mc, te, tf, hresp, h, -⟩ := SD.bind_eq_some h
    simp only [ne_eq, not_true_eq_false, if_false, SD.pure_apply, Option.some.injEq,
      Prod.mk.injEq] at hresp
    obtain ⟨rfl, -, -⟩ := hresp
    simp only [Nat.zero_and, OfNat.zero_ne_ofNat, if_false, SD.pure_apply, Option.some.injEq,
      Prod.mk.injEq] at h
    exact h.1.symm

/-- For `count ≥ 2`, whatever the card answers, `SD_disk_write` never returns
`RES_OK`: when the command is accepted the stop-token call fails. -/
theorem multi_block_write_never_ok {card : Card} {fuel : Nat} {buff : Nat → Nat}
    {sector count : Nat} {m m1 : Machine} {res : DRESULT} {t : List BusEvent}
    (hcount : 2 ≤ count) (h : SD_disk_write card fuel buff sector count m = some (res, m1, t)) :
    res ≠ RES_OK := by
  have htransfer : ∀ (s : Nat) (ma mb : Machine) (n : Nat) (tb : List BusEvent),
      SD_disk_write_transfer card fuel buff s count ma = some (n, mb, tb) → n ≠ 0 := by
    intro s ma mb n tb ht
    unfold SD_disk_write_transfer at ht
    rw [if_neg (by omega)] at ht
    obtain ⟨ctx, m2, t2, t3, -, ht, -⟩ := SD.bind_eq_some ht
    obtain ⟨_, m3, t4, t5, -, ht, -⟩ := SD.bind_eq_some ht
    obtain ⟨r, m4, t6, t7, -, ht, -⟩ := SD.bind_eq_some ht
    split at ht
    · obtain ⟨n1, m5, t8, t9, -, ht, -⟩ := SD.bind_eq_some ht
      obtain ⟨ok, m6, t10, t11, hstop, ht, -⟩ := SD.bind_eq_some ht
      rw [SD_TxDataBlock_stop hstop] at ht
      simp only [if_true, SD.pure_apply, Option.some.injEq, Prod.mk.injEq] at ht
      omega
    · simp only [SD.pure_apply, Option.some.injEq, Prod.mk.injEq] at ht
      omega
  unfold SD_disk_write at h
  rw [if_neg (by omega)] at h
  obtain ⟨ctx, m2, t2, t3, -, h, -⟩ := SD.bind_eq_some h
  split at h
  · simp only [SD.pure_apply, Option.some.injEq, Prod.mk.injEq] at h
    rw [← h.1]; decide
  · split at h
    · simp only [SD.pure_apply, Option.some.injEq, Prod.mk.injEq] at h
      rw [← h.1]; decide
    · obtain ⟨_, m3, t4, t5, -, h, -⟩ := SD.bind_eq_some h
      obtain ⟨n, m4, t6, t7, ht, h, -⟩ := SD.bind_eq_some h
      obtain ⟨_, m5, t8, t9, -, h, -⟩ := SD.bind_eq_some h
      obtain ⟨_, m6, t10, t11, -, h, -⟩ := SD.bind_eq_some h
      simp only [SD.pure_apply, Option.some.injEq, Prod.mk.injEq] at h
      rw [← h.1, if_pos (htransfer _ _ _ _ _ ht)]
      decide



/-! ## The command argument of reads and writes -/

/-- The argument conversion by card type: multiplied for MMC and SDv1, unchanged
for SDv2 with or without `BLOCK`. -/
theorem sectorArg_by_type (ctx : SD_Context) (sector : Nat) :
    (ctx.card_type = CT_MMC ∨ ctx.card_type = CT_SD1 →
      sectorArg ctx sector = (sector * 512) % 2 ^ 32) ∧
    (ctx.card_type = CT_SD2 ∨ ctx.card_type = CT_SD2 ||| CT_BLOCK →
      sectorArg ctx sector = sector) := by
  constructor
  · rintro (h | h)
    · unfold sectorArg; rw [h, if_pos (by decide)]
    · unfold sectorArg; rw [h, if_pos (by decide)]
  · rintro (h | h)
    · unfold sectorArg; rw [h, if_neg (by decide)]
    · unfold sectorArg; rw [h, if_neg (by decide)]

/-- When the card is ready, the first command frame of `SD_disk_read` (CMD17 or
CMD18) and of a single-block `SD_disk_write` (CMD24) carries `sectorArg`, the
sector number multiplied by 512 only if `CT_SD2` is clear in the card type. -/
theorem read_write_command_frame {card : Card} {fuel : Nat} {buff : Nat → Nat}
    {sector count : Nat} {m ma : Machine} {ta : List BusEvent} (hcount : 1 ≤ count)
    (hinit : m.ctx.status &&& STA_NOINIT = 0) (hprot : m.ctx.status &&& STA_PROTECT = 0)
    (hready : SD_ReadyWait card fuel m = some (0xFF, ma, ta))
    (hd : ma.ctx.dma_complete = 1) :
    (∀ res m1 tr, SD_disk_read card fuel sector count m = some (res, m1, tr) →
      ∃ rest, tr = BusEvent.csLow :: (ta ++ (commandFrame (if count = 1 then CMD17 else CMD18)
        (sectorArg m.ctx sector) ++ rest))) ∧
    (count = 1 → ∀ res m1 tr, SD_disk_write card fuel buff sector count m = some (res, m1, tr) →
      ∃ rest, tr = BusEvent.csLow :: (ta ++ (commandFrame CMD24
        (sectorArg m.ctx sector) ++ rest))) := by
  have hc0 : count ≠ 0 := by omega
  constructor
  · intro res m1 tr h
    unfold SD_disk_read at h
    rw [if_neg hc0, SD.bind_of_eq (SD.getCtx_apply m), if_neg (by simpa using hinit),
      SD.bind_of_eq (SELECT_apply m)] at h
    cases ht : SD_disk_read_transfer card fuel (sectorArg m.ctx sector) count m with
    | none =>
      unfold sectorArg at ht
      simp only [] at h
      rw [SD.bind_of_stuck ht] at h
      simp at h
    | some out =>
      obtain ⟨out, mb, tb⟩ := out
      have ht' := ht
      unfold sectorArg at ht
      simp only [] at h
      rw [SD.bind_of_eq ht] at h
      have htb : ∃ rest, tb = ta ++ (commandFrame (if count = 1 then CMD17 else CMD18)
          (sectorArg m.ctx sector) ++ rest) := by
        unfold SD_disk_read_transfer at ht'
        by_cases h1 : count = 1
        · rw [if_pos h1] at ht' ⊢
          obtain ⟨r, mc, t1, t2, hcmd, -, rfl⟩ := SD.bind_eq_some ht'
          obtain ⟨r', mc', tc', -, -, hfr⟩ := SD_SendCmd_of_ready card CMD17
            (sectorArg m.ctx sector) ma hd
          rw [hfr fuel m ta hready] at hcmd
          simp only [Option.some.injEq, Prod.mk.injEq] at hcmd
          obtain ⟨-, -, rfl⟩ := hcmd
          exact ⟨tc' ++ t2, by simp⟩
        · rw [if_neg h1] at ht' ⊢
          obtain ⟨r, mc, t1, t2, hcmd, -, rfl⟩ := SD.bind_eq_some ht'
          obtain ⟨r', mc', tc', -, -, hfr⟩ := SD_SendCmd_of_ready card CMD18
            (sectorArg m.ctx sector) ma hd
          rw [hfr fuel m ta hready] at hcmd
          simp only [Option.some.injEq, Prod.mk.injEq] at hcmd
          obtain ⟨-, -, rfl⟩ := hcmd
          exact ⟨tc' ++ t2, by simp⟩
      obtain ⟨rest, rfl⟩ := htb
      cases hrest : (DESELECT >>= fun _ => SPI_RxByte card >>= fun _ =>
          (pure (if out.1 ≠ 0 then RES_ERROR else RES_OK, out.2) : SD (DRESULT × List Store)))
          mb with
      | none => rw [hrest] at h; simp at h
      | some e =>
        rw [hrest] at h
        simp only [Option.map_some', Option.some.injEq, Prod.mk.injEq] at h
        obtain ⟨-, -, rfl⟩ := h
        exact ⟨rest ++ e.2.2, by simp⟩
  · intro h1 res m1 tr h
    subst h1
    unfold SD_disk_write at h
    rw [if_neg hc0, SD.bind_of_eq (SD.getCtx_apply m), if_neg (by simpa using hinit),
      if_neg (by simpa using hprot), SD.bind_of_eq (SELECT_apply m)] at h
    cases ht : SD_disk_write_transfer card fuel buff (sectorArg m.ctx sector) 1 m with
    | none =>
      unfold sectorArg at ht
      simp only [] at h
      rw [SD.bind_of_stuck ht] at h
      simp at h
    | some out =>
      obtain ⟨out, mb, tb⟩ := out
      have ht' := ht
      unfold sectorArg at ht
      simp only [] at h
      rw [SD.bind_of_eq ht] at h
      have htb : ∃ rest, tb = ta ++ (commandFrame CMD24 (sectorArg m.ctx sector) ++ rest) := by
        unfold SD_disk_write_transfer at ht'
        rw [if_pos rfl] at ht'
        obtain ⟨r, mc, t1, t2, hcmd, -, rfl⟩ := SD.bind_eq_some ht'
        obtain ⟨r', mc', tc', -, -, hfr⟩ := SD_SendCmd_of_ready card CMD24
          (sectorArg m.ctx sector) ma hd
        rw [hfr fuel m ta hready] at hcmd
        simp only [Option.some.injEq, Prod.mk.injEq] at hcmd
        obtain ⟨-, -, rfl⟩ := hcmd
        exact ⟨tc' ++ t2, by simp⟩
      obtain ⟨rest, rfl⟩ := htb
      cases hrest : (DESELECT >>= fun _ => SPI_RxByte card >>= fun _ =>
          (pure (if out ≠ 0 then RES_ERROR else RES_OK) : SD DRESULT)) mb with
      | none => rw [hrest] at h; simp at h
      | some e =>
        rw [hrest] at h
        simp only [Option.map_some', Option.some.injEq, Prod.mk.injEq] at h
        obtain ⟨-, -, rfl⟩ := h
        exact ⟨rest ++ e.2.2, by simp⟩

/-! ## Progress of time through a command -/

theorem SD_ReadyWait_loop_advanced (card : Card) (fuel : Nat) :
    ∀ (m m1 : Machine) (r : Nat) (t : List BusEvent), m.ctx.dma_complete = 1 →
      SD_ReadyWait_loop card fuel m = some (r, m1, t) →
      m.Advanced card m1 ∧ m1.ctx.dma_complete = 1 := by
  induction fuel with
  | zero => intro m m1 r t _ h; simp [SD_ReadyWait_loop] at h
  | succ fuel ih =>
    intro m m1 r t hd h
    unfold SD_ReadyWait_loop at h
    rw [SD.bind_of_eq (SPI_RxByte_apply card m hd), SD.bind_of_eq (SD.getCtx_apply _)] at h
    split at h
    · cases hl : SD_ReadyWait_loop card fuel (m.exchanged card) with
      | none => rw [hl] at h; simp at h
      | some e =>
        obtain ⟨r2, m2, t2⟩ := e
        rw [hl] at h
        simp only [Option.map_some', Option.some.injEq, Prod.mk.injEq] at h
        obtain ⟨-, rfl, -⟩ := h
        obtain ⟨ha, hd2⟩ := ih _ _ _ _ rfl hl
        exact ⟨(Machine.Advanced.exchange card m).chain ha, hd2⟩
    · simp only [SD.pure_apply, Option.map_some', Option.some.injEq, Prod.mk.injEq] at h
      obtain ⟨-, rfl, -⟩ := h
      exact ⟨Machine.Advanced.exchange card m, rfl⟩

theorem SD_ReadyWait_advanced {card : Card} {fuel r : Nat} {m m1 : Machine}
    {t : List BusEvent} (hd : m.ctx.dma_complete = 1)
    (h : SD_ReadyWait card fuel m = some (r, m1, t)) :
    m.Advanced card m1 ∧ m1.ctx.dma_complete = 1 := by
  unfold SD_ReadyWait at h
  rw [SD.bind_of_eq (SD.modifyCtx_apply _ m)] at h
  cases hl : SD_ReadyWait_loop card fuel { m with ctx := { m.ctx with timer2 := 500 } } with
  | none => rw [hl] at h; simp at h
  | some e =>
    obtain ⟨r2, m2, t2⟩ := e
    rw [hl] at h
    simp only [Option.map_some', Option.some.injEq, Prod.mk.injEq] at h
    obtain ⟨-, rfl, -⟩ := h
    exact SD_ReadyWait_loop_advanced card fuel { m with ctx := { m.ctx with timer2 := 500 } }
      m2 r2 t2 hd hl

theorem SD_SendCmd_advanced {card : Card} {fuel cmd arg r : Nat} {m m1 : Machine}
    {t : List BusEvent} (hd : m.ctx.dma_complete = 1)
    (h : SD_SendCmd card fuel cmd arg m = some (r, m1, t)) :
    m.Advanced card m1 ∧ m1.ctx.dma_complete = 1 := by
  have h' := h
  unfold SD_SendCmd at h
  obtain ⟨r0, ma, ta, tb, hready, h, -⟩ := SD.bind_eq_some h
  obtain ⟨ha, hda⟩ := SD_ReadyWait_advanced hd hready
  by_cases hr : r0 = 0xFF
  · subst hr
    obtain ⟨r2, mb, tb2, hkeep, hadv, hfr⟩ := SD_SendCmd_of_ready card cmd arg ma hda
    rw [hfr fuel m ta hready] at h'
    simp only [Option.some.injEq, Prod.mk.injEq] at h'
    obtain ⟨-, rfl, -⟩ := h'
    exact ⟨ha.chain hadv, hkeep.1⟩
  · rw [if_pos hr] at h
    simp only [SD.pure_apply, Option.some.injEq, Prod.mk.injEq] at h
    obtain ⟨-, rfl, -⟩ := h
    exact ⟨ha, hda⟩

/-! ## `SD_disk_initialize` returns -/

/-- A loop `do { if (body) break; } while (ctx->timer1)` returns under a fair tick
when its body returns and lets time advance. -/
theorem timer1_loop_returns {card : Card} (hfair : Fair card) (loop : Nat → Nat → SD Unit)
    (body : Nat → SD Bool)
    (hloop : ∀ fuel n, loop fuel (n + 1) = (do
      let done ← body fuel
      if done then pure ()
      else
        let ctx ← SD.getCtx
        if ctx.timer1 ≠ 0 then loop fuel n else pure ()))
    (hbody : ∀ m : Machine, m.ctx.dma_complete = 1 →
      ∃ r m1 t, Returns body m (r, m1, t) ∧ m.Kept m1)
    (hadv : ∀ (fuel : Nat) (m m1 : Machine) (r : Bool) (t : List BusEvent),
      m.ctx.dma_complete = 1 → body fuel m = some (r, m1, t) → m.Advanced card m1) :
    ∀ m : Machine, m.ctx.dma_complete = 1 →
      ∃ m1 t, Returns (fun fuel => loop fuel fuel) m ((), m1, t) ∧ m.Kept m1 := by
  -- the statement proved by induction: any two budgets above a bound will do
  suffices hmain : ∀ (T : Nat) (m : Machine), m.ctx.timer1 ≤ T → m.ctx.dma_complete = 1 →
      ∃ m1 t F, (∀ fuel n, F ≤ fuel → F ≤ n → loop fuel n m = some ((), m1, t)) ∧
        m.Kept m1 by
    intro m hd
    obtain ⟨m1, t, F, hF, hk⟩ := hmain m.ctx.timer1 m (le_refl _) hd
    exact ⟨m1, t, ⟨F, fun fuel hfuel => hF fuel fuel hfuel hfuel⟩, hk⟩
  -- one iteration after which the loop ends
  have hexit : ∀ (m m1 : Machine) (r : Bool) (t : List BusEvent),
      Returns body m (r, m1, t) → m.Kept m1 → (r = true ∨ m1.ctx.timer1 = 0) →
      ∃ m2 t2 F, (∀ fuel n, F ≤ fuel → F ≤ n → loop fuel n m = some ((), m2, t2)) ∧
        m.Kept m2 := by
    intro m m1 r t ⟨F, hF⟩ hk hcase
    refine ⟨m1, t ++ [], F + 1, fun fuel n hfuel hn => ?_, hk⟩
    obtain ⟨n, rfl⟩ : ∃ n', n = n' + 1 := ⟨n - 1, by omega⟩
    rw [hloop, SD.bind_of_eq (hF fuel (by omega))]
    cases r with
    | true => rfl
    | false =>
      have h0 : m1.ctx.timer1 = 0 := by simpa using hcase
      simp only [Bool.false_eq_true, if_false]
      rw [SD.bind_of_eq (SD.getCtx_apply m1), if_neg (by simp [h0])]
      rfl
  -- one iteration after which the loop goes on
  have hstep : ∀ (m m1 : Machine) (t : List BusEvent),
      Returns body m (false, m1, t) → m.Kept m1 → m1.ctx.timer1 ≠ 0 →
      (∃ m2 t2 F, (∀ fuel n, F ≤ fuel → F ≤ n → loop fuel n m1 = some ((), m2, t2)) ∧
        m1.Kept m2) →
      ∃ m2 t2 F, (∀ fuel n, F ≤ fuel → F ≤ n → loop fuel n m = some ((), m2, t2)) ∧
        m.Kept m2 := by
    intro m m1 t ⟨F, hF⟩ hk hne ⟨m2, t2, F2, hF2, hk2⟩
    refine ⟨m2, t ++ ([] ++ t2), max F F2 + 1, fun fuel n hfuel hn => ?_, hk.trans hk2⟩
    obtain ⟨n, rfl⟩ : ∃ n', n = n' + 1 := ⟨n - 1, by omega⟩
    have hfa : F ≤ fuel := le_trans (le_max_left F F2) (by omega)
    have hfb : F2 ≤ fuel := le_trans (le_max_right F F2) (by omega)
    have hnb : F2 ≤ n := by
      have := le_max_right F F2
      omega
    rw [hloop, SD.bind_of_eq (hF fuel hfa)]
    simp only [Bool.false_eq_true, if_false]
    rw [SD.bind_of_eq (SD.getCtx_apply m1), if_pos hne, hF2 fuel n hfb hnb]
    rfl
  intro T
  induction T with
  | zero =>
    intro m hT hd
    obtain ⟨r, m1, t, hret, hk⟩ := hbody m hd
    obtain ⟨F, hF⟩ := hret
    have ha := hadv F m m1 r t hd (hF F (le_refl _))
    exact hexit m m1 r t ⟨F, hF⟩ hk (Or.inr (by have := ha.2.1; omega))
  | succ T ih =>
    intro m hT hd
    obtain ⟨k, hk, htk⟩ := hfair m.pos
    obtain ⟨d, hd'⟩ : ∃ d, k - m.pos ≤ d := ⟨k - m.pos, le_refl _⟩
    induction d generalizing m with
    | zero =>
      obtain ⟨r, m1, t, ⟨F, hF⟩, hkeep⟩ := hbody m hd
      obtain ⟨hpos, hle, hdec⟩ := hadv F m m1 r t hd (hF F (le_refl _))
      by_cases hcase : r = true ∨ m1.ctx.timer1 = 0
      · exact hexit m m1 r t ⟨F, hF⟩ hkeep hcase
      · have hr : r = false := by
          cases r with
          | true => exact absurd (Or.inl rfl) hcase
          | false => rfl
        subst hr
        have hne : m1.ctx.timer1 ≠ 0 := fun h => hcase (Or.inr h)
        apply hstep m m1 t ⟨F, hF⟩ hkeep hne
        apply ih m1 _ hkeep.1
        rcases hdec k hk (by omega) htk with h | h <;> omega
    | succ d ihd =>
      obtain ⟨r, m1, t, ⟨F, hF⟩, hkeep⟩ := hbody m hd
      obtain ⟨hpos, hle, hdec⟩ := hadv F m m1 r t hd (hF F (le_refl _))
      by_cases hcase : r = true ∨ m1.ctx.timer1 = 0
      · exact hexit m m1 r t ⟨F, hF⟩ hkeep hcase
      · have hr : r = false := by
          cases r with
          | true => exact absurd (Or.inl rfl) hcase
          | false => rfl
        subst hr
        have hne : m1.ctx.timer1 ≠ 0 := fun h => hcase (Or.inr h)
        apply hstep m m1 t ⟨F, hF⟩ hkeep hne
        by_cases hpass : k < m1.pos
        · apply ih m1 _ hkeep.1
          rcases hdec k hk hpass htk with h | h <;> omega
        · exact ihd m1 (by omega) hkeep.1 (by omega) (by omega)



theorem Total.pure_total {α : Type} (a : α) {m : Machine} (hd : m.ctx.dma_complete = 1) :
    Total (fun _ => (pure a : SD α)) m :=
  ⟨a, m, [], Returns.of_eq (fun _ => rfl), Machine.Kept.refl hd⟩

theorem Total.of_run {α : Type} {x : SD α} {m m1 : Machine} {a : α} {t : List BusEvent}
    (h : x m = some (a, m1, t)) (hk : m.Kept m1) : Total (fun _ => x) m :=
  ⟨a, m1, t, Returns.of_eq (fun _ => h), hk⟩

theorem Total.seq_total {α β : Type} {x : Nat → SD α} {f : Nat → α → SD β} {m : Machine}
    (hx : Total x m)
    (hf : ∀ (a : α) (m1 : Machine), m1.ctx.dma_complete = 1 → Total (fun n => f n a) m1) :
    Total (fun n => x n >>= f n) m := by
  obtain ⟨a, m1, t1, hr, hk⟩ := hx
  obtain ⟨b, m2, t2, hr2, hk2⟩ := hf a m1 hk.1
  exact ⟨b, m2, t1 ++ t2, Returns.bind hr hr2, hk.trans hk2⟩

theorem Total.cond_total {α : Type} {c : Prop} [Decidable c] {x y : Nat → SD α} {m : Machine}
    (hx : c → Total x m) (hy : ¬ c → Total y m) :
    Total (fun n => if c then x n else y n) m := by
  by_cases h : c
  · simpa only [if_pos h] using hx h
  · simpa only [if_neg h] using hy h

theorem SD_SendCmd_total {card : Card} (hfair : Fair card) (cmd arg : Nat) {m : Machine}
    (hd : m.ctx.dma_complete = 1) : Total (fun fuel => SD_SendCmd card fuel cmd arg) m := by
  obtain ⟨r, m1, t, hr, hk⟩ := SD_SendCmd_returns hfair cmd arg m hd
  exact ⟨r, m1, t, hr, hk⟩

theorem SD_init_sd2_poll_total {card : Card} (hfair : Fair card) {m : Machine}
    (hd : m.ctx.dma_complete = 1) : Total (SD_init_sd2_poll card) m := by
  show Total (fun fuel => SD_init_sd2_poll card fuel) m
  unfold SD_init_sd2_poll
  apply Total.seq_total (SD_SendCmd_total hfair CMD55 0 hd)
  intro r55 m1 hd1
  apply Total.cond_total
  · intro _
    apply Total.seq_total (SD_SendCmd_total hfair CMD41 (1 <<< 30) hd1)
    intro r41 m2 hd2
    exact Total.pure_total _ hd2
  · intro _
    exact Total.pure_total _ hd1



theorem SD_init_sd2_poll_advanced {card : Card} {fuel : Nat} {m m1 : Machine} {r : Bool}
    {t : List BusEvent} (hd : m.ctx.dma_complete = 1)
    (h : SD_init_sd2_poll card fuel m = some (r, m1, t)) : m.Advanced card m1 := by
  unfold SD_init_sd2_poll at h
  obtain ⟨r55, ma, ta, tb, h55, h, -⟩ := SD.bind_eq_some h
  obtain ⟨ha, hda⟩ := SD_SendCmd_advanced hd h55
  split at h
  · obtain ⟨r41, mb, tc, td, h41, h, -⟩ := SD.bind_eq_some h
    obtain ⟨hb, -⟩ := SD_SendCmd_advanced hda h41
    simp only [SD.pure_apply, Option.some.injEq, Prod.mk.injEq] at h
    obtain ⟨-, rfl, -⟩ := h
    exact ha.chain hb
  · simp only [SD.pure_apply, Option.some.injEq, Prod.mk.injEq] at h
    obtain ⟨-, rfl, -⟩ := h
    exact ha

theorem SD_init_legacy_poll_total {card : Card} (hfair : Fair card) (type : Nat) {m : Machine}
    (hd : m.ctx.dma_complete = 1) : Total (fun fuel => SD_init_legacy_poll card fuel type) m := by
  unfold SD_init_legacy_poll
  apply Total.cond_total
  · intro _
    apply Total.seq_total (SD_SendCmd_total hfair CMD55 0 hd)
    intro r55 m1 hd1
    apply Total.cond_total
    · intro _
      apply Total.seq_total (SD_SendCmd_total hfair CMD41 0 hd1)
      intro r41 m2 hd2
      exact Total.pure_total _ hd2
    · intro _
      exact Total.pure_total _ hd1
  · intro _
    apply Total.seq_total (SD_SendCmd_total hfair CMD1 0 hd)
    intro r1 m1 hd1
    exact Total.pure_total _ hd1

theorem SD_init_legacy_poll_advanced {card : Card} {fuel type : Nat} {m m1 : Machine} {r : Bool}
    {t : List BusEvent} (hd : m.ctx.dma_complete = 1)
    (h : SD_init_legacy_poll card fuel type m = some (r, m1, t)) : m.Advanced card m1 := by
  unfold SD_init_legacy_poll at h
  split at h
  · obtain ⟨r55, ma, ta, tb, h55, h, -⟩ := SD.bind_eq_some h
    obtain ⟨ha, hda⟩ := SD_SendCmd_advanced hd h55
    split at h
    · obtain ⟨r41, mb, tc, td, h41, h, -⟩ := SD.bind_eq_some h
      obtain ⟨hb, -⟩ := SD_SendCmd_advanced hda h41
      simp only [SD.pure_apply, Option.some.injEq, Prod.mk.injEq] at h
      obtain ⟨-, rfl, -⟩ := h
      exact ha.chain hb
    · simp only [SD.pure_apply, Option.some.injEq, Prod.mk.injEq] at h
      obtain ⟨-, rfl, -⟩ := h
      exact ha
  · obtain ⟨r1, ma, ta, tb, h1, h, -⟩ := SD.bind_eq_some h
    obtain ⟨ha, -⟩ := SD_SendCmd_advanced hd h1
    simp only [SD.pure_apply, Option.some.injEq, Prod.mk.injEq] at h
    obtain ⟨-, rfl, -⟩ := h
    exact ha

theorem SD_init_sd2_loop_total {card : Card} (hfair : Fair card) {m : Machine}
    (hd : m.ctx.dma_complete = 1) : Total (fun fuel => SD_init_sd2_loop card fuel fuel) m := by
  obtain ⟨m1, t, hr, hk⟩ := timer1_loop_returns hfair (SD_init_sd2_loop card)
    (SD_init_sd2_poll card) (fun _ _ => rfl)
    (fun m hd => SD_init_sd2_poll_total hfair hd)
    (fun _ _ _ _ _ hd h => SD_init_sd2_poll_advanced hd h) m hd
  exact ⟨(), m1, t, hr, hk⟩

theorem SD_init_legacy_loop_total {card : Card} (hfair : Fair card) (type : Nat) {m : Machine}
    (hd : m.ctx.dma_complete = 1) :
    Total (fun fuel => SD_init_legacy_loop card fuel type fuel) m := by
  obtain ⟨m1, t, hr, hk⟩ := timer1_loop_returns hfair
    (fun fuel n => SD_init_legacy_loop card fuel type n)
    (fun fuel => SD_init_legacy_poll card fuel type) (fun _ _ => rfl)
    (fun m hd => SD_init_legacy_poll_total hfair type hd)
    (fun _ _ _ _ _ hd h => SD_init_legacy_poll_advanced hd h) m hd
  exact ⟨(), m1, t, hr, hk⟩

theorem SPI_RxByte_kept (card : Card) {m : Machine} (hd : m.ctx.dma_complete = 1) :
    Total (fun _ => SPI_RxByte card) m :=
  Total.of_run (SPI_RxByte_apply card m hd) (Machine.Kept.exchanged card m)

theorem SD_read_ocr_total (card : Card) {m : Machine} (hd : m.ctx.dma_complete = 1) :
    Total (fun _ => SD_read_ocr card) m := by
  unfold SD_read_ocr
  apply Total.seq_total (SPI_RxByte_kept card hd)
  intro o0 m1 hd1
  apply Total.seq_total (SPI_RxByte_kept card hd1)
  intro o1 m2 hd2
  apply Total.seq_total (SPI_RxByte_kept card hd2)
  intro o2 m3 hd3
  apply Total.seq_total (SPI_RxByte_kept card hd3)
  intro o3 m4 hd4
  exact Total.pure_total _ hd4

theorem SD_getCtx_total {m : Machine} (hd : m.ctx.dma_complete = 1) :
    Total (fun _ => SD.getCtx) m :=
  Total.of_run (SD.getCtx_apply m) (Machine.Kept.refl hd)

theorem SD_init_sd2_total {card : Card} (hfair : Fair card) {m : Machine}
    (hd : m.ctx.dma_complete = 1) : Total (fun fuel => SD_init_sd2 card fuel) m := by
  unfold SD_init_sd2
  apply Total.seq_total (SD_read_ocr_total card hd)
  intro ocr m1 hd1
  apply Total.cond_total
  · intro _
    apply Total.seq_total (SD_init_sd2_loop_total hfair hd1)
    intro _ m2 hd2
    apply Total.seq_total (SD_getCtx_total hd2)
    intro ctx m3 hd3
    apply Total.cond_total
    · intro _
      apply Total.seq_total (SD_SendCmd_total hfair CMD58 0 hd3)
      intro r58 m4 hd4
      apply Total.cond_total
      · intro _
        apply Total.seq_total (SD_read_ocr_total card hd4)
        intro ocr2 m5 hd5
        exact Total.pure_total _ hd5
      · intro _
        exact Total.pure_total _ hd4
    · intro _
      exact Total.pure_total _ hd3
  · intro _
    exact Total.pure_total _ hd1

theorem SD_init_legacy_total {card : Card} (hfair : Fair card) {m : Machine}
    (hd : m.ctx.dma_complete = 1) : Total (fun fuel => SD_init_legacy card fuel) m := by
  unfold SD_init_legacy
  apply Total.seq_total (SD_SendCmd_total hfair CMD55 0 hd)
  intro r55 m1 hd1
  apply Total.seq_total (x := fun fuel => if r55 ≤ 1 then (do
      let r41 ← SD_SendCmd card fuel CMD41 0
      pure (if r41 ≤ 1 then CT_SD1 else CT_MMC)) else pure CT_MMC)
  · apply Total.cond_total
    · intro _
      apply Total.seq_total (SD_SendCmd_total hfair CMD41 0 hd1)
      intro r41 m2 hd2
      exact Total.pure_total _ hd2
    · intro _
      exact Total.pure_total _ hd1
  · intro type m2 hd2
    apply Total.seq_total (SD_init_legacy_loop_total hfair type hd2)
    intro _ m3 hd3
    apply Total.seq_total (SD_getCtx_total hd3)
    intro ctx m4 hd4
    apply Total.cond_total
    · intro _
      exact Total.pure_total _ hd4
    · intro _
      apply Total.seq_total (SD_SendCmd_total hfair CMD16 512 hd4)
      intro r16 m5 hd5
      apply Total.cond_total
      · intro _
        exact Total.pure_total _ hd5
      · intro _
        exact Total.pure_total _ hd5



theorem Total.halts {α : Type} {x : Nat → SD α} {m : Machine} (h : Total x m) : Halts x m := by
  obtain ⟨a, m1, t, hr, hk⟩ := h
  exact ⟨a, m1, t, hr, hk.1⟩

theorem Halts.pure_halts {α : Type} (a : α) {m : Machine} (hd : m.ctx.dma_complete = 1) :
    Halts (fun _ => (pure a : SD α)) m :=
  ⟨a, m, [], Returns.of_eq (fun _ => rfl), hd⟩

theorem Halts.of_step {α : Type} {x : SD α} {m m1 : Machine} {a : α} {t : List BusEvent}
    (h : x m = some (a, m1, t)) (hd : m1.ctx.dma_complete = 1) : Halts (fun _ => x) m :=
  ⟨a, m1, t, Returns.of_eq (fun _ => h), hd⟩

theorem Halts.seq_halts {α β : Type} {x : Nat → SD α} {f : Nat → α → SD β} {m : Machine}
    (hx : Halts x m)
    (hf : ∀ (a : α) (m1 : Machine), m1.ctx.dma_complete = 1 → Halts (fun n => f n a) m1) :
    Halts (fun n => x n >>= f n) m := by
  obtain ⟨a, m1, t1, hr, hd⟩ := hx
  obtain ⟨b, m2, t2, hr2, hd2⟩ := hf a m1 hd
  exact ⟨b, m2, t1 ++ t2, Returns.bind hr hr2, hd2⟩

theorem Halts.cond_halts {α : Type} {c : Prop} [Decidable c] {x y : Nat → SD α} {m : Machine}
    (hx : c → Halts x m) (hy : ¬ c → Halts y m) :
    Halts (fun n => if c then x n else y n) m := by
  by_cases h : c
  · simpa only [if_pos h] using hx h
  · simpa only [if_neg h] using hy h

theorem SPI_TxByte_halts (data : Nat) {m : Machine} (hd : m.ctx.dma_complete = 1) :
    Halts (fun _ => SPI_TxByte data) m :=
  Halts.of_step (SPI_TxByte_apply data m hd) hd

theorem SPI_TxBuffer_halts (buffer : List Nat) {m : Machine} (hd : m.ctx.dma_complete = 1) :
    Halts (fun _ => SPI_TxBuffer buffer) m := by
  refine @Halts.of_step Unit (SPI_TxBuffer buffer) m
    { m with ctx := { m.ctx with dma_complete := 1 } } ()
    ([] ++ ([] ++ ([BusEvent.tx buffer] ++ []))) ?_ rfl
  unfold SPI_TxBuffer
  rw [SD.bind_of_eq (SD.getCtx_apply m)]
  simp only [hd, if_true]
  rw [SD.bind_of_eq (SD.modifyCtx_apply _ m)]
  rfl

theorem SD_PowerOn_wake_halts (n : Nat) :
    ∀ {m : Machine}, m.ctx.dma_complete = 1 → Halts (fun _ => SD_PowerOn_wake n) m := by
  induction n with
  | zero => intro m hd; exact Halts.pure_halts () hd
  | succ n ih =>
    intro m hd
    unfold SD_PowerOn_wake
    apply Halts.seq_halts (SPI_TxByte_halts 0xFF hd)
    intro _ m1 hd1
    exact ih hd1

theorem SD_PowerOn_wait_halts (card : Card) (cnt : Nat) :
    ∀ {m : Machine}, m.ctx.dma_complete = 1 → Halts (fun _ => SD_PowerOn_wait card cnt) m := by
  induction cnt with
  | zero =>
    intro m hd
    unfold SD_PowerOn_wait
    apply Halts.seq_halts (SPI_RxByte_kept card hd).halts
    intro _ m1 hd1
    exact Halts.pure_halts () hd1
  | succ cnt ih =>
    intro m hd
    unfold SD_PowerOn_wait
    apply Halts.seq_halts (SPI_RxByte_kept card hd).halts
    intro r m1 hd1
    apply Halts.cond_halts
    · intro _; exact ih hd1
    · intro _; exact Halts.pure_halts () hd1

theorem SD_PowerOn_halts (card : Card) {m : Machine} (hd : m.ctx.dma_complete = 1) :
    Halts (fun _ => SD_PowerOn card) m := by
  unfold SD_PowerOn
  apply Halts.seq_halts (Halts.of_step (DESELECT_apply m) hd)
  intro _ m1 hd1
  apply Halts.seq_halts (SD_PowerOn_wake_halts 10 hd1)
  intro _ m2 hd2
  apply Halts.seq_halts (Halts.of_step (SELECT_apply m2) hd2)
  intro _ m3 hd3
  apply Halts.seq_halts (SPI_TxBuffer_halts _ hd3)
  intro _ m4 hd4
  apply Halts.seq_halts (SD_PowerOn_wait_halts card 0x1FFF hd4)
  intro _ m5 hd5
  apply Halts.seq_halts (Halts.of_step (DESELECT_apply m5) hd5)
  intro _ m6 hd6
  apply Halts.seq_halts (SPI_TxByte_halts 0xFF hd6)
  intro _ m7 hd7
  exact Halts.of_step (SD.modifyCtx_apply _ m7) hd7

theorem SD_init_classify_total {card : Card} (hfair : Fair card) {m : Machine}
    (hd : m.ctx.dma_complete = 1) : Total (fun fuel => SD_init_classify card fuel) m := by
  unfold SD_init_classify
  apply Total.seq_total (SD_SendCmd_total hfair CMD0 0 hd)
  intro r0 m1 hd1
  apply Total.cond_total
  · intro _
    apply Total.seq_total (Total.of_run (SD.modifyCtx_apply _ m1) ⟨hd1, rfl, rfl, rfl⟩)
    intro _ m2 hd2
    apply Total.seq_total (SD_SendCmd_total hfair CMD8 0x1AA hd2)
    intro r8 m3 hd3
    apply Total.cond_total
    · intro _; exact SD_init_sd2_total hfair hd3
    · intro _; exact SD_init_legacy_total hfair hd3
  · intro _
    exact Total.pure_total _ hd1

/-- Under a fair tick, and with no transfer pending, `SD_disk_initialize`
returns. -/
theorem SD_disk_initialize_halts {card : Card} (hfair : Fair card) {m : Machine}
    (hd : m.ctx.dma_complete = 1) : Halts (fun fuel => SD_disk_initialize card fuel) m := by
  unfold SD_disk_initialize
  apply Halts.seq_halts (SD_getCtx_total hd).halts
  intro ctx m1 hd1
  apply Halts.cond_halts
  · intro _; exact Halts.pure_halts _ hd1
  · intro _
    apply Halts.seq_halts (SD_PowerOn_halts card hd1)
    intro _ m2 hd2
    apply Halts.seq_halts (Halts.of_step (SELECT_apply m2) hd2)
    intro _ m3 hd3
    apply Halts.seq_halts (SD_init_classify_total hfair hd3).halts
    intro type m4 hd4
    apply Halts.seq_halts (Halts.of_step (SD.modifyCtx_apply _ m4) hd4)
    intro _ m5 hd5
    apply Halts.seq_halts (Halts.of_step (DESELECT_apply m5) hd5)
    intro _ m6 hd6
    apply Halts.seq_halts (SPI_RxByte_kept card hd6).halts
    intro _ m7 hd7
    apply Halts.seq_halts (x := fun _ => if type ≠ 0 then
      SD.modifyCtx (fun c => { c with status := c.status &&& (0xFF ^^^ STA_NOINIT) })
      else SD_PowerOff)
    · apply Halts.cond_halts
      · intro _; exact Halts.of_step (SD.modifyCtx_apply _ m7) hd7
      · intro _; exact Halts.of_step (show SD_PowerOff m7 = some ((), _, []) from rfl) hd7
    · intro _ m8 hd8
      apply Halts.seq_halts (SD_getCtx_total hd8).halts
      intro ctx2 m9 hd9
      exact Halts.pure_halts _ hd9

/-- C9: for every card stream and tick pattern, from a state with `NODISK` clear:
whenever `SD_disk_initialize` returns (for any loop budget), the card type is 0,
`0x01` (MMC), `0x02` (SDv1), `0x04` (SDv2) or `0x0C` (SDv2 with BLOCK), and when
it is not 0 the returned status has `NOINIT` clear; and it does return when the
tick is fair and no transfer is pending at the call. -/
theorem initialize_card_type (card : Card) (m : Machine)
    (hnodisk : m.ctx.status &&& STA_NODISK = 0) :
    (∀ (fuel st : Nat) (m1 : Machine) (tr : List BusEvent),
      SD_disk_initialize card fuel m = some (st, m1, tr) →
      (m1.ctx.card_type = 0 ∨ m1.ctx.card_type = 0x01 ∨ m1.ctx.card_type = 0x02 ∨
        m1.ctx.card_type = 0x04 ∨ m1.ctx.card_type = 0x0C) ∧
      (m1.ctx.card_type ≠ 0 → st &&& STA_NOINIT = 0)) ∧
    (Fair card → m.ctx.dma_complete = 1 →
      ∃ st m1 tr, Returns (fun fuel => SD_disk_initialize card fuel) m (st, m1, tr)) := by
  constructor
  · intro fuel st m1 tr h
    obtain ⟨ma, ta, mb, tb, -, hc, -, hset, -⟩ := SD_disk_initialize_result hnodisk h
    refine ⟨SD_init_classify_type hc, fun hne => ?_⟩
    rw [hset hne]
    exact and_not_noinit _
  · intro hfair hd
    obtain ⟨st, m1, tr, hr, -⟩ := SD_disk_initialize_halts hfair hd
    exact ⟨st, m1, tr, hr⟩

/-- C9, witness: the SDHC scenario with one tick per exchange, from the context
left by `SD_init`. -/
theorem initialize_card_type_witness :
    ((sdhcDoneTicking.ctx.card_type = 0 ∨ sdhcDoneTicking.ctx.card_type = 0x01 ∨
        sdhcDoneTicking.ctx.card_type = 0x02 ∨ sdhcDoneTicking.ctx.card_type = 0x04 ∨
        sdhcDoneTicking.ctx.card_type = 0x0C) ∧
      0 &&& STA_NOINIT = 0) ∧
    ∃ st m1 tr, Returns (fun fuel => SD_disk_initialize (tickingCard sdhcInit) fuel)
      ⟨SD_init, 0⟩ (st, m1, tr) :=
  have h := initialize_card_type (tickingCard sdhcInit) ⟨SD_init, 0⟩ (by decide)
  have h1 := h.1 1 0 sdhcDoneTicking sdhcTrace (by decide!)
  ⟨⟨h1.1, h1.2 (by decide)⟩, h.2 (tickingCard_fair sdhcInit) rfl⟩

/-! ## The op-cond loop of the SDv2 branch -/

/-- When the SDv2 op-cond loop ends with Timer1 still running, its last pass had
APP_CMD answered with at most 1 and SEND_OP_COND (HCS set) answered with 0. -/
theorem SD_init_sd2_loop_accepted {card : Card} {fuel : Nat} (n : Nat) :
    ∀ {m m1 : Machine} {t : List BusEvent},
      SD_init_sd2_loop card fuel n m = some ((), m1, t) → m1.ctx.timer1 ≠ 0 →
      ∃ ma mb r55 ta tb, SD_SendCmd card fuel CMD55 0 ma = some (r55, mb, ta) ∧ r55 ≤ 1 ∧
        SD_SendCmd card fuel CMD41 (1 <<< 30) mb = some (0, m1, tb) := by
  induction n with
  | zero => intro m m1 t h; simp [SD_init_sd2_loop] at h
  | succ n ih =>
    intro m m1 t h hne
    unfold SD_init_sd2_loop at h
    obtain ⟨done, ma, ta, tb, hpoll, h, -⟩ := SD.bind_eq_some h
    cases done with
    | true =>
      simp only [if_true, SD.pure_apply, Option.some.injEq, Prod.mk.injEq] at h
      obtain ⟨-, rfl, -⟩ := h
      unfold SD_init_sd2_poll at hpoll
      obtain ⟨r55, mb, tc, td, h55, hpoll, -⟩ := SD.bind_eq_some hpoll
      split at hpoll
      · rename_i hle
        obtain ⟨r41, mc, te, tf, h41, hpoll, -⟩ := SD.bind_eq_some hpoll
        simp only [SD.pure_apply, Option.some.injEq, Prod.mk.injEq, decide_eq_true_eq] at hpoll
        obtain ⟨rfl, rfl, -⟩ := hpoll
        exact ⟨m, mb, r55, tc, te, h55, hle, h41⟩
      · simp at hpoll
    | false =>
      simp only [Bool.false_eq_true, if_false] at h
      rw [SD.bind_of_eq (SD.getCtx_apply ma)] at h
      split at h
      · cases hl : SD_init_sd2_loop card fuel n ma with
        | none => rw [hl] at h; simp at h
        | some e =>
          obtain ⟨⟨⟩, mb, tb2⟩ := e
          rw [hl] at h
          simp only [Option.map_some', Option.some.injEq, Prod.mk.injEq] at h
          obtain ⟨-, rfl, -⟩ := h
          exact ih hl hne
      · rename_i h0
        simp only [SD.pure_apply, Option.map_some', Option.some.injEq, Prod.mk.injEq] at h
        obtain ⟨-, rfl, -⟩ := h
        exact absurd (by simpa using h0) hne

/-! ## What the inner functions leave alone -/

theorem Machine.Framed.same (m : Machine) : m.Framed m := ⟨id, rfl, rfl, rfl⟩

theorem Machine.Framed.chain_framed {m m1 m2 : Machine} (h1 : m.Framed m1) (h2 : m1.Framed m2) :
    m.Framed m2 :=
  ⟨fun h => h2.1 (h1.1 h), h2.2.1.trans h1.2.1, h2.2.2.1.trans h1.2.2.1,
    h2.2.2.2.trans h1.2.2.2⟩

theorem Machine.Framed.to_kept {m m1 : Machine} (h : m.Framed m1) (hd : m.ctx.dma_complete = 1) :
    m.Kept m1 := ⟨h.1 hd, h.2⟩

theorem Inner.pure_inner {α : Type} (P : BusEvent → Bool) (a : α) : Inner P (pure a : SD α) := by
  intro m b m1 t h
  simp only [SD.pure_apply, Option.some.injEq, Prod.mk.injEq] at h
  obtain ⟨-, rfl, rfl⟩ := h
  exact ⟨Machine.Framed.same m, by simp⟩

theorem Inner.stuck_inner {α : Type} (P : BusEvent → Bool) : Inner P (SD.stuck : SD α) := by
  intro m b m1 t h
  cases h

theorem Inner.getCtx_inner (P : BusEvent → Bool) : Inner P SD.getCtx := by
  intro m b m1 t h
  simp only [SD.getCtx_apply, Option.some.injEq, Prod.mk.injEq] at h
  obtain ⟨-, rfl, rfl⟩ := h
  exact ⟨Machine.Framed.same m, by simp⟩

theorem Inner.bind_inner {α β : Type} {P : BusEvent → Bool} {x : SD α} {f : α → SD β}
    (hx : Inner P x) (hf : ∀ a, Inner P (f a)) : Inner P (x >>= f) := by
  intro m b m2 t h
  obtain ⟨a, m1, t1, t2, h1, h2, rfl⟩ := SD.bind_eq_some h
  obtain ⟨hk1, hq1⟩ := hx m a m1 t1 h1
  obtain ⟨hk2, hq2⟩ := hf a m1 b m2 t2 h2
  refine ⟨hk1.chain_framed hk2, fun e he => ?_⟩
  rcases List.mem_append.mp he with he | he
  · exact hq1 e he
  · exact hq2 e he

theorem Inner.ite_inner {α : Type} {P : BusEvent → Bool} {c : Prop} [Decidable c] {x y : SD α}
    (hx : Inner P x) (hy : Inner P y) : Inner P (if c then x else y) := by
  split
  · exact hx
  · exact hy

/-- Setting a timer. -/
theorem Inner.timer_inner (P : BusEvent → Bool) (f : SD_Context → SD_Context)
    (hf : ∀ c, (f c).dma_complete = c.dma_complete ∧ (f c).status = c.status ∧
      (f c).card_type = c.card_type ∧ (f c).power_flag = c.power_flag) :
    Inner P (SD.modifyCtx f) := by
  intro m b m1 t h
  simp only [SD.modifyCtx_apply, Option.some.injEq, Prod.mk.injEq] at h
  obtain ⟨-, rfl, rfl⟩ := h
  obtain ⟨h1, h2, h3, h4⟩ := hf m.ctx
  exact ⟨⟨fun hd => h1.trans hd, h2, h3, h4⟩, by simp⟩

theorem SPI_RxByte_inner (card : Card) {P : BusEvent → Bool}
    (hP : ∀ b, P (BusEvent.xfer 0xFF b) = true) : Inner P (SPI_RxByte card) := by
  intro m b m1 t h
  by_cases hd : m.ctx.dma_complete = 1
  · rw [SPI_RxByte_apply card m hd] at h
    simp only [Option.some.injEq, Prod.mk.injEq] at h
    obtain ⟨-, rfl, rfl⟩ := h
    refine ⟨⟨fun _ => rfl, rfl, rfl, rfl⟩, fun e he => ?_⟩
    rw [List.mem_singleton] at he
    subst he
    exact hP _
  · rw [SPI_RxByte_skip card m hd] at h
    simp only [Option.some.injEq, Prod.mk.injEq] at h
    obtain ⟨-, rfl, rfl⟩ := h
    exact ⟨Machine.Framed.same m, by simp⟩

theorem SPI_TxBuffer_apply (buffer : List Nat) (m : Machine) (h : m.ctx.dma_complete = 1) :
    SPI_TxBuffer buffer m = some ((), m, [BusEvent.tx buffer]) := by
  unfold SPI_TxBuffer
  rw [SD.bind_of_eq (SD.getCtx_apply m)]
  simp only [h, if_true]
  rw [SD.bind_of_eq (SD.modifyCtx_apply _ m)]
  obtain ⟨ctx, pos⟩ := m
  obtain ⟨a, b, c, d, e, f⟩ := ctx
  simp only at h
  subst h
  rfl

theorem SPI_TxByte_skip (data : Nat) (m : Machine) (h : m.ctx.dma_complete ≠ 1) :
    SPI_TxByte data m = some ((), m, []) := by
  unfold SPI_TxByte
  rw [SD.bind_of_eq (SD.getCtx_apply m)]
  simp only [h, if_false]
  rfl

theorem SPI_TxBuffer_skip (buffer : List Nat) (m : Machine) (h : m.ctx.dma_complete ≠ 1) :
    SPI_TxBuffer buffer m = some ((), m, []) := by
  unfold SPI_TxBuffer
  rw [SD.bind_of_eq (SD.getCtx_apply m)]
  simp only [h, if_false]
  rfl

theorem SPI_TxByte_inner (data : Nat) {P : BusEvent → Bool}
    (hP : ∀ l, P (BusEvent.tx l) = true) : Inner P (SPI_TxByte data) := by
  intro m b m1 t h
  by_cases hd : m.ctx.dma_complete = 1
  · rw [SPI_TxByte_apply data m hd] at h
    simp only [Option.some.injEq, Prod.mk.injEq] at h
    obtain ⟨-, rfl, rfl⟩ := h
    refine ⟨Machine.Framed.same m, fun e he => ?_⟩
    rw [List.mem_singleton] at he
    subst he
    exact hP _
  · rw [SPI_TxByte_skip data m hd] at h
    simp only [Option.some.injEq, Prod.mk.injEq] at h
    obtain ⟨-, rfl, rfl⟩ := h
    exact ⟨Machine.Framed.same m, by simp⟩

theorem SPI_TxBuffer_inner (buffer : List Nat) {P : BusEvent → Bool}
    (hP : ∀ l, P (BusEvent.tx l) = true) : Inner P (SPI_TxBuffer buffer) := by
  intro m b m1 t h
  by_cases hd : m.ctx.dma_complete = 1
  · rw [SPI_TxBuffer_apply buffer m hd] at h
    simp only [Option.some.injEq, Prod.mk.injEq] at h
    obtain ⟨-, rfl, rfl⟩ := h
    refine ⟨Machine.Framed.same m, fun e he => ?_⟩
    rw [List.mem_singleton] at he
    subst he
    exact hP _
  · rw [SPI_TxBuffer_skip buffer m hd] at h
    simp only [Option.some.injEq, Prod.mk.injEq] at h
    obtain ⟨-, rfl, rfl⟩ := h
    exact ⟨Machine.Framed.same m, by simp⟩

theorem SD_ReadyWait_loop_inner (card : Card) {P : BusEvent → Bool}
    (hP : ∀ b, P (BusEvent.xfer 0xFF b) = true) (fuel : Nat) :
    Inner P (SD_ReadyWait_loop card fuel) := by
  induction fuel with
  | zero => exact Inner.stuck_inner P
  | succ n ih =>
    unfold SD_ReadyWait_loop
    exact Inner.bind_inner (SPI_RxByte_inner card hP) fun _ =>
      Inner.bind_inner (Inner.getCtx_inner P) fun _ => Inner.ite_inner ih (Inner.pure_inner P _)

theorem SD_ReadyWait_inner (card : Card) {P : BusEvent → Bool}
    (hP : ∀ b, P (BusEvent.xfer 0xFF b) = true) (fuel : Nat) :
    Inner P (SD_ReadyWait card fuel) := by
  unfold SD_ReadyWait
  exact Inner.bind_inner (Inner.timer_inner P _ fun _ => ⟨rfl, rfl, rfl, rfl⟩) fun _ =>
    SD_ReadyWait_loop_inner card hP fuel

theorem SD_SendCmd_poll_inner (card : Card) {P : BusEvent → Bool}
    (hP : ∀ b, P (BusEvent.xfer 0xFF b) = true) (n : Nat) :
    Inner P (SD_SendCmd_poll card n) := by
  induction n with
  | zero => exact SPI_RxByte_inner card hP
  | succ n ih =>
    unfold SD_SendCmd_poll
    exact Inner.bind_inner (SPI_RxByte_inner card hP) fun _ =>
      Inner.ite_inner ih (Inner.pure_inner P _)

theorem SD_SendCmd_inner (card : Card) (fuel cmd arg : Nat) :
    Inner BusEvent.isData (SD_SendCmd card fuel cmd arg) := by
  have htx : ∀ l, BusEvent.isData (BusEvent.tx l) = true := fun _ => rfl
  have hrx : ∀ b, BusEvent.isData (BusEvent.xfer 0xFF b) = true := fun _ => rfl
  unfold SD_SendCmd
  refine Inner.bind_inner (SD_ReadyWait_inner card hrx fuel) fun r =>
    Inner.ite_inner (Inner.pure_inner _ _) ?_
  refine Inner.bind_inner (SPI_TxByte_inner _ htx) fun _ => ?_
  refine Inner.bind_inner (SPI_TxByte_inner _ htx) fun _ => ?_
  refine Inner.bind_inner (SPI_TxByte_inner _ htx) fun _ => ?_
  refine Inner.bind_inner (SPI_TxByte_inner _ htx) fun _ => ?_
  refine Inner.bind_inner (SPI_TxByte_inner _ htx) fun _ => ?_
  refine Inner.bind_inner (SPI_TxByte_inner _ htx) fun _ => ?_
  refine Inner.bind_inner (Inner.ite_inner ?_ (Inner.pure_inner _ _)) fun _ =>
    SD_SendCmd_poll_inner card hrx 10
  exact Inner.bind_inner (SPI_RxByte_inner card hrx) fun _ => Inner.pure_inner _ _

theorem SD_RxDataBlock_token_inner (card : Card) (fuel : Nat) :
    Inner BusEvent.isData (SD_RxDataBlock_token card fuel) := by
  induction fuel with
  | zero => exact Inner.stuck_inner _
  | succ n ih =>
    unfold SD_RxDataBlock_token
    exact Inner.bind_inner (SPI_RxByte_inner card fun _ => rfl) fun _ =>
      Inner.bind_inner (Inner.getCtx_inner _) fun _ => Inner.ite_inner ih (Inner.pure_inner _ _)

theorem SD_RxDataBlock_data_inner (card : Card) (len : Nat) :
    Inner BusEvent.isData (SD_RxDataBlock_data card len) := by
  induction len with
  | zero =>
    unfold SD_RxDataBlock_data
    exact Inner.bind_inner (SPI_RxByte_inner card fun _ => rfl) fun _ => Inner.pure_inner _ _
  | succ n ih =>
    unfold SD_RxDataBlock_data
    exact Inner.bind_inner (SPI_RxByte_inner card fun _ => rfl) fun _ =>
      Inner.bind_inner ih fun _ => Inner.pure_inner _ _

theorem SD_RxDataBlock_inner (card : Card) (fuel len : Nat) :
    Inner BusEvent.isData (SD_RxDataBlock card fuel len) := by
  have hrx : ∀ b, BusEvent.isData (BusEvent.xfer 0xFF b) = true := fun _ => rfl
  unfold SD_RxDataBlock
  refine Inner.bind_inner (Inner.timer_inner _ _ fun _ => ⟨rfl, rfl, rfl, rfl⟩) fun _ => ?_
  refine Inner.bind_inner (SD_RxDataBlock_token_inner card fuel) fun _ =>
    Inner.ite_inner (Inner.pure_inner _ _) ?_
  refine Inner.bind_inner (SD_RxDataBlock_data_inner card len) fun _ => ?_
  refine Inner.bind_inner (SPI_RxByte_inner card hrx) fun _ => ?_
  exact Inner.bind_inner (SPI_RxByte_inner card hrx) fun _ => Inner.pure_inner _ _

theorem SD_TxDataBlock_resp_inner (card : Card) {P : BusEvent → Bool}
    (hP : ∀ b, P (BusEvent.xfer 0xFF b) = true) (n : Nat) :
    ∀ resp, Inner P (SD_TxDataBlock_resp card n resp) := by
  induction n with
  | zero =>
    intro resp
    exact Inner.pure_inner _ _
  | succ n ih =>
    intro resp
    unfold SD_TxDataBlock_resp
    exact Inner.bind_inner (SPI_RxByte_inner card hP) fun r =>
      Inner.ite_inner (Inner.pure_inner _ _) (ih r)

theorem SD_TxDataBlock_drain_inner (card : Card) {P : BusEvent → Bool}
    (hP : ∀ b, P (BusEvent.xfer 0xFF b) = true) (fuel : Nat) :
    Inner P (SD_TxDataBlock_drain card fuel) := by
  induction fuel with
  | zero => exact Inner.stuck_inner _
  | succ n ih =>
    unfold SD_TxDataBlock_drain
    exact Inner.bind_inner (SPI_RxByte_inner card hP) fun _ =>
      Inner.ite_inner ih (Inner.pure_inner _ _)

theorem SD_TxDataBlock_inner (card : Card) (fuel : Nat) (buff : Nat → Nat) (token : Nat) :
    Inner BusEvent.isData (SD_TxDataBlock card fuel buff token) := by
  have htx : ∀ l, BusEvent.isData (BusEvent.tx l) = true := fun _ => rfl
  have hrx : ∀ b, BusEvent.isData (BusEvent.xfer 0xFF b) = true := fun _ => rfl
  unfold SD_TxDataBlock
  refine Inner.bind_inner (SD_ReadyWait_inner card hrx fuel) fun r =>
    Inner.ite_inner (Inner.pure_inner _ _) ?_
  refine Inner.bind_inner (SPI_TxByte_inner _ htx) fun _ => ?_
  refine Inner.bind_inner (Inner.ite_inner ?_ (Inner.pure_inner _ _)) fun _ =>
    Inner.ite_inner (Inner.pure_inner _ _) (Inner.pure_inner _ _)
  refine Inner.bind_inner (SPI_TxBuffer_inner _ htx) fun _ => ?_
  refine Inner.bind_inner (SPI_RxByte_inner card hrx) fun _ => ?_
  refine Inner.bind_inner (SPI_RxByte_inner card hrx) fun _ => ?_
  refine Inner.bind_inner (SD_TxDataBlock_resp_inner card hrx 65 0) fun _ => ?_
  exact Inner.bind_inner (SD_TxDataBlock_drain_inner card hrx fuel) fun _ => Inner.pure_inner _ _

theorem SD_read_ocr_inner (card : Card) : Inner BusEvent.isData (SD_read_ocr card) := by
  have hrx : ∀ b, BusEvent.isData (BusEvent.xfer 0xFF b) = true := fun _ => rfl
  unfold SD_read_ocr
  exact Inner.bind_inner (SPI_RxByte_inner card hrx) fun _ =>
    Inner.bind_inner (SPI_RxByte_inner card hrx) fun _ =>
    Inner.bind_inner (SPI_RxByte_inner card hrx) fun _ =>
    Inner.bind_inner (SPI_RxByte_inner card hrx) fun _ => Inner.pure_inner _ _

theorem SD_init_sd2_poll_inner (card : Card) (fuel : Nat) :
    Inner BusEvent.isData (SD_init_sd2_poll card fuel) := by
  unfold SD_init_sd2_poll
  exact Inner.bind_inner (SD_SendCmd_inner card fuel _ _) fun _ =>
    Inner.ite_inner (Inner.bind_inner (SD_SendCmd_inner card fuel _ _) fun _ =>
      Inner.pure_inner _ _) (Inner.pure_inner _ _)

theorem SD_init_sd2_loop_inner (card : Card) (fuel n : Nat) :
    Inner BusEvent.isData (SD_init_sd2_loop card fuel n) := by
  induction n with
  | zero => exact Inner.stuck_inner _
  | succ n ih =>
    unfold SD_init_sd2_loop
    exact Inner.bind_inner (SD_init_sd2_poll_inner card fuel) fun _ =>
      Inner.ite_inner (Inner.pure_inner _ _)
        (Inner.bind_inner (Inner.getCtx_inner _) fun _ =>
          Inner.ite_inner ih (Inner.pure_inner _ _))

theorem SD_init_legacy_poll_inner (card : Card) (fuel type : Nat) :
    Inner BusEvent.isData (SD_init_legacy_poll card fuel type) := by
  unfold SD_init_legacy_poll
  refine Inner.ite_inner ?_ ?_
  · exact Inner.bind_inner (SD_SendCmd_inner card fuel _ _) fun _ =>
      Inner.ite_inner (Inner.bind_inner (SD_SendCmd_inner card fuel _ _) fun _ =>
        Inner.pure_inner _ _) (Inner.pure_inner _ _)
  · exact Inner.bind_inner (SD_SendCmd_inner card fuel _ _) fun _ => Inner.pure_inner _ _

theorem SD_init_legacy_loop_inner (card : Card) (fuel type n : Nat) :
    Inner BusEvent.isData (SD_init_legacy_loop card fuel type n) := by
  induction n with
  | zero => exact Inner.stuck_inner _
  | succ n ih =>
    unfold SD_init_legacy_loop
    exact Inner.bind_inner (SD_init_legacy_poll_inner card fuel type) fun _ =>
      Inner.ite_inner (Inner.pure_inner _ _)
        (Inner.bind_inner (Inner.getCtx_inner _) fun _ =>
          Inner.ite_inner ih (Inner.pure_inner _ _))

theorem SD_init_sd2_inner (card : Card) (fuel : Nat) :
    Inner BusEvent.isData (SD_init_sd2 card fuel) := by
  unfold SD_init_sd2
  refine Inner.bind_inner (SD_read_ocr_inner card) fun _ =>
    Inner.ite_inner ?_ (Inner.pure_inner _ _)
  refine Inner.bind_inner (SD_init_sd2_loop_inner card fuel fuel) fun _ => ?_
  refine Inner.bind_inner (Inner.getCtx_inner _) fun _ =>
    Inner.ite_inner ?_ (Inner.pure_inner _ _)
  refine Inner.bind_inner (SD_SendCmd_inner card fuel _ _) fun _ =>
    Inner.ite_inner ?_ (Inner.pure_inner _ _)
  exact Inner.bind_inner (SD_read_ocr_inner card) fun _ => Inner.pure_inner _ _

theorem SD_init_legacy_inner (card : Card) (fuel : Nat) :
    Inner BusEvent.isData (SD_init_legacy card fuel) := by
  unfold SD_init_legacy
  refine Inner.bind_inner (SD_SendCmd_inner card fuel _ _) fun _ => ?_
  refine Inner.bind_inner (Inner.ite_inner ?_ (Inner.pure_inner _ _)) fun _ => ?_
  · exact Inner.bind_inner (SD_SendCmd_inner card fuel _ _) fun _ => Inner.pure_inner _ _
  refine Inner.bind_inner (SD_init_legacy_loop_inner card fuel _ fuel) fun _ => ?_
  refine Inner.bind_inner (Inner.getCtx_inner _) fun _ =>
    Inner.ite_inner (Inner.pure_inner _ _) ?_
  exact Inner.bind_inner (SD_SendCmd_inner card fuel _ _) fun _ =>
    Inner.ite_inner (Inner.pure_inner _ _) (Inner.pure_inner _ _)

theorem SD_init_classify_inner (card : Card) (fuel : Nat) :
    Inner BusEvent.isData (SD_init_classify card fuel) := by
  unfold SD_init_classify
  refine Inner.bind_inner (SD_SendCmd_inner card fuel _ _) fun _ =>
    Inner.ite_inner ?_ (Inner.pure_inner _ _)
  refine Inner.bind_inner (Inner.timer_inner _ _ fun _ => ⟨rfl, rfl, rfl, rfl⟩) fun _ => ?_
  exact Inner.bind_inner (SD_SendCmd_inner card fuel _ _) fun _ =>
    Inner.ite_inner (SD_init_sd2_inner card fuel) (SD_init_legacy_inner card fuel)

theorem SD_disk_read_loop_inner (card : Card) (fuel count : Nat) :
    ∀ off, Inner BusEvent.isData (SD_disk_read_loop card fuel count off) := by
  induction count with
  | zero =>
    intro off
    exact Inner.pure_inner _ _
  | succ n ih =>
    intro off
    unfold SD_disk_read_loop
    exact Inner.bind_inner (SD_RxDataBlock_inner card fuel 512) fun _ =>
      Inner.ite_inner (Inner.pure_inner _ _)
        (Inner.ite_inner (Inner.bind_inner (ih _) fun _ => Inner.pure_inner _ _)
          (Inner.pure_inner _ _))

theorem SD_disk_read_transfer_inner (card : Card) (fuel sector count : Nat) :
    Inner BusEvent.isData (SD_disk_read_transfer card fuel sector count) := by
  unfold SD_disk_read_transfer
  refine Inner.ite_inner ?_ ?_
  · refine Inner.bind_inner (SD_SendCmd_inner card fuel _ _) fun _ =>
      Inner.ite_inner ?_ (Inner.pure_inner _ _)
    exact Inner.bind_inner (SD_RxDataBlock_inner card fuel 512) fun _ =>
      Inner.ite_inner (Inner.pure_inner _ _) (Inner.pure_inner _ _)
  · refine Inner.bind_inner (SD_SendCmd_inner card fuel _ _) fun _ =>
      Inner.ite_inner ?_ (Inner.pure_inner _ _)
    exact Inner.bind_inner (SD_disk_read_loop_inner card fuel count 0) fun _ =>
      Inner.bind_inner (SD_SendCmd_inner card fuel _ _) fun _ => Inner.pure_inner _ _

theorem SD_disk_write_loop_inner (card : Card) (fuel : Nat) (buff : Nat → Nat) (count : Nat) :
    ∀ off, Inner BusEvent.isData (SD_disk_write_loop card fuel buff count off) := by
  induction count with
  | zero =>
    intro off
    exact Inner.pure_inner _ _
  | succ n ih =>
    intro off
    unfold SD_disk_write_loop
    exact Inner.bind_inner (SD_TxDataBlock_inner card fuel _ _) fun _ =>
      Inner.ite_inner (Inner.pure_inner _ _)
        (Inner.ite_inner (ih _) (Inner.pure_inner _ _))

theorem SD_disk_write_transfer_inner (card : Card) (fuel : Nat) (buff : Nat → Nat)
    (sector count : Nat) :
    Inner BusEvent.isData (SD_disk_write_transfer card fuel buff sector count) := by
  unfold SD_disk_write_transfer
  refine Inner.ite_inner ?_ ?_
  · refine Inner.bind_inner (SD_SendCmd_inner card fuel _ _) fun _ =>
      Inner.ite_inner ?_ (Inner.pure_inner _ _)
    exact Inner.bind_inner (SD_TxDataBlock_inner card fuel _ _) fun _ =>
      Inner.ite_inner (Inner.pure_inner _ _) (Inner.pure_inner _ _)
  · refine Inner.bind_inner (Inner.getCtx_inner _) fun _ => ?_
    refine Inner.bind_inner (Inner.ite_inner ?_ (Inner.pure_inner _ _)) fun _ => ?_
    · exact Inner.bind_inner (SD_SendCmd_inner card fuel _ _) fun _ =>
        Inner.bind_inner (SD_SendCmd_inner card fuel _ _) fun _ => Inner.pure_inner _ _
    refine Inner.bind_inner (SD_SendCmd_inner card fuel _ _) fun _ =>
      Inner.ite_inner ?_ (Inner.pure_inner _ _)
    exact Inner.bind_inner (SD_disk_write_loop_inner card fuel buff count 0) fun _ =>
      Inner.bind_inner (SD_TxDataBlock_inner card fuel _ _) fun _ =>
        Inner.ite_inner (Inner.pure_inner _ _) (Inner.pure_inner _ _)

/-! ## No medium -/

/-- C14: with `NODISK` set, `SD_disk_initialize` returns the current status, for
any card and loop budget, with an empty bus trace and the machine state (status,
card type, power flag, transfer flag, timers, exchange count) unchanged. -/
theorem initialize_nodisk (card : Card) (fuel : Nat) (m : Machine)
    (hnodisk : m.ctx.status &&& STA_NODISK ≠ 0) :
    SD_disk_initialize card fuel m = some (m.ctx.status, m, []) := by
  unfold SD_disk_initialize
  rw [SD.bind_of_eq (SD.getCtx_apply m), if_pos hnodisk]
  rfl

/-- C14, witness: status `NOINIT | NODISK` (3) after `SD_init`. -/
theorem initialize_nodisk_witness :
    SD_disk_initialize (cardOfBytes []) 0 ⟨{ SD_init with status := 3 }, 0⟩
      = some (3, ⟨{ SD_init with status := 3 }, 0⟩, []) :=
  initialize_nodisk (cardOfBytes []) 0 ⟨{ SD_init with status := 3 }, 0⟩ (by decide)

/-! ## The length of a received block -/

/-- The exchanges of the payload loop of `SD_RxDataBlock`: `len + 1` of them. -/
theorem SD_RxDataBlock_data_pos (card : Card) (len : Nat) :
    ∀ (m m1 : Machine) (data : List Nat) (t : List BusEvent), m.ctx.dma_complete = 1 →
      SD_RxDataBlock_data card len m = some (data, m1, t) →
      m1.pos = m.pos + (len + 1) ∧ m1.ctx.dma_complete = 1 := by
  induction len with
  | zero =>
    intro m m1 data t hd h
    unfold SD_RxDataBlock_data at h
    rw [SD.bind_of_eq (SPI_RxByte_apply card m hd)] at h
    simp only [SD.pure_apply, Option.map_some', Option.some.injEq, Prod.mk.injEq] at h
    obtain ⟨-, rfl, -⟩ := h
    exact ⟨rfl, rfl⟩
  | succ n ih =>
    intro m m1 data t hd h
    unfold SD_RxDataBlock_data at h
    rw [SD.bind_of_eq (SPI_RxByte_apply card m hd)] at h
    cases hr : SD_RxDataBlock_data card n (m.exchanged card) with
    | none => rw [SD.bind_of_stuck hr] at h; cases h
    | some r =>
      obtain ⟨d, mb, tb⟩ := r
      rw [SD.bind_of_eq hr] at h
      simp only [SD.pure_apply, Option.map_some', Option.some.injEq, Prod.mk.injEq] at h
      obtain ⟨-, rfl, -⟩ := h
      obtain ⟨hp, hdb⟩ := ih (m.exchanged card) mb d tb rfl hr
      refine ⟨?_, hdb⟩
      rw [hp]
      show m.pos + 1 + (n + 1) = m.pos + (n + 1 + 1)
      omega

/-- After the token wait of `SD_RxDataBlock(ctx, buff, len)` has seen `0xFE` in
state `ma`, `len + 3` further bytes are read from the bus and `len + 1` of them
are stored from `buff` on. -/
theorem SD_RxDataBlock_consumes {card : Card} {fuel len : Nat} {m ma m1 : Machine}
    {data : List Nat} {ta t : List BusEvent}
    (htoken : SD_RxDataBlock_token card fuel { m with ctx := { m.ctx with timer1 := 200 } }
      = some (0xFE, ma, ta))
    (hd : ma.ctx.dma_complete = 1)
    (h : SD_RxDataBlock card fuel len m = some ((true, data), m1, t)) :
    m1.pos = ma.pos + (len + 3) ∧ data.length = len + 1 := by
  refine ⟨?_, (SD_RxDataBlock_bytes card fuel len m m1 data t h).1⟩
  unfold SD_RxDataBlock at h
  rw [SD.bind_of_eq (SD.modifyCtx_apply _ m), SD.bind_of_eq htoken] at h
  simp only [ne_eq, not_true_eq_false, if_false] at h
  cases hr : SD_RxDataBlock_data card len ma with
  | none => rw [SD.bind_of_stuck hr] at h; cases h
  | some r =>
    obtain ⟨d, mb, tb⟩ := r
    obtain ⟨hp, hdb⟩ := SD_RxDataBlock_data_pos card len ma mb d tb hd hr
    rw [SD.bind_of_eq hr, SD.bind_of_eq (SPI_RxByte_apply card mb hdb),
      SD.bind_of_eq (SPI_RxByte_apply card (mb.exchanged card) rfl)] at h
    simp only [SD.pure_apply, Option.map_some', Option.some.injEq, Prod.mk.injEq] at h
    obtain ⟨-, rfl, -⟩ := h
    show mb.pos + 1 + 1 = ma.pos + (len + 3)
    omega

/-- C15, the code at the failing input: asked for 16 bytes after the token `FE`,
`SD_RxDataBlock` stores seventeen bytes (the seventeenth, the first checksum byte
`AA`, at `buff[16]`) and discards two more: 19 bytes are consumed after the token
(20 exchanges in all).  Likewise `MMC_GET_CSD` stores seventeen bytes through the
caller's pointer. -/
theorem rx_data_block_reads_one_more :
    (SD_RxDataBlock blockCard 1 16 ⟨readyCtx 0x0C, 0⟩).map (fun r => (r.1, r.2.1.pos))
      = some ((true, [0x01, 0x02, 0x03, 0x04, 0x05, 0x06, 0x07, 0x08, 0x09, 0x0A, 0x0B, 0x0C,
          0x0D, 0x0E, 0x0F, 0x10, 0xAA]), 20) ∧
    (SD_disk_ioctl (cardOfBytes ([0xFF, 0x00] ++ [0xFE, 0x01, 0x02, 0x03, 0x04, 0x05, 0x06,
        0x07, 0x08, 0x09, 0x0A, 0x0B, 0x0C, 0x0D, 0x0E, 0x0F, 0x10, 0xAA, 0xBB, 0xCC]))
        1 MMC_GET_CSD 0 ⟨readyCtx 0x0C, 0⟩).map (fun r => (r.1.1, r.1.2.length, r.2.1.pos))
      = some (RES_OK, 17, 23) := by
  decide!

/-! ## The command frame and the response of `SD_SendCmd` -/

theorem txBytes_append (a b : List BusEvent) : txBytes (a ++ b) = txBytes a ++ txBytes b := by
  induction a with
  | nil => rfl
  | cons e a ih =>
    cases e with
    | csLow => exact ih
    | csHigh => exact ih
    | tx l =>
      show l ++ txBytes (a ++ b) = l ++ txBytes a ++ txBytes b
      rw [ih, List.append_assoc]
    | xfer x y => exact ih

theorem txBytes_listen (t : List BusEvent) (h : ∀ e ∈ t, BusEvent.isListen e = true) :
    txBytes t = [] := by
  induction t with
  | nil => rfl
  | cons e t ih =>
    have he := h e (List.mem_cons_self e t)
    have ht : ∀ e2 ∈ t, BusEvent.isListen e2 = true := fun e2 h2 =>
      h e2 (List.mem_cons_of_mem e h2)
    cases e with
    | csLow => cases he
    | csHigh => cases he
    | tx l => cases he
    | xfer x y => exact ih ht

/-- The run of `SD_SendCmd` after a successful ready-wait, from the run of the
response poll. -/
theorem SD_SendCmd_eq_of_ready {card : Card} {fuel cmd arg r : Nat} {m ma mb : Machine}
    {ta tb : List BusEvent} (hd : ma.ctx.dma_complete = 1)
    (hready : SD_ReadyWait card fuel m = some (0xFF, ma, ta))
    (hpoll : SD_SendCmd_poll card 10 (if cmd = CMD12 then ma.exchanged card else ma)
      = some (r, mb, tb)) :
    SD_SendCmd card fuel cmd arg m = some (r, mb, ta ++ (commandFrame cmd arg
      ++ ((if cmd = CMD12 then [BusEvent.xfer 0xFF (ma.rxByte card)] else []) ++ tb))) := by
  unfold SD_SendCmd
  rw [SD.bind_of_eq hready]
  simp only [ne_eq, not_true_eq_false, if_false]
  rw [SD.bind_of_eq (SPI_TxByte_apply _ ma hd), SD.bind_of_eq (SPI_TxByte_apply _ ma hd),
    SD.bind_of_eq (SPI_TxByte_apply _ ma hd), SD.bind_of_eq (SPI_TxByte_apply _ ma hd),
    SD.bind_of_eq (SPI_TxByte_apply _ ma hd), SD.bind_of_eq (SPI_TxByte_apply _ ma hd)]
  by_cases h12 : cmd = CMD12
  · simp only [h12, if_true] at hpoll ⊢
    have hstuff : (do let _ ← SPI_RxByte card; pure ()) ma
        = some ((), ma.exchanged card, [BusEvent.xfer 0xFF (ma.rxByte card)] ++ []) := by
      rw [SD.bind_of_eq (SPI_RxByte_apply card ma hd)]; rfl
    rw [SD.bind_of_eq hstuff, hpoll]
    rfl
  · simp only [h12, if_false] at hpoll ⊢
    rw [SD.bind_of_eq (SD.pure_apply () ma), hpoll]
    rfl

/-- The run of `SD_SendCmd` when the ready-wait did not see `0xFF`. -/
theorem SD_SendCmd_eq_of_busy {card : Card} {fuel cmd arg r : Nat} {m ma : Machine}
    {ta : List BusEvent} (hready : SD_ReadyWait card fuel m = some (r, ma, ta))
    (hr : r ≠ 0xFF) : SD_SendCmd card fuel cmd arg m = some (0xFF, ma, ta) := by
  unfold SD_SendCmd
  rw [SD.bind_of_eq hready, if_pos hr]
  simp

/-- The response poll entered with `n + 1`: it returns the first byte with a clear
MSB among the next `n + 1` bytes of the card, reading no further; if there is
none it returns the last of them. -/
theorem SD_SendCmd_poll_spec (card : Card) (n : Nat) :
    ∀ m : Machine, m.ctx.dma_complete = 1 →
      ∃ r m1 t, SD_SendCmd_poll card (n + 1) m = some (r, m1, t) ∧
        (∀ e ∈ t, BusEvent.isListen e = true) ∧
        (∀ j, j ≤ n → (∀ i, i < j → (card (m.pos + i)).1 % 256 &&& 0x80 ≠ 0) →
          (card (m.pos + j)).1 % 256 &&& 0x80 = 0 →
          r = (card (m.pos + j)).1 % 256 ∧ m1.pos = m.pos + j + 1) ∧
        ((∀ i, i ≤ n → (card (m.pos + i)).1 % 256 &&& 0x80 ≠ 0) →
          r = (card (m.pos + n)).1 % 256 ∧ m1.pos = m.pos + n + 1) := by
  induction n with
  | zero =>
    intro m hd
    refine ⟨m.rxByte card, m.exchanged card, [BusEvent.xfer 0xFF (m.rxByte card)] ++ [], ?_, ?_, ?_, ?_⟩
    · unfold SD_SendCmd_poll
      rw [SD.bind_of_eq (SPI_RxByte_apply card m hd)]
      simp
    · intro e he
      simp only [List.append_nil, List.mem_singleton] at he
      subst he
      rfl
    · intro j hj _ _
      obtain rfl : j = 0 := by omega
      exact ⟨rfl, rfl⟩
    · intro _
      exact ⟨rfl, rfl⟩
  | succ n ih =>
    intro m hd
    by_cases hb : m.rxByte card &&& 0x80 ≠ 0
    · obtain ⟨r, m1, t, hrun, hl, hfirst, hlast⟩ := ih (m.exchanged card) rfl
      refine ⟨r, m1, [BusEvent.xfer 0xFF (m.rxByte card)] ++ t, ?_, ?_, ?_, ?_⟩
      · rw [SD_SendCmd_poll, SD.bind_of_eq (SPI_RxByte_apply card m hd),
          if_pos ⟨hb, Nat.succ_ne_zero n⟩, hrun]
        rfl
      · intro e he
        rcases List.mem_append.mp he with he | he
        · rw [List.mem_singleton] at he
          subst he
          rfl
        · exact hl e he
      · intro j hj hset hclear
        cases j with
        | zero => exact absurd hclear hb
        | succ j =>
          have := hfirst j (by omega) (fun i hi => by
            have := hset (i + 1) (by omega)
            rwa [show m.pos + (i + 1) = m.pos + 1 + i by omega] at this)
            (by rwa [show m.pos + (j + 1) = m.pos + 1 + j by omega] at hclear)
          refine ⟨?_, ?_⟩
          · rw [this.1]
            show (card (m.pos + 1 + j)).1 % 256 = _
            rw [show m.pos + 1 + j = m.pos + (j + 1) by omega]
          · rw [this.2]
            show m.pos + 1 + j + 1 = _
            omega
      · intro hset
        have := hlast (fun i hi => by
          have := hset (i + 1) (by omega)
          rwa [show m.pos + (i + 1) = m.pos + 1 + i by omega] at this)
        refine ⟨?_, ?_⟩
        · rw [this.1]
          show (card (m.pos + 1 + n)).1 % 256 = _
          rw [show m.pos + 1 + n = m.pos + (n + 1) by omega]
        · rw [this.2]
          show m.pos + 1 + n + 1 = _
          omega
    · refine ⟨m.rxByte card, m.exchanged card, [BusEvent.xfer 0xFF (m.rxByte card)] ++ [],
        ?_, ?_, ?_, ?_⟩
      · rw [SD_SendCmd_poll, SD.bind_of_eq (SPI_RxByte_apply card m hd),
          if_neg (fun h => hb h.1)]
        rfl
      · intro e he
        simp only [List.append_nil, List.mem_singleton] at he
        subst he
        rfl
      · intro j hj hset _
        cases j with
        | zero => exact ⟨rfl, rfl⟩
        | succ j => exact absurd (hset 0 (by omega)) hb
      · intro hset
        exact absurd (hset 0 (by omega)) hb

/-- C16, counterexample: the card is ready and then answers READ_SINGLE_BLOCK
with ten bytes `80`; `SD_SendCmd` returns `0x80`, the tenth byte, not `0xFF`. -/
theorem send_cmd_exhausted_counterexample :
    (SD_SendCmd tenTimes80 1 CMD17 0 ⟨readyCtx 0x0C, 0⟩).map (fun r => (r.1, r.2.1.pos))
      = some (0x80, 11) ∧ (0x80 : Nat) ≠ 0xFF := by
  decide!

/-- C16 (amended): from a state with no transfer pending, let the ready-wait of
`SD_SendCmd` return `r0` in state `ma`.  If `r0` is not `0xFF`, `SD_SendCmd`
returns `0xFF` and its trace is that of the ready-wait, with no byte transmitted.
If `r0` is `0xFF`, `SD_SendCmd` returns, having read between one and ten response
bytes (after one stuff byte for CMD12): its value is the first response byte with
a clear MSB, and no byte is read after it; if none of the ten has a clear MSB, its
value is the tenth byte. -/
theorem send_cmd_response (card : Card) (fuel cmd arg : Nat) (m ma : Machine) (r0 : Nat)
    (ta : List BusEvent) (hd : m.ctx.dma_complete = 1)
    (hready : SD_ReadyWait card fuel m = some (r0, ma, ta)) :
    (r0 ≠ 0xFF → SD_SendCmd card fuel cmd arg m = some (0xFF, ma, ta) ∧ txBytes ta = []) ∧
    (r0 = 0xFF → ∃ r mb t, SD_SendCmd card fuel cmd arg m = some (r, mb, t) ∧
      responseStart cmd ma < mb.pos ∧ mb.pos ≤ responseStart cmd ma + 10 ∧
      (∀ j, j < 10 → (∀ i, i < j → cardByte card (responseStart cmd ma + i) &&& 0x80 ≠ 0) →
        cardByte card (responseStart cmd ma + j) &&& 0x80 = 0 →
        r = cardByte card (responseStart cmd ma + j) ∧ mb.pos = responseStart cmd ma + j + 1) ∧
      ((∀ i, i < 10 → cardByte card (responseStart cmd ma + i) &&& 0x80 ≠ 0) →
        r = cardByte card (responseStart cmd ma + 9) ∧ mb.pos = responseStart cmd ma + 10)) := by
  obtain ⟨hfa, hla⟩ := SD_ReadyWait_inner card (P := BusEvent.isListen) (fun _ => rfl) fuel
    m r0 ma ta hready
  refine ⟨fun hr => ⟨SD_SendCmd_eq_of_busy hready hr, txBytes_listen ta hla⟩, fun hr => ?_⟩
  subst hr
  have hda : ma.ctx.dma_complete = 1 := hfa.1 hd
  have hdp : (if cmd = CMD12 then ma.exchanged card else ma).ctx.dma_complete = 1 := by
    split
    · rfl
    · exact hda
  have hpos : (if cmd = CMD12 then ma.exchanged card else ma).pos = responseStart cmd ma := by
    unfold responseStart
    split <;> rfl
  obtain ⟨r, mb, tb, hrun, -, hfirst, hlast⟩ := SD_SendCmd_poll_spec card 9 _ hdp
  rw [hpos] at hfirst hlast
  have hfirst' : ∀ j, j < 10 →
      (∀ i, i < j → cardByte card (responseStart cmd ma + i) &&& 0x80 ≠ 0) →
      cardByte card (responseStart cmd ma + j) &&& 0x80 = 0 →
      r = cardByte card (responseStart cmd ma + j) ∧ mb.pos = responseStart cmd ma + j + 1 :=
    fun j hj hset hclear => hfirst j (by omega) hset hclear
  have hlast' : (∀ i, i < 10 → cardByte card (responseStart cmd ma + i) &&& 0x80 ≠ 0) →
      r = cardByte card (responseStart cmd ma + 9) ∧ mb.pos = responseStart cmd ma + 10 :=
    fun hset => hlast (fun i hi => hset i (by omega))
  refine ⟨r, mb, _, SD_SendCmd_eq_of_ready hda hready hrun, ?_, ?_, hfirst', hlast'⟩
  · by_cases hall : ∀ i, i < 10 → cardByte card (responseStart cmd ma + i) &&& 0x80 ≠ 0
    · rw [(hlast' hall).2]; omega
    · have hex : ∃ j, j < 10 ∧ cardByte card (responseStart cmd ma + j) &&& 0x80 = 0 := by
        by_contra hno
        exact hall fun i hi hc => hno ⟨i, hi, hc⟩
      have hj := Nat.find_spec hex
      have hmin : ∀ i, i < Nat.find hex →
          cardByte card (responseStart cmd ma + i) &&& 0x80 ≠ 0 := fun i hi hc =>
        Nat.find_min hex hi ⟨by omega, hc⟩
      rw [(hfirst' _ hj.1 hmin hj.2).2]; omega
  · by_cases hall : ∀ i, i < 10 → cardByte card (responseStart cmd ma + i) &&& 0x80 ≠ 0
    · rw [(hlast' hall).2]
    · have hex : ∃ j, j < 10 ∧ cardByte card (responseStart cmd ma + j) &&& 0x80 = 0 := by
        by_contra hno
        exact hall fun i hi hc => hno ⟨i, hi, hc⟩
      have hj := Nat.find_spec hex
      have hmin : ∀ i, i < Nat.find hex →
          cardByte card (responseStart cmd ma + i) &&& 0x80 ≠ 0 := fun i hi hc =>
        Nat.find_min hex hi ⟨by omega, hc⟩
      rw [(hfirst' _ hj.1 hmin hj.2).2]; omega

/-- C16, witness: after the ready byte the card answers `FF C0 05`; the value is
`05`, the third response byte, and four exchanges have been made. -/
theorem send_cmd_response_witness :
    ∃ r mb t, SD_SendCmd (cardOfBytes [0xFF, 0xFF, 0xC0, 0x05]) 1 CMD17 0 ⟨readyCtx 0x0C, 0⟩
      = some (r, mb, t) ∧ r = 0x05 ∧ mb.pos = 4 := by
  obtain ⟨r, mb, t, h, -, -, hfirst, -⟩ :=
    (send_cmd_response (cardOfBytes [0xFF, 0xFF, 0xC0, 0x05]) 1 CMD17 0 ⟨readyCtx 0x0C, 0⟩
      ⟨{ readyCtx 0x0C with timer2 := 500 }, 1⟩ 0xFF [BusEvent.xfer 0xFF 0xFF] rfl
      (by decide!)).2 rfl
  exact ⟨r, mb, t, h, hfirst 2 (by decide) (by decide) (by decide)⟩

theorem shiftRight_byte (arg k : Nat) : (arg >>> k) % 256 = arg / 2 ^ k % 256 := by
  rw [Nat.shiftRight_eq_div_pow]

/-- C17: command frame encoding.  From a state with no transfer pending, for a
command byte `cmd`, a 32-bit argument `arg` and a ready-wait that returns `0xFF`
with trace `ta`, `SD_SendCmd` returns with trace `ta`, then the six single-byte
transmissions `cmd`, `arg[31:24]`, `arg[23:16]`, `arg[15:8]`, `arg[7:0]`, `crc`,
then a trace `tb`, where nothing is transmitted in `ta` and `tb`; so the bytes
transmitted are exactly these six.  `crc` is `0x95` for `cmd = 0x40`, `0x87` for
`cmd = 0x48` and `0x01` otherwise, and the four argument bytes read big-endian
are `arg`. -/
theorem command_frame_encoding (card : Card) (fuel cmd arg : Nat) (m ma : Machine)
    (ta : List BusEvent) (hcmd : cmd < 256) (harg : arg < 2 ^ 32)
    (hd : m.ctx.dma_complete = 1)
    (hready : SD_ReadyWait card fuel m = some (0xFF, ma, ta)) :
    ∃ r mb tb, SD_SendCmd card fuel cmd arg m
        = some (r, mb, ta ++ (frameEvents cmd (arg / 2 ^ 24 % 256) (arg / 2 ^ 16 % 256)
            (arg / 2 ^ 8 % 256) (arg % 256)
            (if cmd = 0x40 then 0x95 else if cmd = 0x48 then 0x87 else 0x01) ++ tb)) ∧
      txBytes ta = [] ∧ txBytes tb = [] ∧
      txBytes (ta ++ (frameEvents cmd (arg / 2 ^ 24 % 256) (arg / 2 ^ 16 % 256)
            (arg / 2 ^ 8 % 256) (arg % 256)
            (if cmd = 0x40 then 0x95 else if cmd = 0x48 then 0x87 else 0x01) ++ tb))
        = [cmd, arg / 2 ^ 24 % 256, arg / 2 ^ 16 % 256, arg / 2 ^ 8 % 256, arg % 256,
            if cmd = 0x40 then 0x95 else if cmd = 0x48 then 0x87 else 0x01] ∧
      (arg / 2 ^ 24 % 256) * 2 ^ 24 + (arg / 2 ^ 16 % 256) * 2 ^ 16
        + (arg / 2 ^ 8 % 256) * 2 ^ 8 + arg % 256 = arg := by
  obtain ⟨hfa, hla⟩ := SD_ReadyWait_inner card (P := BusEvent.isListen) (fun _ => rfl) fuel
    m 0xFF ma ta hready
  have hda : ma.ctx.dma_complete = 1 := hfa.1 hd
  have hdp : (if cmd = CMD12 then ma.exchanged card else ma).ctx.dma_complete = 1 := by
    split
    · rfl
    · exact hda
  obtain ⟨r, mb, tb, hrun, hlb, -, -⟩ := SD_SendCmd_poll_spec card 9 _ hdp
  have hframe : commandFrame cmd arg = frameEvents cmd (arg / 2 ^ 24 % 256)
      (arg / 2 ^ 16 % 256) (arg / 2 ^ 8 % 256) (arg % 256)
      (if cmd = 0x40 then 0x95 else if cmd = 0x48 then 0x87 else 0x01) := by
    unfold commandFrame
    rw [shiftRight_byte, shiftRight_byte, shiftRight_byte, Nat.mod_eq_of_lt hcmd]
    congr 1
    show (if cmd = 0x40 then 0x95 else if cmd = 0x48 then 0x87 else 1) % 256 = _
    split
    · rfl
    · split <;> rfl
  have htail : txBytes ((if cmd = CMD12 then [BusEvent.xfer 0xFF (ma.rxByte card)] else [])
      ++ tb) = [] := by
    apply txBytes_listen
    intro e he
    rcases List.mem_append.mp he with he | he
    · split at he
      · rw [List.mem_singleton] at he
        subst he
        rfl
      · cases he
    · exact hlb e he
  have hta := txBytes_listen ta hla
  refine ⟨r, mb, _, ?_, hta, htail, ?_, ?_⟩
  · rw [← hframe]
    exact SD_SendCmd_eq_of_ready hda hready hrun
  · rw [txBytes_append, txBytes_append, hta, htail]
    rfl
  · omega

/-- C17, witness: READ_SINGLE_BLOCK (`0x51`) with argument `0x12345678` on a
card that is ready at once and answers `00`; the frame is `51 12 34 56 78 01`. -/
theorem command_frame_encoding_witness :
    ∃ r mb tb, SD_SendCmd (cardOfBytes [0xFF, 0x00]) 1 CMD17 0x12345678 ⟨readyCtx 0x0C, 0⟩
        = some (r, mb, [BusEvent.xfer 0xFF 0xFF] ++ (frameEvents 0x51 0x12 0x34 0x56 0x78 0x01
            ++ tb)) ∧ txBytes tb = [] := by
  obtain ⟨r, mb, tb, h, -, htb, -, -⟩ :=
    command_frame_encoding (cardOfBytes [0xFF, 0x00]) 1 CMD17 0x12345678 ⟨readyCtx 0x0C, 0⟩
      ⟨{ readyCtx 0x0C with timer2 := 500 }, 1⟩ [BusEvent.xfer 0xFF 0xFF] (by decide) (by decide)
      rfl (by decide!)
  exact ⟨r, mb, tb, h, htb⟩

/-! ## Transmitting a data block -/

/-- The response loop of `SD_TxDataBlock` stops at the first byte when its low
five bits are `00101`. -/
theorem SD_TxDataBlock_resp_accept (card : Card) (n resp : Nat) (m : Machine)
    (hd : m.ctx.dma_complete = 1) (hresp : cardByte card m.pos &&& 0x1F = 0x05) :
    SD_TxDataBlock_resp card (n + 1) resp m
      = some (cardByte card m.pos, m.exchanged card,
          [BusEvent.xfer 0xFF (cardByte card m.pos)]) := by
  unfold SD_TxDataBlock_resp
  rw [SD.bind_of_eq (SPI_RxByte_apply card m hd)]
  have : m.rxByte card &&& 0x1F = 0x05 := hresp
  rw [if_pos this]
  rfl

theorem exchanged_iterate_pos (card : Card) (n : Nat) :
    ∀ m : Machine, ((Machine.exchanged card)^[n] m).pos = m.pos + n := by
  induction n with
  | zero => intro m; rfl
  | succ n ih =>
    intro m
    rw [Function.iterate_succ_apply, ih]
    show m.pos + 1 + n = _
    omega

theorem exchanged_iterate_dma (card : Card) (n : Nat) :
    ∀ m : Machine, m.ctx.dma_complete = 1 →
      ((Machine.exchanged card)^[n] m).ctx.dma_complete = 1 := by
  induction n with
  | zero => intro m hd; exact hd
  | succ n ih =>
    intro m _
    rw [Function.iterate_succ_apply]
    exact ih _ rfl

/-- The drain loop of `SD_TxDataBlock` from `m`, when the card holds the line at
`00` for `k` bytes and then drives a non-zero byte: it returns after `k + 1`
exchanges, for every loop budget above `k`. -/
theorem SD_TxDataBlock_drain_busy (card : Card) (k : Nat) :
    ∀ m : Machine, m.ctx.dma_complete = 1 →
      (∀ i, i < k → cardByte card (m.pos + i) = 0) → cardByte card (m.pos + k) ≠ 0 →
      ∃ m1 t, m1 = (Machine.exchanged card)^[k + 1] m ∧ m1.pos = m.pos + k + 1 ∧
        m1.ctx.dma_complete = 1 ∧ (∀ e ∈ t, BusEvent.isListen e = true) ∧
        ∀ fuel, k < fuel → SD_TxDataBlock_drain card fuel m = some ((), m1, t) := by
  induction k with
  | zero =>
    intro m hd _ hend
    refine ⟨m.exchanged card, [BusEvent.xfer 0xFF (m.rxByte card)] ++ [], rfl, rfl, rfl, ?_, ?_⟩
    · intro e he
      simp only [List.append_nil, List.mem_singleton] at he
      subst he
      rfl
    · intro fuel hfuel
      obtain ⟨f, rfl⟩ : ∃ f, fuel = f + 1 := ⟨fuel - 1, by omega⟩
      unfold SD_TxDataBlock_drain
      rw [SD.bind_of_eq (SPI_RxByte_apply card m hd)]
      have : ¬ m.rxByte card = 0 := hend
      rw [if_neg this]
      rfl
  | succ k ih =>
    intro m hd hbusy hend
    obtain ⟨m1, t, hm1, hpos, hd1, hl, hrun⟩ := ih (m.exchanged card) rfl
      (fun i hi => by
        have := hbusy (i + 1) (by omega)
        rwa [show m.pos + (i + 1) = m.pos + 1 + i by omega] at this)
      (by rwa [show m.pos + (k + 1) = m.pos + 1 + k by omega] at hend)
    refine ⟨m1, [BusEvent.xfer 0xFF (m.rxByte card)] ++ t, ?_, ?_, hd1, ?_, ?_⟩
    · rw [hm1]
      rfl
    · rw [hpos]
      show m.pos + 1 + k + 1 = _
      omega
    · intro e he
      rcases List.mem_append.mp he with he | he
      · rw [List.mem_singleton] at he
        subst he
        rfl
      · exact hl e he
    · intro fuel hfuel
      obtain ⟨f, rfl⟩ : ∃ f, fuel = f + 1 := ⟨fuel - 1, by omega⟩
      rw [SD_TxDataBlock_drain, SD.bind_of_eq (SPI_RxByte_apply card m hd)]
      have : m.rxByte card = 0 := hbusy 0 (by omega)
      rw [if_pos this, hrun f (by omega)]
      rfl

/-- A data block that the card accepts: after a successful ready-wait ending in
`ma`, the token and the 512 bytes are transmitted, two bytes are read in place of
the checksum, the data response (low five bits `00101`) is read, and the line is
drained through `k` busy bytes `00` up to the first non-zero byte. -/
theorem SD_TxDataBlock_accepted {card : Card} {fuel token k : Nat} (buff : Nat → Nat)
    {m ma : Machine} {ta : List BusEvent} (hda : ma.ctx.dma_complete = 1)
    (hready : SD_ReadyWait card fuel m = some (0xFF, ma, ta)) (htoken : token ≠ 0xFD)
    (hresp : cardByte card (ma.pos + 2) &&& 0x1F = 0x05)
    (hbusy : ∀ i, i < k → cardByte card (ma.pos + 3 + i) = 0)
    (hend : cardByte card (ma.pos + 3 + k) ≠ 0) (hfuel : k < fuel) :
    ∃ mb tb, SD_TxDataBlock card fuel buff token m
        = some (true, mb, ta ++ ([BusEvent.tx [token % 256],
            BusEvent.tx ((List.range 512).map (fun i => buff i % 256))] ++ tb)) ∧
      mb.pos = ma.pos + k + 4 ∧ mb.ctx.dma_complete = 1 ∧
      (∀ e ∈ tb, BusEvent.isListen e = true) ∧ mb = (Machine.exchanged card)^[k + 4] ma := by
  have hd3 : ((ma.exchanged card).exchanged card).ctx.dma_complete = 1 := rfl
  have hr := SD_TxDataBlock_resp_accept card 64 0 ((ma.exchanged card).exchanged card) hd3 hresp
  obtain ⟨mb, td, hmb, hpos, hdb, hl, hdrain⟩ := SD_TxDataBlock_drain_busy card k
    (((ma.exchanged card).exchanged card).exchanged card) rfl hbusy hend
  have hdrain := hdrain fuel hfuel
  refine ⟨mb, [BusEvent.xfer 0xFF (ma.rxByte card),
    BusEvent.xfer 0xFF ((ma.exchanged card).rxByte card),
    BusEvent.xfer 0xFF (cardByte card (ma.pos + 2))] ++ td, ?_, ?_, hdb, ?_, hmb⟩
  · unfold SD_TxDataBlock
    rw [SD.bind_of_eq hready]
    simp only [ne_eq, not_true_eq_false, if_false]
    rw [SD.bind_of_eq (SPI_TxByte_apply _ ma hda)]
    have hinner : (if token ≠ 0xFD then do
          SPI_TxBuffer ((List.range 512).map (fun i => buff i % 256))
          let _ ← SPI_RxByte card
          let _ ← SPI_RxByte card
          let resp ← SD_TxDataBlock_resp card 65 0
          SD_TxDataBlock_drain card fuel
          pure resp
        else pure 0) ma
        = some (cardByte card (ma.pos + 2), mb,
            [BusEvent.tx ((List.range 512).map (fun i => buff i % 256))] ++
            ([BusEvent.xfer 0xFF (ma.rxByte card)] ++
            ([BusEvent.xfer 0xFF ((ma.exchanged card).rxByte card)] ++
            ([BusEvent.xfer 0xFF (cardByte card (ma.pos + 2))] ++ (td ++ []))))) := by
      rw [if_pos htoken, SD.bind_of_eq (SPI_TxBuffer_apply _ ma hda),
        SD.bind_of_eq (SPI_RxByte_apply card ma hda),
        SD.bind_of_eq (SPI_RxByte_apply card (ma.exchanged card) rfl), SD.bind_of_eq hr,
        SD.bind_of_eq hdrain]
      rfl
    rw [SD.bind_of_eq hinner, if_pos hresp]
    simp
  · rw [hpos]
    show ma.pos + 1 + 1 + 1 + k + 1 = _
    omega
  · intro e he
    rcases List.mem_append.mp he with he | he
    · simp only [List.mem_cons, List.mem_singleton, List.not_mem_nil, or_false] at he
      rcases he with rfl | rfl | rfl <;> rfl
    · exact hl e he

/-- C12: single-block write.  In an initialised, non-protected context with no
transfer pending, let the card be ready and answer WRITE_BLOCK with R1 = 0
(`hcmd`), be ready again (`hready`, ending in `ma`), and after the two bytes read
in place of the checksum drive a data response with low five bits `00101`, then
`k` busy bytes `00`, then a non-zero byte.  With a loop budget above `k`,
`SD_disk_write` with `count = 1` returns `RES_OK`; after the trace of the command
its trace is that of the ready-wait, the token `0xFE`, the 512 buffer bytes in
order, and then exchanges in which nothing is transmitted. -/
theorem single_block_write (card : Card) (fuel k : Nat) (buff : Nat → Nat) (sector : Nat)
    (m m1 ma : Machine) (t1 ta : List BusEvent) (hd : m.ctx.dma_complete = 1)
    (hinit : m.ctx.status &&& STA_NOINIT = 0) (hprot : m.ctx.status &&& STA_PROTECT = 0)
    (hcmd : SD_SendCmd card fuel CMD24 (sectorArg m.ctx sector) m = some (0, m1, t1))
    (hready : SD_ReadyWait card fuel m1 = some (0xFF, ma, ta))
    (hresp : cardByte card (ma.pos + 2) &&& 0x1F = 0x05)
    (hbusy : ∀ i, i < k → cardByte card (ma.pos + 3 + i) = 0)
    (hend : cardByte card (ma.pos + 3 + k) ≠ 0) (hfuel : k < fuel) :
    ∃ mb tb, SD_disk_write card fuel buff sector 1 m
        = some (RES_OK, mb, BusEvent.csLow :: (t1 ++ (ta ++ ([BusEvent.tx [0xFE],
            BusEvent.tx ((List.range 512).map (fun i => buff i % 256))] ++ tb)))) ∧
      txBytes ta = [] ∧ txBytes tb = [] ∧
      txBytes (ta ++ ([BusEvent.tx [0xFE],
          BusEvent.tx ((List.range 512).map (fun i => buff i % 256))] ++ tb))
        = 0xFE :: (List.range 512).map (fun i => buff i % 256) := by
  obtain ⟨hf1, -⟩ := SD_SendCmd_inner card fuel CMD24 _ m 0 m1 t1 hcmd
  obtain ⟨hfa, hla⟩ := SD_ReadyWait_inner card (P := BusEvent.isListen) (fun _ => rfl) fuel
    m1 0xFF ma ta hready
  have hda : ma.ctx.dma_complete = 1 := hfa.1 (hf1.1 hd)
  obtain ⟨mb, tb, hblock, -, hdb, hlb, -⟩ :=
    SD_TxDataBlock_accepted buff hda hready (by decide : (0xFE : Nat) ≠ 0xFD)
      hresp hbusy hend hfuel
  have htransfer : SD_disk_write_transfer card fuel buff (sectorArg m.ctx sector) 1 m
      = some (0, mb, t1 ++ (ta ++ ([BusEvent.tx [0xFE],
          BusEvent.tx ((List.range 512).map (fun i => buff i % 256))] ++ tb) ++ [])) := by
    unfold SD_disk_write_transfer
    rw [if_pos rfl, SD.bind_of_eq hcmd, if_pos rfl, SD.bind_of_eq hblock]
    rfl
  have hta := txBytes_listen ta hla
  have htb : txBytes (tb ++ [BusEvent.csHigh, BusEvent.xfer 0xFF (mb.rxByte card)]) = [] := by
    rw [txBytes_append, txBytes_listen tb hlb]
    rfl
  refine ⟨mb.exchanged card, tb ++ [BusEvent.csHigh, BusEvent.xfer 0xFF (mb.rxByte card)],
    ?_, hta, htb, ?_⟩
  · unfold SD_disk_write
    rw [if_neg (by decide), SD.bind_of_eq (SD.getCtx_apply m),
      if_neg (by rw [hinit]; decide), if_neg (by rw [hprot]; decide),
      SD.bind_of_eq (SELECT_apply m)]
    have htransfer' : SD_disk_write_transfer card fuel buff
        (if m.ctx.card_type &&& CT_SD2 = 0 then (sector * 512) % 2 ^ 32 else sector) 1 m
        = some (0, mb, t1 ++ (ta ++ ([BusEvent.tx [0xFE],
          BusEvent.tx ((List.range 512).map (fun i => buff i % 256))] ++ tb) ++ [])) :=
      htransfer
    rw [SD.bind_of_eq htransfer', SD.bind_of_eq (DESELECT_apply mb),
      SD.bind_of_eq (SPI_RxByte_apply card mb hdb)]
    simp
  · rw [txBytes_append, txBytes_append, hta, htb]
    simp only [txBytes, List.nil_append, List.append_nil, List.singleton_append]

/-- C12, witness: data response `05`, three busy bytes `00`, then `FF`; sector 5
on a block-addressed card. -/
theorem single_block_write_witness :
    ∃ mb tb, SD_disk_write (cardOfBytes writeBusy) 4 (fun i => i) 5 1 ⟨readyCtx 0x0C, 0⟩
        = some (RES_OK, mb, BusEvent.csLow :: ((BusEvent.xfer 0xFF 0xFF ::
            frameEvents CMD24 0 0 0 5 1 ++ [BusEvent.xfer 0xFF 0x00]) ++
            ([BusEvent.xfer 0xFF 0xFF] ++ ([BusEvent.tx [0xFE],
              BusEvent.tx ((List.range 512).map (fun i => i % 256))] ++ tb)))) ∧
      txBytes tb = [] := by
  obtain ⟨mb, tb, h, -, htb, -⟩ :=
    single_block_write (cardOfBytes writeBusy) 4 3 (fun i => i) 5 ⟨readyCtx 0x0C, 0⟩
      ⟨{ readyCtx 0x0C with timer2 := 500 }, 2⟩ ⟨{ readyCtx 0x0C with timer2 := 500 }, 3⟩
      (BusEvent.xfer 0xFF 0xFF :: frameEvents CMD24 0 0 0 5 1 ++ [BusEvent.xfer 0xFF 0x00])
      [BusEvent.xfer 0xFF 0xFF] rfl (by decide) (by decide) (by decide!) (by decide!)
      (by decide) (by decide) (by decide) (by decide)
  exact ⟨mb, tb, h, htb⟩

/-! ## A rejected block in a multi-block write -/

theorem controlEvents_append (a b : List BusEvent) :
    controlEvents (a ++ b) = controlEvents a ++ controlEvents b := by
  unfold controlEvents
  exact List.filter_append a b

theorem controlEvents_listen (t : List BusEvent) (h : ∀ e ∈ t, BusEvent.isListen e = true) :
    controlEvents t = [] := by
  unfold controlEvents
  rw [List.filter_eq_nil_iff]
  intro e he
  have hl := h e he
  cases e with
  | csLow => cases hl
  | csHigh => cases hl
  | tx l => cases hl
  | xfer x y => simp

theorem controlEvents_payload (l : List Nat) (h : l.length = 512) :
    controlEvents [BusEvent.tx l] = [] := by
  match l, h with
  | a :: b :: l, _ => rfl

theorem payload_length (buff : Nat → Nat) :
    ((List.range 512).map (fun i => buff i % 256)).length = 512 := by
  rw [List.length_map, List.length_range]

/-- The single-byte transmissions of a data block: the token. -/
theorem controlEvents_block (token : Nat) (l : List Nat) (hl : l.length = 512)
    (ta tb : List BusEvent) (hla : ∀ e ∈ ta, BusEvent.isListen e = true)
    (hlb : ∀ e ∈ tb, BusEvent.isListen e = true) :
    controlEvents (ta ++ ([BusEvent.tx [token], BusEvent.tx l] ++ tb))
      = [BusEvent.tx [token]] := by
  rw [controlEvents_append, controlEvents_listen ta hla,
    show [BusEvent.tx [token], BusEvent.tx l] ++ tb
      = [BusEvent.tx [token]] ++ ([BusEvent.tx l] ++ tb) from rfl,
    controlEvents_append, controlEvents_append, controlEvents_payload l hl,
    controlEvents_listen tb hlb]
  rfl

/-- A run of `SD_TxDataBlock` with a data token: after an unsuccessful ready-wait
nothing is transmitted; otherwise the token and the 512 bytes are, and nothing
else. -/
theorem SD_TxDataBlock_trace {card : Card} {fuel token : Nat} {buff : Nat → Nat}
    {m m1 : Machine} {ok : Bool} {t : List BusEvent} (hd : m.ctx.dma_complete = 1)
    (htoken : token ≠ 0xFD)
    (h : SD_TxDataBlock card fuel buff token m = some (ok, m1, t)) :
    ∃ r ma ta, SD_ReadyWait card fuel m = some (r, ma, ta) ∧
      (∀ e ∈ ta, BusEvent.isListen e = true) ∧
      ((r ≠ 0xFF ∧ ok = false ∧ t = ta) ∨
        (r = 0xFF ∧ ∃ tb, t = ta ++ ([BusEvent.tx [token % 256],
            BusEvent.tx ((List.range 512).map (fun i => buff i % 256))] ++ tb) ∧
          ∀ e ∈ tb, BusEvent.isListen e = true)) := by
  have hrx : ∀ b, BusEvent.isListen (BusEvent.xfer 0xFF b) = true := fun _ => rfl
  unfold SD_TxDataBlock at h
  obtain ⟨r, ma, ta, tb, hready, h2, ht⟩ := SD.bind_eq_some h
  clear h
  subst ht
  obtain ⟨hfa, hla⟩ := SD_ReadyWait_inner card hrx fuel m r ma ta hready
  have hda := hfa.1 hd
  refine ⟨r, ma, ta, hready, hla, ?_⟩
  by_cases hr : r ≠ 0xFF
  · rw [if_pos hr] at h2
    simp only [SD.pure_apply, Option.some.injEq, Prod.mk.injEq] at h2
    obtain ⟨rfl, -, rfl⟩ := h2
    exact Or.inl ⟨hr, rfl, by simp⟩
  · right
    refine ⟨not_not.mp hr, ?_⟩
    rw [if_neg hr, SD.bind_of_eq (SPI_TxByte_apply _ ma hda), if_pos htoken] at h2
    cases hrest : (do
        SPI_TxBuffer ((List.range 512).map (fun i => buff i % 256))
        let _ ← SPI_RxByte card
        let _ ← SPI_RxByte card
        let resp ← SD_TxDataBlock_resp card 65 0
        SD_TxDataBlock_drain card fuel
        pure resp) ma with
    | none => rw [SD.bind_of_stuck hrest] at h2; cases h2
    | some r2 =>
      obtain ⟨resp, mb, tc⟩ := r2
      rw [SD.bind_of_eq hrest] at h2
      rw [SD.bind_of_eq (SPI_TxBuffer_apply _ ma hda)] at hrest
      cases hl : (do
          let _ ← SPI_RxByte card
          let _ ← SPI_RxByte card
          let resp ← SD_TxDataBlock_resp card 65 0
          SD_TxDataBlock_drain card fuel
          pure resp) ma with
      | none => rw [hl] at hrest; cases hrest
      | some r3 =>
        obtain ⟨resp3, mc, td⟩ := r3
        rw [hl] at hrest
        have hin : Inner BusEvent.isListen (do
            let _ ← SPI_RxByte card
            let _ ← SPI_RxByte card
            let resp ← SD_TxDataBlock_resp card 65 0
            SD_TxDataBlock_drain card fuel
            pure resp) :=
          Inner.bind_inner (SPI_RxByte_inner card hrx) fun _ =>
            Inner.bind_inner (SPI_RxByte_inner card hrx) fun _ =>
            Inner.bind_inner (SD_TxDataBlock_resp_inner card hrx 65 0) fun _ =>
            Inner.bind_inner (SD_TxDataBlock_drain_inner card hrx fuel) fun _ =>
            Inner.pure_inner _ _
        obtain ⟨-, hld⟩ := hin ma resp3 mc td hl
        simp only [Option.map_some', Option.some.injEq, Prod.mk.injEq] at hrest
        obtain ⟨-, -, rfl⟩ := hrest
        refine ⟨td, ?_, hld⟩
        split at h2
        · simp only [SD.pure_apply, Option.map_some', Option.some.injEq, Prod.mk.injEq] at h2
          rw [← h2.2.2]
          simp
        · simp only [SD.pure_apply, Option.map_some', Option.some.injEq, Prod.mk.injEq] at h2
          rw [← h2.2.2]
          simp

/-- The stop token after a successful ready-wait: `0xFD` is transmitted and the
result is `FALSE`. -/
theorem SD_TxDataBlock_stop_ready {card : Card} {fuel : Nat} (buff : Nat → Nat)
    {m ma : Machine} {ta : List BusEvent} (hda : ma.ctx.dma_complete = 1)
    (hready : SD_ReadyWait card fuel m = some (0xFF, ma, ta)) :
    SD_TxDataBlock card fuel buff 0xFD m = some (false, ma, ta ++ [BusEvent.tx [0xFD]]) := by
  unfold SD_TxDataBlock
  rw [SD.bind_of_eq hready]
  simp only [ne_eq, not_true_eq_false, if_false]
  rw [SD.bind_of_eq (SPI_TxByte_apply _ ma hda), SD.bind_of_eq (SD.pure_apply 0 ma)]
  simp

/-- The response loop of `SD_TxDataBlock` when none of the next `n` bytes has low
five bits `00101`: all `n` are read, and the value left in `resp` is not an
acceptance. -/
theorem SD_TxDataBlock_resp_reject (card : Card) (n : Nat) :
    ∀ (resp : Nat) (m : Machine), m.ctx.dma_complete = 1 → resp &&& 0x1F ≠ 0x05 →
      (∀ i, i < n → cardByte card (m.pos + i) &&& 0x1F ≠ 0x05) →
      ∃ r t, SD_TxDataBlock_resp card n resp m
          = some (r, (Machine.exchanged card)^[n] m, t) ∧
        r &&& 0x1F ≠ 0x05 ∧ ∀ e ∈ t, BusEvent.isListen e = true := by
  induction n with
  | zero =>
    intro resp m _ hresp _
    exact ⟨resp, [], rfl, hresp, by simp⟩
  | succ n ih =>
    intro resp m hd _ hno
    have hb : ¬ m.rxByte card &&& 0x1F = 0x05 := hno 0 (by omega)
    obtain ⟨r, t, hrun, hr, hl⟩ := ih (m.rxByte card) (m.exchanged card) rfl hb
      (fun i hi => by
        have := hno (i + 1) (by omega)
        rwa [show m.pos + (i + 1) = m.pos + 1 + i by omega] at this)
    refine ⟨r, [BusEvent.xfer 0xFF (m.rxByte card)] ++ t, ?_, hr, ?_⟩
    · rw [SD_TxDataBlock_resp, SD.bind_of_eq (SPI_RxByte_apply card m hd), if_neg hb, hrun]
      rfl
    · intro e he
      rcases List.mem_append.mp he with he | he
      · rw [List.mem_singleton] at he
        subst he
        rfl
      · exact hl e he

/-- A data block that the card rejects: after a successful ready-wait ending in
`ma`, the token and the 512 bytes are transmitted, two bytes are read in place of
the checksum, 65 bytes are polled of which none has low five bits `00101`, and
the line is drained through `j` busy bytes `00` up to the first non-zero byte.
The result is `FALSE`. -/
theorem SD_TxDataBlock_rejected {card : Card} {fuel token j : Nat} (buff : Nat → Nat)
    {m ma : Machine} {ta : List BusEvent} (hda : ma.ctx.dma_complete = 1)
    (hready : SD_ReadyWait card fuel m = some (0xFF, ma, ta)) (htoken : token ≠ 0xFD)
    (hresp : ∀ i, i < 65 → cardByte card (ma.pos + 2 + i) &&& 0x1F ≠ 0x05)
    (hbusy : ∀ i, i < j → cardByte card (ma.pos + 67 + i) = 0)
    (hend : cardByte card (ma.pos + 67 + j) ≠ 0) (hfuel : j < fuel) :
    ∃ tb, SD_TxDataBlock card fuel buff token m
        = some (false, (Machine.exchanged card)^[j + 68] ma, ta ++ ([BusEvent.tx [token % 256],
            BusEvent.tx ((List.range 512).map (fun i => buff i % 256))] ++ tb)) ∧
      ∀ e ∈ tb, BusEvent.isListen e = true := by
  obtain ⟨r, tr, hr, hrno, hlr⟩ := SD_TxDataBlock_resp_reject card 65 0
    ((ma.exchanged card).exchanged card) rfl (by decide) hresp
  have hpos : ((Machine.exchanged card)^[65] ((ma.exchanged card).exchanged card)).pos
      = ma.pos + 67 := by
    rw [exchanged_iterate_pos]
    show ma.pos + 1 + 1 + 65 = _
    omega
  obtain ⟨mb, td, hmb, -, -, hl, hdrain⟩ := SD_TxDataBlock_drain_busy card j
    ((Machine.exchanged card)^[65] ((ma.exchanged card).exchanged card))
    (exchanged_iterate_dma card 65 _ rfl)
    (fun i hi => by rw [hpos]; exact hbusy i hi) (by rw [hpos]; exact hend)
  have hdrain := hdrain fuel hfuel
  have hmb2 : mb = (Machine.exchanged card)^[j + 68] ma := by
    rw [hmb, ← Function.iterate_add_apply]
    rfl
  subst hmb2
  refine ⟨[BusEvent.xfer 0xFF (ma.rxByte card),
    BusEvent.xfer 0xFF ((ma.exchanged card).rxByte card)] ++ (tr ++ td), ?_, ?_⟩
  · unfold SD_TxDataBlock
    rw [SD.bind_of_eq hready]
    simp only [ne_eq, not_true_eq_false, if_false]
    rw [SD.bind_of_eq (SPI_TxByte_apply _ ma hda)]
    have hinner : (if token ≠ 0xFD then do
          SPI_TxBuffer ((List.range 512).map (fun i => buff i % 256))
          let _ ← SPI_RxByte card
          let _ ← SPI_RxByte card
          let resp ← SD_TxDataBlock_resp card 65 0
          SD_TxDataBlock_drain card fuel
          pure resp
        else pure 0) ma
        = some (r, (Machine.exchanged card)^[j + 68] ma,
            [BusEvent.tx ((List.range 512).map (fun i => buff i % 256))] ++
            ([BusEvent.xfer 0xFF (ma.rxByte card)] ++
            ([BusEvent.xfer 0xFF ((ma.exchanged card).rxByte card)] ++
            (tr ++ (td ++ []))))) := by
      rw [if_pos htoken, SD.bind_of_eq (SPI_TxBuffer_apply _ ma hda),
        SD.bind_of_eq (SPI_RxByte_apply card ma hda),
        SD.bind_of_eq (SPI_RxByte_apply card (ma.exchanged card) rfl), SD.bind_of_eq hr,
        SD.bind_of_eq hdrain]
      rfl
    rw [SD.bind_of_eq hinner, if_neg hrno]
    simp
  · intro e he
    rcases List.mem_append.mp he with he | he
    · simp only [List.mem_cons, List.mem_singleton, List.not_mem_nil, or_false] at he
      rcases he with rfl | rfl <;> rfl
    · rcases List.mem_append.mp he with he | he
      · exact hlr e he
      · exact hl e he

/-- The multi-block loop of `SD_disk_write` along a run of data blocks of which
the `k`-th is rejected: the loop breaks there, with `count` not 0, and the
single-byte transmissions are `k` tokens `0xFC`. -/
theorem SD_disk_write_loop_rejected {card : Card} {fuel : Nat} {n k : Nat} {m m2 : Machine}
    (h : RejectedAt card fuel n m k m2) :
    m.ctx.dma_complete = 1 →
    1 ≤ k ∧ k ≤ n ∧ m2.ctx.dma_complete = 1 ∧
      ∀ (buff : Nat → Nat) (off : Nat), ∃ t,
        SD_disk_write_loop card fuel buff n off m = some (n - k + 1, m2, t) ∧
        controlEvents t = List.replicate k (BusEvent.tx [0xFC]) := by
  induction h with
  | @rejected n j m ma ta hready hresp hbusy hend hfuel =>
    intro hd
    obtain ⟨hfa, hla⟩ := SD_ReadyWait_inner card (P := BusEvent.isListen) (fun _ => rfl) fuel
      m 0xFF ma ta hready
    have hda := hfa.1 hd
    refine ⟨le_refl 1, by omega, exchanged_iterate_dma card _ ma hda, fun buff off => ?_⟩
    obtain ⟨tb, hblock, hlb⟩ := SD_TxDataBlock_rejected (fun i => buff (off + i)) hda hready
      (by decide : (0xFC : Nat) ≠ 0xFD) hresp hbusy hend hfuel
    refine ⟨ta ++ ([BusEvent.tx [0xFC % 256],
      BusEvent.tx ((List.range 512).map (fun i => buff (off + i) % 256))] ++ tb), ?_,
      controlEvents_block _ _ (payload_length _) ta tb hla hlb⟩
    unfold SD_disk_write_loop
    rw [SD.bind_of_eq hblock, if_pos rfl]
    simp
  | @accepted n k j m ma m2 ta hready hresp hbusy hend hfuel _ ih =>
    intro hd
    obtain ⟨hfa, hla⟩ := SD_ReadyWait_inner card (P := BusEvent.isListen) (fun _ => rfl) fuel
      m 0xFF ma ta hready
    have hda := hfa.1 hd
    obtain ⟨hk1, hkn, hd2, hloop⟩ := ih (exchanged_iterate_dma card _ ma hda)
    refine ⟨by omega, by omega, hd2, fun buff off => ?_⟩
    obtain ⟨mb, tb, hblock, -, -, hlb, hmb⟩ := SD_TxDataBlock_accepted
      (fun i => buff (off + i)) hda hready (by decide : (0xFC : Nat) ≠ 0xFD) hresp hbusy hend
      hfuel
    subst hmb
    obtain ⟨t2, hrest, hctl⟩ := hloop buff (off + 512)
    refine ⟨(ta ++ ([BusEvent.tx [0xFC % 256],
      BusEvent.tx ((List.range 512).map (fun i => buff (off + i) % 256))] ++ tb)) ++ t2, ?_, ?_⟩
    · rw [SD_disk_write_loop, SD.bind_of_eq hblock, if_neg (by decide),
        if_pos (by omega : n ≠ 0), hrest]
      simp only [Option.map_some', Option.some.injEq, Prod.mk.injEq, and_true, true_and]
      omega
    · rw [controlEvents_append, hctl,
        controlEvents_block _ _ (payload_length _) ta tb hla hlb]
      rfl

/-- C13, counterexample: a two-block write to a card that is ready at every
ready-wait and answers the first data block with the data response `0B` (low
five bits `01011`), followed by `05`.  The driver polls on after `0B`, takes the
`05` for an acceptance and transmits a second data token `0xFC` after the block
whose data response was not `00101`. -/
theorem late_accept_counterexample :
    cardByte (cardOfBytes lateAccept) 5 = 0x0B ∧ (0x0B : Nat) &&& 0x1F ≠ 0x05 ∧
    (SD_disk_write (cardOfBytes lateAccept) 1 (fun _ => 0) 0 2 ⟨readyCtx 0x0C, 0⟩).map
        (fun r => (r.1, r.2.1.pos, controlEvents r.2.2))
      = some (RES_ERROR, 79, [BusEvent.csLow, BusEvent.tx [CMD25], BusEvent.tx [0],
          BusEvent.tx [0], BusEvent.tx [0], BusEvent.tx [0], BusEvent.tx [1],
          BusEvent.tx [0xFC], BusEvent.tx [0xFC], BusEvent.tx [0xFD], BusEvent.csHigh]) := by
  decide!

/-- C13 (amended): a rejected block in a multi-block write.  In an initialised,
non-protected context with no transfer pending and `count > 1`, let the block
count be pre-declared for an SDv1 card (`hpre`), WRITE_MULTIPLE_BLOCK be answered
with R1 = 0 (`hcmd`), and the card answer the data blocks as `hblocks` says: it
is ready for each, the data response of each of the first `k - 1` blocks has low
five bits `00101`, and none of the 65 bytes the driver polls after the checksum
of block `k` has low five bits `00101`; let the card be ready afterwards
(`hstop`).  Then `1 ≤ k ≤ count` and `SD_disk_write` returns `RES_ERROR`; after
the traces of the commands, the single-byte transmissions and chip-select
changes of its trace are `k` data tokens `0xFC`, one stop token `0xFD` and the
deassertion: no data block follows block `k`, and the stop token is sent
once. -/
theorem rejected_block_stops_write (card : Card) (fuel : Nat) (buff : Nat → Nat)
    (sector count k : Nat) (m m0 m1 m2 m3 : Machine) (t0 t1 t3 : List BusEvent)
    (hd : m.ctx.dma_complete = 1) (hcount : 1 < count)
    (hinit : m.ctx.status &&& STA_NOINIT = 0) (hprot : m.ctx.status &&& STA_PROTECT = 0)
    (hpre : if m.ctx.card_type &&& CT_SD1 ≠ 0 then
        ∃ r55 ma ta r23 tb, SD_SendCmd card fuel CMD55 0 m = some (r55, ma, ta) ∧
          SD_SendCmd card fuel CMD23 count ma = some (r23, m0, tb) ∧ t0 = ta ++ tb
      else m0 = m ∧ t0 = [])
    (hcmd : SD_SendCmd card fuel CMD25 (sectorArg m.ctx sector) m0 = some (0, m1, t1))
    (hblocks : RejectedAt card fuel count m1 k m2)
    (hstop : SD_ReadyWait card fuel m2 = some (0xFF, m3, t3)) :
    1 ≤ k ∧ k ≤ count ∧ ∃ t2,
      SD_disk_write card fuel buff sector count m
        = some (RES_ERROR, m3.exchanged card, BusEvent.csLow :: (t0 ++ (t1 ++ (t2 ++ (t3 ++
            [BusEvent.tx [0xFD], BusEvent.csHigh, BusEvent.xfer 0xFF (m3.rxByte card)]))))) ∧
      controlEvents (t2 ++ (t3 ++
          [BusEvent.tx [0xFD], BusEvent.csHigh, BusEvent.xfer 0xFF (m3.rxByte card)]))
        = List.replicate k (BusEvent.tx [0xFC]) ++ [BusEvent.tx [0xFD], BusEvent.csHigh] := by
  have hprerun : (if m.ctx.card_type &&& CT_SD1 ≠ 0 then do
        let _ ← SD_SendCmd card fuel CMD55 0
        let _ ← SD_SendCmd card fuel CMD23 count
        pure ()
      else pure ()) m = some ((), m0, t0) ∧ m0.ctx.dma_complete = 1 := by
    split at hpre
    · rename_i hsd1
      obtain ⟨r55, ma, ta, r23, tb, h55, h23, rfl⟩ := hpre
      obtain ⟨hfa, -⟩ := SD_SendCmd_inner card fuel _ _ m r55 ma ta h55
      obtain ⟨hfb, -⟩ := SD_SendCmd_inner card fuel _ _ ma r23 m0 tb h23
      refine ⟨?_, hfb.1 (hfa.1 hd)⟩
      rw [if_pos hsd1, SD.bind_of_eq h55, SD.bind_of_eq h23]
      simp
    · rename_i hsd1
      obtain ⟨rfl, rfl⟩ := hpre
      refine ⟨?_, hd⟩
      rw [if_neg hsd1]
      rfl
  obtain ⟨hprerun, hd0⟩ := hprerun
  obtain ⟨hf1, -⟩ := SD_SendCmd_inner card fuel _ _ m0 0 m1 t1 hcmd
  obtain ⟨hk1, hkn, hd2, hloop⟩ := SD_disk_write_loop_rejected hblocks (hf1.1 hd0)
  obtain ⟨t2, hloop, hctl⟩ := hloop buff 0
  obtain ⟨hf3, hl3⟩ := SD_ReadyWait_inner card (P := BusEvent.isListen) (fun _ => rfl) fuel
    m2 0xFF m3 t3 hstop
  have hd3 : m3.ctx.dma_complete = 1 := hf3.1 hd2
  have hstoprun := SD_TxDataBlock_stop_ready (fun _ => 0) hd3 hstop
  have htransfer : SD_disk_write_transfer card fuel buff
      (if m.ctx.card_type &&& CT_SD2 = 0 then (sector * 512) % 2 ^ 32 else sector) count m
      = some (1, m3, t0 ++ (t1 ++ (t2 ++ (t3 ++ [BusEvent.tx [0xFD]])))) := by
    unfold SD_disk_write_transfer
    rw [if_neg (by omega), SD.bind_of_eq (SD.getCtx_apply m), SD.bind_of_eq hprerun,
      SD.bind_of_eq (show SD_SendCmd card fuel CMD25
        (if m.ctx.card_type &&& CT_SD2 = 0 then (sector * 512) % 2 ^ 32 else sector) m0
        = some (0, m1, t1) from hcmd), if_pos rfl, SD.bind_of_eq hloop,
      SD.bind_of_eq hstoprun, if_pos rfl]
    simp
  refine ⟨hk1, hkn, t2, ?_, ?_⟩
  · unfold SD_disk_write
    rw [if_neg (by omega), SD.bind_of_eq (SD.getCtx_apply m),
      if_neg (by rw [hinit]; decide), if_neg (by rw [hprot]; decide),
      SD.bind_of_eq (SELECT_apply m), SD.bind_of_eq htransfer,
      SD.bind_of_eq (DESELECT_apply m3), SD.bind_of_eq (SPI_RxByte_apply card m3 hd3)]
    simp
  · rw [controlEvents_append, hctl, controlEvents_append, controlEvents_listen t3 hl3]
    rfl

/-- C13, witness: two blocks, the second answered with `0B` (checksum error) and
the line idle at `FF` afterwards; sector 5 on a block-addressed card. -/
theorem rejected_block_stops_write_witness :
    ∃ mb t1 rest, SD_disk_write (cardOfBytes writeSecondRejected) 1 (fun i => i) 5 2
        ⟨readyCtx 0x0C, 0⟩ = some (RES_ERROR, mb, BusEvent.csLow :: ([] ++ (t1 ++ rest))) ∧
      controlEvents rest
        = [BusEvent.tx [0xFC], BusEvent.tx [0xFC], BusEvent.tx [0xFD], BusEvent.csHigh] := by
  have hblocks : RejectedAt (cardOfBytes writeSecondRejected) 1 2
      ⟨{ readyCtx 0x0C with timer2 := 500 }, 2⟩ 2
      ((Machine.exchanged (cardOfBytes writeSecondRejected))^[0 + 68]
        ⟨{ readyCtx 0x0C with timer2 := 500 }, 8⟩) :=
    @RejectedAt.accepted _ _ 1 1 0 _ ⟨{ readyCtx 0x0C with timer2 := 500 }, 3⟩ _
      [BusEvent.xfer 0xFF 0xFF] (by decide!) (by decide) (by decide) (by decide) (by decide)
      (@RejectedAt.rejected _ _ 0 0 _ ⟨{ readyCtx 0x0C with timer2 := 500 }, 8⟩
        [BusEvent.xfer 0xFF 0xFF] (by decide!) (by decide!) (by decide) (by decide)
        (by decide))
  obtain ⟨-, -, t2, hrun, hctl⟩ :=
    rejected_block_stops_write (cardOfBytes writeSecondRejected) 1 (fun i => i) 5 2 2
      ⟨readyCtx 0x0C, 0⟩ ⟨readyCtx 0x0C, 0⟩ ⟨{ readyCtx 0x0C with timer2 := 500 }, 2⟩ _
      ⟨{ readyCtx 0x0C with timer2 := 500 }, 77⟩ []
      (BusEvent.xfer 0xFF 0xFF :: frameEvents CMD25 0 0 0 5 1 ++ [BusEvent.xfer 0xFF 0x00])
      [BusEvent.xfer 0xFF 0xFF] rfl (by decide) (by decide) (by decide)
      (by rw [if_neg (by decide)]; exact ⟨rfl, rfl⟩) (by decide!) hblocks (by decide!)
  exact ⟨_, _, _, hrun, hctl⟩

/-! ## A card that stays busy after a data block -/

/-- The ready-wait when the card drives `FF` at once. -/
theorem SD_ReadyWait_first (card : Card) (fuel : Nat) (m : Machine)
    (hd : m.ctx.dma_complete = 1) (hready : cardByte card m.pos = 0xFF) :
    SD_ReadyWait card (fuel + 1) m
      = some (0xFF, Machine.exchanged card { m with ctx := { m.ctx with timer2 := 500 } },
          [BusEvent.xfer 0xFF 0xFF]) := by
  have hb : Machine.rxByte card { m with ctx := { m.ctx with timer2 := 500 } } = 0xFF := hready
  have hrx := SPI_RxByte_apply card { m with ctx := { m.ctx with timer2 := 500 } } hd
  unfold SD_ReadyWait
  rw [SD.bind_of_eq (SD.modifyCtx_apply _ m)]
  unfold SD_ReadyWait_loop
  rw [SD.bind_of_eq hrx, SD.bind_of_eq (SD.getCtx_apply _), hb, if_neg (fun h => h.1 rfl)]
  rfl

/-- The drain loop of `SD_TxDataBlock` never returns when the card holds the
line at `00` from the current exchange on. -/
theorem SD_TxDataBlock_drain_stuck (card : Card) (fuel : Nat) :
    ∀ m : Machine, m.ctx.dma_complete = 1 → (∀ k, m.pos ≤ k → cardByte card k = 0) →
      SD_TxDataBlock_drain card fuel m = none := by
  induction fuel with
  | zero => intro m _ _; rfl
  | succ n ih =>
    intro m hd hzero
    have hb : m.rxByte card = 0 := hzero m.pos (le_refl _)
    rw [SD_TxDataBlock_drain, SD.bind_of_eq (SPI_RxByte_apply card m hd), if_pos hb,
      ih (m.exchanged card) rfl (fun k hk => hzero k (Nat.le_of_succ_le hk))]
    rfl

/-- A data block sent to a card that accepts it and then holds the line at `00`:
`SD_TxDataBlock` does not return, whatever the loop budget. -/
theorem SD_TxDataBlock_held_busy {card : Card} {fuel token : Nat} (buff : Nat → Nat)
    {m ma : Machine} {ta : List BusEvent} (hda : ma.ctx.dma_complete = 1)
    (hready : SD_ReadyWait card fuel m = some (0xFF, ma, ta)) (htoken : token ≠ 0xFD)
    (hresp : cardByte card (ma.pos + 2) &&& 0x1F = 0x05)
    (hbusy : ∀ k, ma.pos + 3 ≤ k → cardByte card k = 0) :
    SD_TxDataBlock card fuel buff token m = none := by
  have hr := SD_TxDataBlock_resp_accept card 64 0 ((ma.exchanged card).exchanged card) rfl hresp
  have hdrain := SD_TxDataBlock_drain_stuck card fuel
    (((ma.exchanged card).exchanged card).exchanged card) rfl
    (fun k hk => hbusy k (by
      have : (((ma.exchanged card).exchanged card).exchanged card).pos = ma.pos + 1 + 1 + 1 := rfl
      omega))
  unfold SD_TxDataBlock
  rw [SD.bind_of_eq hready]
  simp only [ne_eq, not_true_eq_false, if_false]
  rw [SD.bind_of_eq (SPI_TxByte_apply _ ma hda)]
  have hinner : (if token ≠ 0xFD then do
        SPI_TxBuffer ((List.range 512).map (fun i => buff i % 256))
        let _ ← SPI_RxByte card
        let _ ← SPI_RxByte card
        let resp ← SD_TxDataBlock_resp card 65 0
        SD_TxDataBlock_drain card fuel
        pure resp
      else pure 0) ma = none := by
    rw [if_pos htoken, SD.bind_of_eq (SPI_TxBuffer_apply _ ma hda),
      SD.bind_of_eq (SPI_RxByte_apply card ma hda),
      SD.bind_of_eq (SPI_RxByte_apply card (ma.exchanged card) rfl), SD.bind_of_eq hr,
      SD.bind_of_stuck hdrain]
    rfl
  rw [SD.bind_of_stuck hinner]
  rfl

/-- A single-block write to a card that accepts the block and then holds the
line at `00`: `SD_disk_write` does not return, whatever the loop budget. -/
theorem SD_disk_write_held_busy {card : Card} {fuel : Nat} (buff : Nat → Nat) {sector : Nat}
    {m m1 ma : Machine} {t1 ta : List BusEvent} (hd : m.ctx.dma_complete = 1)
    (hinit : m.ctx.status &&& STA_NOINIT = 0) (hprot : m.ctx.status &&& STA_PROTECT = 0)
    (hcmd : SD_SendCmd card fuel CMD24 (sectorArg m.ctx sector) m = some (0, m1, t1))
    (hready : SD_ReadyWait card fuel m1 = some (0xFF, ma, ta))
    (hresp : cardByte card (ma.pos + 2) &&& 0x1F = 0x05)
    (hbusy : ∀ k, ma.pos + 3 ≤ k → cardByte card k = 0) :
    SD_disk_write card fuel buff sector 1 m = none := by
  obtain ⟨hf1, -⟩ := SD_SendCmd_inner card fuel CMD24 _ m 0 m1 t1 hcmd
  obtain ⟨hfa, -⟩ := SD_ReadyWait_inner card (P := BusEvent.isListen) (fun _ => rfl) fuel
    m1 0xFF ma ta hready
  have hblock := SD_TxDataBlock_held_busy buff (hfa.1 (hf1.1 hd)) hready
    (by decide : (0xFE : Nat) ≠ 0xFD) hresp hbusy
  have htransfer : SD_disk_write_transfer card fuel buff
      (if m.ctx.card_type &&& CT_SD2 = 0 then (sector * 512) % 2 ^ 32 else sector) 1 m
      = none := by
    unfold SD_disk_write_transfer
    rw [if_pos rfl, SD.bind_of_eq (show SD_SendCmd card fuel CMD24
        (if m.ctx.card_type &&& CT_SD2 = 0 then (sector * 512) % 2 ^ 32 else sector) m
        = some (0, m1, t1) from hcmd), if_pos rfl, SD.bind_of_stuck hblock]
    rfl
  unfold SD_disk_write
  rw [if_neg (by decide), SD.bind_of_eq (SD.getCtx_apply m),
    if_neg (by rw [hinit]; decide), if_neg (by rw [hprot]; decide),
    SD.bind_of_eq (SELECT_apply m), SD.bind_of_stuck htransfer]
  rfl

theorem heldBusy_fair : Fair heldBusy := fun n => ⟨n, le_refl n, Nat.one_pos⟩

theorem heldBusy_zero (k : Nat) (hk : 6 ≤ k) : cardByte heldBusy k = 0 := by
  unfold cardByte heldBusy
  show ([0xFF, 0x00, 0xFF, 0xAA, 0xBB, 0x05] : List Nat).getD k 0x00 % 256 = 0
  rw [List.getD_eq_default _ _ (by simpa using hk)]

/-- On `heldBusy`, a single-block write returns for no loop budget. -/
theorem heldBusy_write_none (fuel : Nat) :
    SD_disk_write heldBusy fuel (fun _ => 0) 0 1 ⟨readyCtx 0x0C, 0⟩ = none := by
  cases fuel with
  | zero => decide!
  | succ f =>
    have hr0 := SD_ReadyWait_first heldBusy f ⟨readyCtx 0x0C, 0⟩ rfl (by decide)
    have hcmd := @SD_SendCmd_eq_of_ready heldBusy (f + 1) CMD24 0 _ _ _ _ _ _ rfl hr0
      (show SD_SendCmd_poll heldBusy 10 _ = some (0,
        ⟨{ readyCtx 0x0C with timer2 := 498 }, 2⟩, [BusEvent.xfer 0xFF 0x00]) by decide!)
    have hr1 := SD_ReadyWait_first heldBusy f ⟨{ readyCtx 0x0C with timer2 := 498 }, 2⟩ rfl
      (by decide)
    exact @SD_disk_write_held_busy heldBusy (f + 1) (fun _ => 0) 0 _ _ _ _ _ rfl (by decide)
      (by decide) hcmd hr1 (by decide) (fun k hk => heldBusy_zero k hk)

/-- C18, the code at the failing input: a single-block write to a card that
accepts the command and the data block (data response `05`) and then holds the
line at `00`, while one tick fires during every exchange.  Whatever the loop
budget, `SD_disk_write` does not return: the drain loop of `SD_TxDataBlock` reads
`00` for ever, and no timer bounds it. -/
theorem write_hangs_when_card_holds_busy :
    Fair heldBusy ∧
      ∀ fuel, SD_disk_write heldBusy fuel (fun _ => 0) 0 1 ⟨readyCtx 0x0C, 0⟩ = none :=
  ⟨heldBusy_fair, heldBusy_write_none⟩

/-! ## Returning: the remaining operations -/

theorem SD_ReadyWait_total {card : Card} (hfair : Fair card) {m : Machine}
    (hd : m.ctx.dma_complete = 1) : Total (fun fuel => SD_ReadyWait card fuel) m := by
  obtain ⟨r, m1, t, hr, hk⟩ := SD_ReadyWait_returns hfair m hd
  exact ⟨r, m1, t, hr, hk⟩

theorem SD_RxDataBlock_total {card : Card} (hfair : Fair card) (len : Nat) {m : Machine}
    (hd : m.ctx.dma_complete = 1) : Total (fun fuel => SD_RxDataBlock card fuel len) m := by
  obtain ⟨r, m1, t, hr, hk⟩ := SD_RxDataBlock_returns hfair len m hd
  exact ⟨r, m1, t, hr, hk⟩

theorem SPI_TxByte_total2 (data : Nat) {m : Machine} (hd : m.ctx.dma_complete = 1) :
    Total (fun _ => SPI_TxByte data) m :=
  Total.of_run (SPI_TxByte_apply data m hd) (Machine.Kept.refl hd)

theorem SPI_TxBuffer_total2 (buffer : List Nat) {m : Machine} (hd : m.ctx.dma_complete = 1) :
    Total (fun _ => SPI_TxBuffer buffer) m :=
  Total.of_run (SPI_TxBuffer_apply buffer m hd) (Machine.Kept.refl hd)

theorem SD_TxDataBlock_resp_total (card : Card) (n : Nat) :
    ∀ (resp : Nat) {m : Machine}, m.ctx.dma_complete = 1 →
      Total (fun _ => SD_TxDataBlock_resp card n resp) m := by
  induction n with
  | zero =>
    intro resp m hd
    exact Total.pure_total _ hd
  | succ n ih =>
    intro resp m hd
    unfold SD_TxDataBlock_resp
    apply Total.seq_total (SPI_RxByte_kept card hd)
    intro r m1 hd1
    apply Total.cond_total
    · intro _; exact Total.pure_total _ hd1
    · intro _; exact ih r hd1

/-- The drain loop of `SD_TxDataBlock` returns when the card releases the line. -/
theorem SD_TxDataBlock_drain_total {card : Card} (hrel : Releases card) {m : Machine}
    (hd : m.ctx.dma_complete = 1) : Total (fun fuel => SD_TxDataBlock_drain card fuel) m := by
  have hex : ∃ k, cardByte card (m.pos + k) ≠ 0 := by
    obtain ⟨j, hj, hne⟩ := hrel m.pos
    exact ⟨j - m.pos, by rwa [Nat.add_sub_cancel' hj]⟩
  obtain ⟨m1, t, -, -, -, -, hrun⟩ := SD_TxDataBlock_drain_busy card (Nat.find hex) m hd
    (fun i hi => not_not.mp (Nat.find_min hex hi)) (Nat.find_spec hex)
  have hone := hrun (Nat.find hex + 1) (Nat.lt_succ_self _)
  exact ⟨(), m1, t, ⟨Nat.find hex + 1, fun fuel hfuel => hrun fuel hfuel⟩,
    ((SD_TxDataBlock_drain_inner card (P := BusEvent.isData) (fun _ => rfl) _ m () m1 t
      hone).1).to_kept hd⟩

/-- Under a fair tick and with a card that releases the line, `SD_TxDataBlock`
returns. -/
theorem SD_TxDataBlock_total {card : Card} (hfair : Fair card) (hrel : Releases card)
    (buff : Nat → Nat) (token : Nat) {m : Machine} (hd : m.ctx.dma_complete = 1) :
    Total (fun fuel => SD_TxDataBlock card fuel buff token) m := by
  unfold SD_TxDataBlock
  apply Total.seq_total (SD_ReadyWait_total hfair hd)
  intro r m1 hd1
  apply Total.cond_total
  · intro _; exact Total.pure_total _ hd1
  · intro _
    apply Total.seq_total (SPI_TxByte_total2 token hd1)
    intro _ m2 hd2
    apply Total.seq_total (x := fun fuel => if token ≠ 0xFD then (do
        SPI_TxBuffer ((List.range 512).map (fun i => buff i % 256))
        let _ ← SPI_RxByte card
        let _ ← SPI_RxByte card
        let resp ← SD_TxDataBlock_resp card 65 0
        SD_TxDataBlock_drain card fuel
        pure resp) else pure 0)
    · apply Total.cond_total
      · intro _
        apply Total.seq_total (SPI_TxBuffer_total2 _ hd2)
        intro _ m3 hd3
        apply Total.seq_total (SPI_RxByte_kept card hd3)
        intro _ m4 hd4
        apply Total.seq_total (SPI_RxByte_kept card hd4)
        intro _ m5 hd5
        apply Total.seq_total (SD_TxDataBlock_resp_total card 65 0 hd5)
        intro resp m6 hd6
        apply Total.seq_total (SD_TxDataBlock_drain_total hrel hd6)
        intro _ m7 hd7
        exact Total.pure_total _ hd7
      · intro _; exact Total.pure_total _ hd2
    · intro resp m3 hd3
      apply Total.cond_total
      · intro _; exact Total.pure_total _ hd3
      · intro _; exact Total.pure_total _ hd3

theorem SD_disk_write_loop_total {card : Card} (hfair : Fair card) (hrel : Releases card)
    (buff : Nat → Nat) (count : Nat) :
    ∀ (off : Nat) {m : Machine}, m.ctx.dma_complete = 1 →
      Total (fun fuel => SD_disk_write_loop card fuel buff count off) m := by
  induction count with
  | zero =>
    intro off m hd
    exact Total.pure_total _ hd
  | succ n ih =>
    intro off m hd
    unfold SD_disk_write_loop
    apply Total.seq_total (SD_TxDataBlock_total hfair hrel _ 0xFC hd)
    intro ok m1 hd1
    apply Total.cond_total
    · intro _; exact Total.pure_total _ hd1
    · intro _
      apply Total.cond_total
      · intro _; exact ih (off + 512) hd1
      · intro _; exact Total.pure_total _ hd1

theorem SD_disk_write_transfer_total {card : Card} (hfair : Fair card) (hrel : Releases card)
    (buff : Nat → Nat) (sector count : Nat) {m : Machine} (hd : m.ctx.dma_complete = 1) :
    Total (fun fuel => SD_disk_write_transfer card fuel buff sector count) m := by
  unfold SD_disk_write_transfer
  apply Total.cond_total
  · intro _
    apply Total.seq_total (SD_SendCmd_total hfair CMD24 sector hd)
    intro r m1 hd1
    apply Total.cond_total
    · intro _
      apply Total.seq_total (SD_TxDataBlock_total hfair hrel buff 0xFE hd1)
      intro ok m2 hd2
      apply Total.cond_total
      · intro _; exact Total.pure_total _ hd2
      · intro _; exact Total.pure_total _ hd2
    · intro _; exact Total.pure_total _ hd1
  · intro _
    apply Total.seq_total (SD_getCtx_total hd)
    intro ctx m1 hd1
    apply Total.seq_total (x := fun fuel => if ctx.card_type &&& CT_SD1 ≠ 0 then (do
        let _ ← SD_SendCmd card fuel CMD55 0
        let _ ← SD_SendCmd card fuel CMD23 count
        pure ()) else pure ())
    · apply Total.cond_total
      · intro _
        apply Total.seq_total (SD_SendCmd_total hfair CMD55 0 hd1)
        intro _ m2 hd2
        apply Total.seq_total (SD_SendCmd_total hfair CMD23 count hd2)
        intro _ m3 hd3
        exact Total.pure_total _ hd3
      · intro _; exact Total.pure_total _ hd1
    · intro _ m2 hd2
      apply Total.seq_total (SD_SendCmd_total hfair CMD25 sector hd2)
      intro r m3 hd3
      apply Total.cond_total
      · intro _
        apply Total.seq_total (SD_disk_write_loop_total hfair hrel buff count 0 hd3)
        intro n m4 hd4
        apply Total.seq_total (SD_TxDataBlock_total hfair hrel (fun _ => 0) 0xFD hd4)
        intro ok m5 hd5
        apply Total.cond_total
        · intro _; exact Total.pure_total _ hd5
        · intro _; exact Total.pure_total _ hd5
      · intro _; exact Total.pure_total _ hd3

/-- Under a fair tick and with a card that releases the line, `SD_disk_write`
returns. -/
theorem SD_disk_write_total {card : Card} (hfair : Fair card) (hrel : Releases card)
    (buff : Nat → Nat) (sector count : Nat) {m : Machine} (hd : m.ctx.dma_complete = 1) :
    Total (fun fuel => SD_disk_write card fuel buff sector count) m := by
  unfold SD_disk_write
  apply Total.cond_total
  · intro _; exact Total.pure_total _ hd
  · intro _
    apply Total.seq_total (SD_getCtx_total hd)
    intro ctx m1 hd1
    apply Total.cond_total
    · intro _; exact Total.pure_total _ hd1
    · intro _
      apply Total.cond_total
      · intro _; exact Total.pure_total _ hd1
      · intro _
        apply Total.seq_total (Total.of_run (SELECT_apply m1) (Machine.Kept.refl hd1))
        intro _ m2 hd2
        apply Total.seq_total (SD_disk_write_transfer_total hfair hrel buff _ count hd2)
        intro n m3 hd3
        apply Total.seq_total (Total.of_run (DESELECT_apply m3) (Machine.Kept.refl hd3))
        intro _ m4 hd4
        apply Total.seq_total (SPI_RxByte_kept card hd4)
        intro _ m5 hd5
        exact Total.pure_total _ hd5

theorem SD_disk_read_loop_total {card : Card} (hfair : Fair card) (count : Nat) :
    ∀ (off : Nat) {m : Machine}, m.ctx.dma_complete = 1 →
      Total (fun fuel => SD_disk_read_loop card fuel count off) m := by
  induction count with
  | zero =>
    intro off m hd
    exact Total.pure_total _ hd
  | succ n ih =>
    intro off m hd
    unfold SD_disk_read_loop
    apply Total.seq_total (SD_RxDataBlock_total hfair 512 hd)
    intro r m1 hd1
    apply Total.cond_total
    · intro _; exact Total.pure_total _ hd1
    · intro _
      apply Total.cond_total
      · intro _
        apply Total.seq_total (ih (off + 512) hd1)
        intro rest m2 hd2
        exact Total.pure_total _ hd2
      · intro _; exact Total.pure_total _ hd1

theorem SD_disk_read_transfer_total {card : Card} (hfair : Fair card) (sector count : Nat)
    {m : Machine} (hd : m.ctx.dma_complete = 1) :
    Total (fun fuel => SD_disk_read_transfer card fuel sector count) m := by
  unfold SD_disk_read_transfer
  apply Total.cond_total
  · intro _
    apply Total.seq_total (SD_SendCmd_total hfair CMD17 sector hd)
    intro r m1 hd1
    apply Total.cond_total
    · intro _
      apply Total.seq_total (SD_RxDataBlock_total hfair 512 hd1)
      intro b m2 hd2
      apply Total.cond_total
      · intro _; exact Total.pure_total _ hd2
      · intro _; exact Total.pure_total _ hd2
    · intro _; exact Total.pure_total _ hd1
  · intro _
    apply Total.seq_total (SD_SendCmd_total hfair CMD18 sector hd)
    intro r m1 hd1
    apply Total.cond_total
    · intro _
      apply Total.seq_total (SD_disk_read_loop_total hfair count 0 hd1)
      intro out m2 hd2
      apply Total.seq_total (SD_SendCmd_total hfair CMD12 0 hd2)
      intro _ m3 hd3
      exact Total.pure_total _ hd3
    · intro _; exact Total.pure_total _ hd1

/-- Under a fair tick `SD_disk_read` returns. -/
theorem SD_disk_read_total {card : Card} (hfair : Fair card) (sector count : Nat)
    {m : Machine} (hd : m.ctx.dma_complete = 1) :
    Total (fun fuel => SD_disk_read card fuel sector count) m := by
  unfold SD_disk_read
  apply Total.cond_total
  · intro _; exact Total.pure_total _ hd
  · intro _
    apply Total.seq_total (SD_getCtx_total hd)
    intro ctx m1 hd1
    apply Total.cond_total
    · intro _; exact Total.pure_total _ hd1
    · intro _
      apply Total.seq_total (Total.of_run (SELECT_apply m1) (Machine.Kept.refl hd1))
      intro _ m2 hd2
      apply Total.seq_total (SD_disk_read_transfer_total hfair _ count hd2)
      intro out m3 hd3
      apply Total.seq_total (Total.of_run (DESELECT_apply m3) (Machine.Kept.refl hd3))
      intro _ m4 hd4
      apply Total.seq_total (SPI_RxByte_kept card hd4)
      intro _ m5 hd5
      exact Total.pure_total _ hd5

/-- The block requests of `SD_disk_ioctl` (`MMC_GET_CSD`, `MMC_GET_CID`). -/
theorem ioctl_block_total {card : Card} (hfair : Fair card) (cmd : Nat) {m : Machine}
    (hd : m.ctx.dma_complete = 1) :
    Total (fun fuel => (do
      let r ← SD_SendCmd card fuel cmd 0
      if r = 0 then
        let b ← SD_RxDataBlock card fuel 16
        if b.1 then pure (RES_OK, blockStores 0 b.2) else pure (RES_ERROR, blockStores 0 b.2)
      else
        pure (RES_ERROR, []) : SD (DRESULT × List Store))) m := by
  apply Total.seq_total (SD_SendCmd_total hfair cmd 0 hd)
  intro r m1 hd1
  apply Total.cond_total
  · intro _
    apply Total.seq_total (SD_RxDataBlock_total hfair 16 hd1)
    intro b m2 hd2
    apply Total.cond_total
    · intro _; exact Total.pure_total _ hd2
    · intro _; exact Total.pure_total _ hd2
  · intro _; exact Total.pure_total _ hd1

/-- Under a fair tick `SD_disk_ioctl` returns. -/
theorem SD_disk_ioctl_halts {card : Card} (hfair : Fair card) (ctrl arg : Nat)
    {m : Machine} (hd : m.ctx.dma_complete = 1) :
    Halts (fun fuel => SD_disk_ioctl card fuel ctrl arg) m := by
  unfold SD_disk_ioctl
  apply Halts.cond_halts
  · intro _
    apply Halts.cond_halts
    · intro _
      apply Halts.seq_halts (Halts.of_step (show SD_PowerOff m = some ((), _, []) from rfl) hd)
      intro _ m1 hd1
      exact Halts.pure_halts _ hd1
    · intro _
      apply Halts.cond_halts
      · intro _
        apply Halts.seq_halts (SD_PowerOn_halts card hd)
        intro _ m1 hd1
        exact Halts.pure_halts _ hd1
      · intro _
        apply Halts.cond_halts
        · intro _
          apply Halts.seq_halts (x := fun _ => SD_CheckPower)
          · unfold SD_CheckPower
            apply Halts.seq_halts (SD_getCtx_total hd).halts
            intro ctx m1 hd1
            exact Halts.pure_halts _ hd1
          · intro p m1 hd1
            exact Halts.pure_halts _ hd1
        · intro _; exact Halts.pure_halts _ hd
  · intro _
    apply Halts.seq_halts (SD_getCtx_total hd).halts
    intro ctx m1 hd1
    apply Halts.cond_halts
    · intro _; exact Halts.pure_halts _ hd1
    · intro _
      apply Halts.seq_halts (Halts.of_step (SELECT_apply m1) hd1)
      intro _ m2 hd2
      apply Halts.seq_halts (x := fun fuel =>
        (if ctrl = GET_SECTOR_COUNT then do
          let r ← SD_SendCmd card fuel CMD9 0
          if r = 0 then
            let b ← SD_RxDataBlock card fuel 16
            if b.1 then pure (RES_OK, [Store.dword (SD_sector_count (b.2.take 16))])
            else pure (RES_ERROR, [])
          else
            pure (RES_ERROR, [])
        else if ctrl = GET_SECTOR_SIZE then
          pure (RES_OK, [Store.word 512])
        else if ctrl = CTRL_SYNC then do
          let r ← SD_ReadyWait card fuel
          if r = 0xFF then pure (RES_OK, []) else pure (RES_ERROR, [])
        else if ctrl = MMC_GET_CSD then do
          let r ← SD_SendCmd card fuel CMD9 0
          if r = 0 then
            let b ← SD_RxDataBlock card fuel 16
            if b.1 then pure (RES_OK, blockStores 0 b.2) else pure (RES_ERROR, blockStores 0 b.2)
          else
            pure (RES_ERROR, [])
        else if ctrl = MMC_GET_CID then do
          let r ← SD_SendCmd card fuel CMD10 0
          if r = 0 then
            let b ← SD_RxDataBlock card fuel 16
            if b.1 then pure (RES_OK, blockStores 0 b.2) else pure (RES_ERROR, blockStores 0 b.2)
          else
            pure (RES_ERROR, [])
        else if ctrl = MMC_GET_OCR then do
          let r ← SD_SendCmd card fuel CMD58 0
          if r = 0 then
            let ocr ← SD_read_ocr card
            pure (RES_OK, [Store.byte 0 ocr.1, Store.byte 1 ocr.2.1, Store.byte 2 ocr.2.2.1,
              Store.byte 3 ocr.2.2.2])
          else
            pure (RES_ERROR, [])
        else
          pure (RES_PARERR, []) : SD (DRESULT × List Store)))
      · apply Total.halts
        apply Total.cond_total
        · intro _
          apply Total.seq_total (SD_SendCmd_total hfair CMD9 0 hd2)
          intro r m3 hd3
          apply Total.cond_total
          · intro _
            apply Total.seq_total (SD_RxDataBlock_total hfair 16 hd3)
            intro b m4 hd4
            apply Total.cond_total
            · intro _; exact Total.pure_total _ hd4
            · intro _; exact Total.pure_total _ hd4
          · intro _; exact Total.pure_total _ hd3
        · intro _
          apply Total.cond_total
          · intro _; exact Total.pure_total _ hd2
          · intro _
            apply Total.cond_total
            · intro _
              apply Total.seq_total (SD_ReadyWait_total hfair hd2)
              intro r m3 hd3
              apply Total.cond_total
              · intro _; exact Total.pure_total _ hd3
              · intro _; exact Total.pure_total _ hd3
            · intro _
              apply Total.cond_total
              · intro _; exact ioctl_block_total hfair CMD9 hd2
              · intro _
                apply Total.cond_total
                · intro _; exact ioctl_block_total hfair CMD10 hd2
                · intro _
                  apply Total.cond_total
                  · intro _
                    apply Total.seq_total (SD_SendCmd_total hfair CMD58 0 hd2)
                    intro r m3 hd3
                    apply Total.cond_total
                    · intro _
                      apply Total.seq_total (SD_read_ocr_total card hd3)
                      intro ocr m4 hd4
                      exact Total.pure_total _ hd4
                    · intro _; exact Total.pure_total _ hd3
                  · intro _; exact Total.pure_total _ hd2
      · intro out m3 hd3
        apply Halts.seq_halts (Halts.of_step (DESELECT_apply m3) hd3)
        intro _ m4 hd4
        apply Halts.seq_halts (SPI_RxByte_kept card hd4).halts
        intro _ m5 hd5
        exact Halts.pure_halts _ hd5

/-! ## Chip-select discipline -/

theorem csRun_data (q : List BusEvent) (hq : ∀ e ∈ q, BusEvent.isData e = true) (s : Bool) :
    csRun s q = some s := by
  induction q with
  | nil => rfl
  | cons e q ih =>
    have he := hq e (List.mem_cons_self e q)
    have hq2 : ∀ e2 ∈ q, BusEvent.isData e2 = true := fun e2 h2 => hq e2 (List.mem_cons_of_mem e h2)
    cases e with
    | csLow => cases he
    | csHigh => cases he
    | tx l => exact ih hq2
    | xfer a b => exact ih hq2

theorem csRun_append (a b : List BusEvent) :
    ∀ s, csRun s (a ++ b) = (csRun s a).bind fun s2 => csRun s2 b := by
  induction a with
  | nil => intro s; rfl
  | cons e a ih =>
    intro s
    cases e with
    | csLow =>
      cases s
      · exact ih true
      · rfl
    | csHigh => exact ih false
    | tx l => exact ih s
    | xfer x y => exact ih s

theorem BusEvent.isData_of_isDummy {d : BusEvent} (h : BusEvent.isDummy d = true) :
    BusEvent.isData d = true := by
  cases d with
  | csLow => cases h
  | csHigh => cases h
  | tx l => rfl
  | xfer a b => rfl

theorem Bracket.csRun_eq {t : List BusEvent} (h : Bracket t) : csRun false t = some false := by
  obtain ⟨q, d, rfl, hq, hd⟩ := h
  show csRun true (q ++ [BusEvent.csHigh, d]) = some false
  rw [csRun_append, csRun_data q hq]
  show csRun false [d] = some false
  exact csRun_data [d] (fun e he => by
    rw [List.mem_singleton] at he
    subst he
    exact BusEvent.isData_of_isDummy hd) false

theorem Bracket.endsIdle_append {t : List BusEvent} (h : Bracket t) (pre : List BusEvent) :
    endsIdle (pre ++ t) = true := by
  obtain ⟨q, d, rfl, -, hd⟩ := h
  unfold endsIdle
  simp only [List.reverse_append, List.reverse_cons, List.reverse_nil, List.nil_append,
    List.cons_append, List.append_assoc, List.singleton_append]
  exact hd

/-- A disciplined prefix followed by one bracket is disciplined. -/
theorem Bracket.disciplined {t : List BusEvent} (h : Bracket t) (pre : List BusEvent)
    (hpre : csRun false pre = some false) : Disciplined (pre ++ t) := by
  refine ⟨?_, fun _ => h.endsIdle_append pre⟩
  rw [csRun_append, hpre]
  exact h.csRun_eq

theorem Disciplined.nil : Disciplined [] := ⟨rfl, fun h => by cases h⟩

theorem SD_PowerOn_wake_inner (n : Nat) : Inner BusEvent.isData (SD_PowerOn_wake n) := by
  induction n with
  | zero => exact Inner.pure_inner _ _
  | succ n ih =>
    unfold SD_PowerOn_wake
    exact Inner.bind_inner (SPI_TxByte_inner _ fun _ => rfl) fun _ => ih

theorem SD_PowerOn_wait_inner (card : Card) (cnt : Nat) :
    Inner BusEvent.isData (SD_PowerOn_wait card cnt) := by
  induction cnt with
  | zero =>
    unfold SD_PowerOn_wait
    exact Inner.bind_inner (SPI_RxByte_inner card fun _ => rfl) fun _ => Inner.pure_inner _ _
  | succ n ih =>
    unfold SD_PowerOn_wait
    exact Inner.bind_inner (SPI_RxByte_inner card fun _ => rfl) fun _ =>
      Inner.ite_inner ih (Inner.pure_inner _ _)

/-- The shape of a run of `SD_PowerOn`: deassertion, the wake-up bytes, then one
bracket around the reset command, closed by a transmitted dummy byte. -/
theorem SD_PowerOn_shape {card : Card} {m m1 : Machine} {t : List BusEvent}
    (hd : m.ctx.dma_complete = 1) (h : SD_PowerOn card m = some ((), m1, t)) :
    m1.ctx.dma_complete = 1 ∧ m1.ctx.status = m.ctx.status ∧
      m1.ctx.card_type = m.ctx.card_type ∧
      ∃ q b, t = (BusEvent.csHigh :: q) ++ b ∧ (∀ e ∈ q, BusEvent.isData e = true) ∧
        Bracket b := by
  unfold SD_PowerOn at h
  rw [SD.bind_of_eq (DESELECT_apply m)] at h
  cases hw : SD_PowerOn_wake 10 m with
  | none => rw [SD.bind_of_stuck hw] at h; cases h
  | some r1 =>
    obtain ⟨u1, ma, ta⟩ := r1
    obtain ⟨hfa, hqa⟩ := SD_PowerOn_wake_inner 10 m u1 ma ta hw
    have hda := hfa.1 hd
    rw [SD.bind_of_eq hw, SD.bind_of_eq (SELECT_apply ma),
      SD.bind_of_eq (SPI_TxBuffer_apply _ ma hda)] at h
    cases hp : SD_PowerOn_wait card 0x1FFF ma with
    | none => rw [SD.bind_of_stuck hp] at h; cases h
    | some r2 =>
      obtain ⟨u2, mb, tb⟩ := r2
      obtain ⟨hfb, hqb⟩ := SD_PowerOn_wait_inner card 0x1FFF ma u2 mb tb hp
      have hdb := hfb.1 hda
      rw [SD.bind_of_eq hp, SD.bind_of_eq (DESELECT_apply mb),
        SD.bind_of_eq (SPI_TxByte_apply _ mb hdb)] at h
      simp only [SD.modifyCtx_apply, Option.map_some', Option.some.injEq, Prod.mk.injEq,
        true_and] at h
      obtain ⟨rfl, rfl⟩ := h
      refine ⟨hdb, hfb.2.1.trans hfa.2.1, hfb.2.2.1.trans hfa.2.2.1, ta,
        BusEvent.csLow :: ((BusEvent.tx [CMD0, 0, 0, 0, 0, 0x95] :: tb)
          ++ [BusEvent.csHigh, BusEvent.tx [0xFF]]), ?_, hqa, ?_⟩
      · simp
      · refine ⟨_, _, rfl, fun e he => ?_, rfl⟩
        rcases List.mem_cons.mp he with he | he
        · subst he; rfl
        · exact hqb e he

theorem SD_PowerOn_disciplined {card : Card} {m m1 : Machine} {t : List BusEvent}
    (hd : m.ctx.dma_complete = 1) (h : SD_PowerOn card m = some ((), m1, t)) :
    Disciplined t := by
  obtain ⟨-, -, -, q, b, rfl, hq, hb⟩ := SD_PowerOn_shape hd h
  exact hb.disciplined _ (csRun_data q hq false)

/-- A transfer between `SELECT` and `DESELECT; SPI_RxByte`: the trace is one
bracket. -/
theorem bracket_of_transfer {α β : Type} (card : Card) {x : SD α} (hx : Inner BusEvent.isData x)
    (g : α → β) {m m1 : Machine} {r : β} {t : List BusEvent} (hd : m.ctx.dma_complete = 1)
    (h : (do
      SELECT
      let out ← x
      DESELECT
      let _ ← SPI_RxByte card
      pure (g out)) m = some (r, m1, t)) : Bracket t := by
  rw [SD.bind_of_eq (SELECT_apply m)] at h
  cases hx1 : x m with
  | none => rw [SD.bind_of_stuck hx1] at h; cases h
  | some r1 =>
    obtain ⟨a, ma, ta⟩ := r1
    obtain ⟨hfa, hqa⟩ := hx m a ma ta hx1
    rw [SD.bind_of_eq hx1, SD.bind_of_eq (DESELECT_apply ma),
      SD.bind_of_eq (SPI_RxByte_apply card ma (hfa.1 hd))] at h
    simp only [SD.pure_apply, Option.map_some', Option.some.injEq, Prod.mk.injEq] at h
    obtain ⟨-, -, rfl⟩ := h
    exact ⟨ta, BusEvent.xfer 0xFF (ma.rxByte card), by simp, hqa, rfl⟩

theorem SD_disk_read_disciplined {card : Card} {fuel sector count : Nat} {m m1 : Machine}
    {r : DRESULT × List Store} {t : List BusEvent} (hd : m.ctx.dma_complete = 1)
    (h : SD_disk_read card fuel sector count m = some (r, m1, t)) : Disciplined t := by
  unfold SD_disk_read at h
  split at h
  · simp only [SD.pure_apply, Option.some.injEq, Prod.mk.injEq] at h
    obtain ⟨-, -, rfl⟩ := h
    exact Disciplined.nil
  · rw [SD.bind_of_eq (SD.getCtx_apply m)] at h
    split at h
    · simp only [SD.pure_apply, Option.map_some', Option.some.injEq, Prod.mk.injEq,
        List.append_nil] at h
      obtain ⟨-, -, rfl⟩ := h
      exact Disciplined.nil
    · cases hrun : (do
          SELECT
          let out ← SD_disk_read_transfer card fuel
            (if m.ctx.card_type &&& CT_SD2 = 0 then (sector * 512) % 2 ^ 32 else sector) count
          DESELECT
          let _ ← SPI_RxByte card
          pure ((if out.1 ≠ 0 then RES_ERROR else RES_OK, out.2) : DRESULT × List Store)) m with
      | none => rw [hrun] at h; cases h
      | some r2 =>
        obtain ⟨b, mb, tb⟩ := r2
        rw [hrun] at h
        simp only [Option.map_some', Option.some.injEq, Prod.mk.injEq, List.nil_append] at h
        obtain ⟨-, -, rfl⟩ := h
        exact (bracket_of_transfer card (SD_disk_read_transfer_inner card fuel _ count)
          (fun out => ((if out.1 ≠ 0 then RES_ERROR else RES_OK, out.2) : DRESULT × List Store))
          hd hrun).disciplined [] rfl

theorem SD_disk_write_disciplined {card : Card} {fuel : Nat} {buff : Nat → Nat}
    {sector count : Nat} {m m1 : Machine} {r : DRESULT} {t : List BusEvent}
    (hd : m.ctx.dma_complete = 1)
    (h : SD_disk_write card fuel buff sector count m = some (r, m1, t)) : Disciplined t := by
  unfold SD_disk_write at h
  split at h
  · simp only [SD.pure_apply, Option.some.injEq, Prod.mk.injEq] at h
    obtain ⟨-, -, rfl⟩ := h
    exact Disciplined.nil
  · rw [SD.bind_of_eq (SD.getCtx_apply m)] at h
    split at h
    · simp only [SD.pure_apply, Option.map_some', Option.some.injEq, Prod.mk.injEq,
        List.append_nil] at h
      obtain ⟨-, -, rfl⟩ := h
      exact Disciplined.nil
    · split at h
      · simp only [SD.pure_apply, Option.map_some', Option.some.injEq, Prod.mk.injEq,
          List.append_nil] at h
        obtain ⟨-, -, rfl⟩ := h
        exact Disciplined.nil
      · cases hrun : (do
            SELECT
            let out ← SD_disk_write_transfer card fuel buff
              (if m.ctx.card_type &&& CT_SD2 = 0 then (sector * 512) % 2 ^ 32 else sector) count
            DESELECT
            let _ ← SPI_RxByte card
            pure (if out ≠ 0 then RES_ERROR else RES_OK)) m with
        | none => rw [hrun] at h; cases h
        | some r2 =>
          obtain ⟨b, mb, tb⟩ := r2
          rw [hrun] at h
          simp only [Option.map_some', Option.some.injEq, Prod.mk.injEq, List.nil_append] at h
          obtain ⟨-, -, rfl⟩ := h
          exact (bracket_of_transfer card (SD_disk_write_transfer_inner card fuel buff _ count)
            (fun out => if out ≠ 0 then RES_ERROR else RES_OK) hd hrun).disciplined [] rfl

theorem SD.getCtx_bind_eq_some {β : Type} {f : SD_Context → SD β} {m : Machine}
    {r : β × Machine × List BusEvent} (h : (SD.getCtx >>= f) m = some r) :
    f m.ctx m = some r := by
  rw [SD.bind_of_eq (SD.getCtx_apply m)] at h
  cases hf : f m.ctx m with
  | none => rw [hf] at h; cases h
  | some r2 =>
    rw [hf] at h
    simpa using h

theorem SD_disk_ioctl_disciplined {card : Card} {fuel ctrl arg : Nat} {m m1 : Machine}
    {r : DRESULT × List Store} {t : List BusEvent} (hd : m.ctx.dma_complete = 1)
    (h : SD_disk_ioctl card fuel ctrl arg m = some (r, m1, t)) : Disciplined t := by
  unfold SD_disk_ioctl at h
  split at h
  · split at h
    · obtain ⟨a, ma, ta, tb, h1, h2, rfl⟩ := SD.bind_eq_some h
      simp only [SD_PowerOff, SD.modifyCtx_apply, SD.pure_apply, Option.some.injEq,
        Prod.mk.injEq] at h1 h2
      obtain ⟨-, -, rfl⟩ := h1
      obtain ⟨-, -, rfl⟩ := h2
      exact Disciplined.nil
    · split at h
      · obtain ⟨a, ma, ta, tb, h1, h2, rfl⟩ := SD.bind_eq_some h
        simp only [SD.pure_apply, Option.some.injEq, Prod.mk.injEq] at h2
        obtain ⟨-, -, rfl⟩ := h2
        rw [List.append_nil]
        exact SD_PowerOn_disciplined hd h1
      · split at h
        · obtain ⟨a, ma, ta, tb, h1, h2, rfl⟩ := SD.bind_eq_some h
          simp only [SD_CheckPower] at h1
          have h1' := SD.getCtx_bind_eq_some h1
          simp only [SD.pure_apply, Option.some.injEq, Prod.mk.injEq] at h1' h2
          obtain ⟨-, -, rfl⟩ := h1'
          obtain ⟨-, -, rfl⟩ := h2
          exact Disciplined.nil
        · simp only [SD.pure_apply, Option.some.injEq, Prod.mk.injEq] at h
          obtain ⟨-, -, rfl⟩ := h
          exact Disciplined.nil
  · have h2 := SD.getCtx_bind_eq_some h
    split at h2
    · simp only [SD.pure_apply, Option.some.injEq, Prod.mk.injEq] at h2
      obtain ⟨-, -, rfl⟩ := h2
      exact Disciplined.nil
    · refine (bracket_of_transfer card ?_ (fun out => out) hd h2).disciplined [] rfl
      have hblock : ∀ cmd, Inner BusEvent.isData (do
          let r ← SD_SendCmd card fuel cmd 0
          if r = 0 then
            let b ← SD_RxDataBlock card fuel 16
            if b.1 then pure (RES_OK, blockStores 0 b.2) else pure (RES_ERROR, blockStores 0 b.2)
          else
            pure (RES_ERROR, [])) := fun cmd =>
        Inner.bind_inner (SD_SendCmd_inner card fuel _ _) fun _ =>
          Inner.ite_inner (Inner.bind_inner (SD_RxDataBlock_inner card fuel 16) fun _ =>
            Inner.ite_inner (Inner.pure_inner _ _) (Inner.pure_inner _ _)) (Inner.pure_inner _ _)
      refine Inner.ite_inner ?_ (Inner.ite_inner (Inner.pure_inner _ _) (Inner.ite_inner ?_
        (Inner.ite_inner (hblock CMD9) (Inner.ite_inner (hblock CMD10) (Inner.ite_inner ?_
          (Inner.pure_inner _ _))))))
      · exact Inner.bind_inner (SD_SendCmd_inner card fuel _ _) fun _ =>
          Inner.ite_inner (Inner.bind_inner (SD_RxDataBlock_inner card fuel 16) fun _ =>
            Inner.ite_inner (Inner.pure_inner _ _) (Inner.pure_inner _ _)) (Inner.pure_inner _ _)
      · exact Inner.bind_inner (SD_ReadyWait_inner card (fun _ => rfl) fuel) fun _ =>
          Inner.ite_inner (Inner.pure_inner _ _) (Inner.pure_inner _ _)
      · exact Inner.bind_inner (SD_SendCmd_inner card fuel _ _) fun _ =>
          Inner.ite_inner (Inner.bind_inner (SD_read_ocr_inner card) fun _ =>
            Inner.pure_inner _ _) (Inner.pure_inner _ _)

theorem SD_disk_initialize_disciplined {card : Card} {fuel : Nat} {m m1 : Machine}
    {st : Nat} {t : List BusEvent} (hd : m.ctx.dma_complete = 1)
    (h : SD_disk_initialize card fuel m = some (st, m1, t)) : Disciplined t := by
  unfold SD_disk_initialize at h
  have h2 := SD.getCtx_bind_eq_some h
  split at h2
  · simp only [SD.pure_apply, Option.some.injEq, Prod.mk.injEq] at h2
    obtain ⟨-, -, rfl⟩ := h2
    exact Disciplined.nil
  · obtain ⟨u, ma, ta, tb, hp, h3, rfl⟩ := SD.bind_eq_some h2
    obtain ⟨hda, -, -, q, b, rfl, hq, hb⟩ := SD_PowerOn_shape hd hp
    rw [SD.bind_of_eq (SELECT_apply ma)] at h3
    cases hc : SD_init_classify card fuel ma with
    | none => rw [SD.bind_of_stuck hc] at h3; cases h3
    | some r1 =>
      obtain ⟨ty, mb, tc⟩ := r1
      obtain ⟨hfb, hqb⟩ := SD_init_classify_inner card fuel ma ty mb tc hc
      have hrx := SPI_RxByte_apply card { mb with ctx := { mb.ctx with card_type := ty } }
        (hfb.1 hda)
      rw [SD.bind_of_eq hc, SD.bind_of_eq (SD.modifyCtx_apply _ mb),
        SD.bind_of_eq (DESELECT_apply _), SD.bind_of_eq hrx] at h3
      have hshape : tb = BusEvent.csLow :: (tc ++ [BusEvent.csHigh, BusEvent.xfer 0xFF
          (Machine.rxByte card { mb with ctx := { mb.ctx with card_type := ty } })]) := by
        by_cases hty : ty = 0
        · subst hty
          simp only [ne_eq, not_true_eq_false, if_false] at h3
          rw [SD.bind_of_eq (show SD_PowerOff _ = some ((), _, []) from rfl),
            SD.bind_of_eq (SD.getCtx_apply _)] at h3
          simp only [SD.pure_apply, Option.map_some', Option.some.injEq, Prod.mk.injEq] at h3
          rw [← h3.2.2]
          simp
        · simp only [ne_eq, hty, not_false_eq_true, if_true] at h3
          rw [SD.bind_of_eq (SD.modifyCtx_apply _ _), SD.bind_of_eq (SD.getCtx_apply _)] at h3
          simp only [SD.pure_apply, Option.map_some', Option.some.injEq, Prod.mk.injEq] at h3
          rw [← h3.2.2]
          simp
      subst hshape
      exact Bracket.disciplined ⟨tc, BusEvent.xfer 0xFF _, rfl, hqb, rfl⟩ _
        (hb.disciplined _ (csRun_data q hq false)).1

/-- A computation that returns for every large enough loop budget, and whose
returning runs all have a disciplined trace, returns with a disciplined trace. -/
theorem Halts.returns_disciplined {α : Type} {x : Nat → SD α} {m : Machine} (h : Halts x m)
    (hdisc : ∀ fuel a m1 t, x fuel m = some (a, m1, t) → Disciplined t) :
    ∃ a m1 t, Returns x m (a, m1, t) ∧ Disciplined t := by
  obtain ⟨a, m1, t, ⟨F, hF⟩, -⟩ := h
  exact ⟨a, m1, t, ⟨F, hF⟩, hdisc F a m1 t (hF F (le_refl F))⟩

/-- Chip-select discipline of the runs that return.  From a state with no
transfer pending, for every card and every loop budget, the bus trace of every
run of `SD_disk_initialize`, `SD_disk_read`, `SD_disk_write` and `SD_disk_ioctl`
that returns is disciplined: chip-select is never driven low while it is low, it
is high at the end, and if it was driven low at all the last two bus actions are
the deassertion and one dummy byte `0xFF`.  Under a fair tick
`SD_disk_initialize`, `SD_disk_read` and `SD_disk_ioctl` do return, and so does
`SD_disk_write` when the card does not hold the line at `00` for ever. -/
theorem returning_runs_disciplined (card : Card) (m : Machine) (hd : m.ctx.dma_complete = 1) :
    (∀ fuel st m1 t, SD_disk_initialize card fuel m = some (st, m1, t) → Disciplined t) ∧
    (∀ fuel sector count r m1 t, SD_disk_read card fuel sector count m = some (r, m1, t) →
      Disciplined t) ∧
    (∀ fuel buff sector count r m1 t,
      SD_disk_write card fuel buff sector count m = some (r, m1, t) → Disciplined t) ∧
    (∀ fuel ctrl arg r m1 t, SD_disk_ioctl card fuel ctrl arg m = some (r, m1, t) →
      Disciplined t) ∧
    (Fair card →
      (∃ st m1 t, Returns (fun fuel => SD_disk_initialize card fuel) m (st, m1, t) ∧
        Disciplined t) ∧
      (∀ sector count, ∃ r m1 t,
        Returns (fun fuel => SD_disk_read card fuel sector count) m (r, m1, t) ∧
        Disciplined t) ∧
      (∀ ctrl arg, ∃ r m1 t,
        Returns (fun fuel => SD_disk_ioctl card fuel ctrl arg) m (r, m1, t) ∧
        Disciplined t) ∧
      (Releases card → ∀ buff sector count, ∃ r m1 t,
        Returns (fun fuel => SD_disk_write card fuel buff sector count) m (r, m1, t) ∧
        Disciplined t)) :=
  ⟨fun _ _ _ _ h => SD_disk_initialize_disciplined hd h,
    fun _ _ _ _ _ _ h => SD_disk_read_disciplined hd h,
    fun _ _ _ _ _ _ _ h => SD_disk_write_disciplined hd h,
    fun _ _ _ _ _ _ h => SD_disk_ioctl_disciplined hd h,
    fun hfair =>
      ⟨(SD_disk_initialize_halts hfair hd).returns_disciplined
          fun _ _ _ _ h => SD_disk_initialize_disciplined hd h,
        fun sector count => (SD_disk_read_total hfair sector count hd).halts.returns_disciplined
          fun _ _ _ _ h => SD_disk_read_disciplined hd h,
        fun ctrl arg => (SD_disk_ioctl_halts hfair ctrl arg hd).returns_disciplined
          fun _ _ _ _ h => SD_disk_ioctl_disciplined hd h,
        fun hrel buff sector count =>
          (SD_disk_write_total hfair hrel buff sector count hd).halts.returns_disciplined
            fun _ _ _ _ h => SD_disk_write_disciplined hd h⟩⟩

/-- Two runs that return: the SDHC initialisation scenario with a ticking clock,
and a `MMC_GET_CSD` request whose SEND_CSD is answered with `05`. -/
theorem returning_runs_disciplined_example :
    ( SD_disk_initialize (tickingCard sdhcInit) 1 ⟨SD_init, 0⟩
        = some (0, sdhcDoneTicking, sdhcTrace) ∧ Disciplined sdhcTrace) ∧
    Disciplined [BusEvent.csLow, BusEvent.xfer 0xFF 0xFF, BusEvent.tx [CMD9],
      BusEvent.tx [0], BusEvent.tx [0], BusEvent.tx [0], BusEvent.tx [0], BusEvent.tx [1],
      BusEvent.xfer 0xFF 0x05, BusEvent.csHigh, BusEvent.xfer 0xFF 0xFF] :=
  ⟨⟨by decide!, (returning_runs_disciplined (tickingCard sdhcInit) ⟨SD_init, 0⟩ rfl).1
      1 0 sdhcDoneTicking sdhcTrace (by decide!)⟩,
    (returning_runs_disciplined (cardOfBytes [0xFF, 0x05]) ⟨readyCtx 0x0C, 0⟩ rfl).2.2.2.1
      1 MMC_GET_CSD 0 (RES_ERROR, []) ⟨{ readyCtx 0x0C with timer2 := 500 }, 3⟩ _ (by decide!)⟩

/-- C19, the code at the failing input: a single-block write to `heldBusy`, the
card that accepts the data block and then holds the line at `00`, with a fair
tick.  The steps of `SD_disk_write` up to the drain loop of `SD_TxDataBlock`
return with the trace `heldBusyOpening`, in which chip-select has been driven low
and not yet high; from there the drain loop returns for no loop budget, and
neither does `SD_disk_write`: the call does not end, and chip-select stays
asserted. -/
theorem write_hang_keeps_chip_select_asserted :
    Fair heldBusy ∧
    (do
      SELECT
      let _ ← SD_SendCmd heldBusy 1 CMD24 0
      let _ ← SD_ReadyWait heldBusy 1
      SPI_TxByte 0xFE
      SPI_TxBuffer ((List.range 512).map (fun _ => 0 % 256))
      let _ ← SPI_RxByte heldBusy
      let _ ← SPI_RxByte heldBusy
      SD_TxDataBlock_resp heldBusy 65 0 : SD Nat) ⟨readyCtx 0x0C, 0⟩
      = some (0x05, heldBusyAtDrain, heldBusyOpening) ∧
    csRun false heldBusyOpening = some true ∧
    (∀ fuel, SD_TxDataBlock_drain heldBusy fuel heldBusyAtDrain = none) ∧
    (∀ fuel, SD_disk_write heldBusy fuel (fun _ => 0) 0 1 ⟨readyCtx 0x0C, 0⟩ = none) :=
  ⟨heldBusy_fair, by decide!, by decide!,
    fun fuel => SD_TxDataBlock_drain_stuck heldBusy fuel heldBusyAtDrain rfl
      (fun k hk => heldBusy_zero k hk),
    heldBusy_write_none⟩

/-! ## The legacy branch of the classification -/

/-- The status and the card type are not touched by `SD_PowerOn`. -/
theorem SD_PowerOn_status {card : Card} {m m1 : Machine} {t : List BusEvent}
    (h : SD_PowerOn card m = some ((), m1, t)) :
    m1.ctx.status = m.ctx.status ∧ m1.ctx.card_type = m.ctx.card_type := by
  unfold SD_PowerOn at h
  rw [SD.bind_of_eq (DESELECT_apply m)] at h
  cases hw : SD_PowerOn_wake 10 m with
  | none => rw [SD.bind_of_stuck hw] at h; cases h
  | some r1 =>
    obtain ⟨u1, ma, ta⟩ := r1
    obtain ⟨hfa, -⟩ := SD_PowerOn_wake_inner 10 m u1 ma ta hw
    rw [SD.bind_of_eq hw, SD.bind_of_eq (SELECT_apply ma)] at h
    cases hb : SPI_TxBuffer [CMD0, 0, 0, 0, 0, 0x95] ma with
    | none => rw [SD.bind_of_stuck hb] at h; cases h
    | some r2 =>
      obtain ⟨u2, mb, tb⟩ := r2
      obtain ⟨hfb, -⟩ := SPI_TxBuffer_inner (P := BusEvent.isData) _ (fun _ => rfl) ma u2 mb tb hb
      rw [SD.bind_of_eq hb] at h
      cases hp : SD_PowerOn_wait card 0x1FFF mb with
      | none => rw [SD.bind_of_stuck hp] at h; cases h
      | some r3 =>
        obtain ⟨u3, mc, tc⟩ := r3
        obtain ⟨hfc, -⟩ := SD_PowerOn_wait_inner card 0x1FFF mb u3 mc tc hp
        rw [SD.bind_of_eq hp, SD.bind_of_eq (DESELECT_apply mc)] at h
        cases ht : SPI_TxByte 0xFF mc with
        | none => rw [SD.bind_of_stuck ht] at h; cases h
        | some r4 =>
          obtain ⟨u4, md, td⟩ := r4
          obtain ⟨hfd, -⟩ := SPI_TxByte_inner (P := BusEvent.isData) _ (fun _ => rfl)
            mc u4 md td ht
          rw [SD.bind_of_eq ht] at h
          simp only [SD.modifyCtx_apply, Option.map_some', Option.some.injEq, Prod.mk.injEq,
            true_and] at h
          obtain ⟨rfl, -⟩ := h
          have hf := ((hfa.chain_framed hfb).chain_framed hfc).chain_framed hfd
          exact ⟨hf.2.1, hf.2.2.1⟩

/-- When the legacy initialisation loop ends with Timer1 still running, its last
pass had the initialisation command answered with 0: for `CT_SD1`, APP_CMD
answered with at most 1 and SEND_OP_COND(0) with 0; otherwise CMD1 with 0. -/
theorem SD_init_legacy_loop_accepted {card : Card} {fuel type : Nat} (n : Nat) :
    ∀ {m m1 : Machine} {t : List BusEvent},
      SD_init_legacy_loop card fuel type n m = some ((), m1, t) → m1.ctx.timer1 ≠ 0 →
      (type = CT_SD1 → ∃ ma mb r55 ta tb, SD_SendCmd card fuel CMD55 0 ma = some (r55, mb, ta) ∧
        r55 ≤ 1 ∧ SD_SendCmd card fuel CMD41 0 mb = some (0, m1, tb)) ∧
      (type ≠ CT_SD1 → ∃ ma ta, SD_SendCmd card fuel CMD1 0 ma = some (0, m1, ta)) := by
  induction n with
  | zero => intro m m1 t h; simp [SD_init_legacy_loop] at h
  | succ n ih =>
    intro m m1 t h hne
    unfold SD_init_legacy_loop at h
    obtain ⟨done, ma, ta, tb, hpoll, h, -⟩ := SD.bind_eq_some h
    cases done with
    | true =>
      simp only [if_true, SD.pure_apply, Option.some.injEq, Prod.mk.injEq] at h
      obtain ⟨-, rfl, -⟩ := h
      unfold SD_init_legacy_poll at hpoll
      refine ⟨fun hty => ?_, fun hty => ?_⟩
      · rw [if_pos hty] at hpoll
        obtain ⟨r55, mb, tc, td, h55, hpoll, -⟩ := SD.bind_eq_some hpoll
        split at hpoll
        · rename_i hle
          obtain ⟨r41, mc, te, tf, h41, hpoll, -⟩ := SD.bind_eq_some hpoll
          simp only [SD.pure_apply, Option.some.injEq, Prod.mk.injEq, decide_eq_true_eq]
            at hpoll
          obtain ⟨rfl, rfl, -⟩ := hpoll
          exact ⟨m, mb, r55, tc, te, h55, hle, h41⟩
        · simp at hpoll
      · rw [if_neg hty] at hpoll
        obtain ⟨r1, mb, tc, td, h1, hpoll, -⟩ := SD.bind_eq_some hpoll
        simp only [SD.pure_apply, Option.some.injEq, Prod.mk.injEq, decide_eq_true_eq] at hpoll
        obtain ⟨rfl, rfl, -⟩ := hpoll
        exact ⟨m, tc, h1⟩
    | false =>
      simp only [Bool.false_eq_true, if_false] at h
      rw [SD.bind_of_eq (SD.getCtx_apply ma)] at h
      split at h
      · cases hl : SD_init_legacy_loop card fuel type n ma with
        | none => rw [hl] at h; simp at h
        | some e =>
          obtain ⟨⟨⟩, mb, tb2⟩ := e
          rw [hl] at h
          simp only [Option.map_some', Option.some.injEq, Prod.mk.injEq] at h
          obtain ⟨-, rfl, -⟩ := h
          exact ih hl hne
      · rename_i h0
        simp only [SD.pure_apply, Option.map_some', Option.some.injEq, Prod.mk.injEq] at h
        obtain ⟨-, rfl, -⟩ := h
        exact absurd (by simpa using h0) hne

/-- A failed classification leaves the status as it was before the call. -/
theorem SD_disk_initialize_failed {card : Card} {fuel : Nat} {m m0 mb : Machine}
    {t0 tb : List BusEvent} (hnodisk : m.ctx.status &&& STA_NODISK = 0)
    (hpower : SD_PowerOn card m = some ((), m0, t0))
    (hclassify : SD_init_classify card fuel m0 = some (0, mb, tb)) :
    ∃ st m7 tr, SD_disk_initialize card fuel m = some (st, m7, tr) ∧
      m7.ctx.card_type = 0 ∧ st = m.ctx.status := by
  obtain ⟨st, m7, tr, h, hty, -, -⟩ := SD_disk_initialize_of_classify hnodisk hpower hclassify
  refine ⟨st, m7, tr, h, hty, ?_⟩
  obtain ⟨ma, ta, mc, tc, hp2, hc2, -, -, hfail⟩ := SD_disk_initialize_result hnodisk h
  rw [hpower] at hp2
  simp only [Option.some.injEq, Prod.mk.injEq, true_and] at hp2
  obtain ⟨rfl, -⟩ := hp2
  rw [hclassify] at hc2
  simp only [Option.some.injEq, Prod.mk.injEq] at hc2
  obtain ⟨-, rfl, -⟩ := hc2
  rw [(hfail hty).1, (SD_init_classify_inner card fuel m0 0 mb tb hclassify).1.2.1,
    (SD_PowerOn_status hpower).1]

/-- C11: legacy classification.  In an initialise run with `NODISK` clear, let
CMD0 return 1 after power-on, CMD8(0x1AA) return `r8` other than 1, the probe
APP_CMD return `r55` and, if `r55 ≤ 1`, the probe SEND_OP_COND(0) return `r41`.
The card is treated as SDv1 (`0x02`) if `r55 ≤ 1` and `r41 ≤ 1`, as MMC (`0x01`)
otherwise: the initialisation loop runs with that type (`hloop`).  If the loop
ends with Timer1 at 0, `SD_disk_initialize` returns with card type 0 and the
status as before the call.  If it ends with Timer1 running, its last pass had
the initialisation command of that type answered with 0, and with CMD16(512)
returning `r16`: for `r16 = 0` the card type is the type above and the returned
status has `NOINIT` clear; otherwise the card type is 0 and the status is as
before the call. -/
theorem legacy_classification (card : Card) (fuel : Nat) (m m0 m1 m2 m3 m4 m5 : Machine)
    (t0 t1 t2 t3 t4 t5 : List BusEvent) (r8 r55 r41 : Nat)
    (hnodisk : m.ctx.status &&& STA_NODISK = 0)
    (hpower : SD_PowerOn card m = some ((), m0, t0))
    (hcmd0 : SD_SendCmd card fuel CMD0 0 m0 = some (1, m1, t1))
    (hcmd8 : SD_SendCmd card fuel CMD8 0x1AA { m1 with ctx := { m1.ctx with timer1 := 1000 } }
      = some (r8, m2, t2))
    (hr8 : r8 ≠ 1)
    (hprobe55 : SD_SendCmd card fuel CMD55 0 m2 = some (r55, m3, t3))
    (hprobe41 : if r55 ≤ 1 then SD_SendCmd card fuel CMD41 0 m3 = some (r41, m4, t4)
      else m4 = m3 ∧ t4 = [])
    (hloop : SD_init_legacy_loop card fuel (legacyType r55 r41) fuel m4 = some ((), m5, t5)) :
    (legacyType r55 r41 = if r55 ≤ 1 ∧ r41 ≤ 1 then 0x02 else 0x01) ∧
    (m5.ctx.timer1 = 0 →
      ∃ st m7 tr, SD_disk_initialize card fuel m = some (st, m7, tr) ∧
        m7.ctx.card_type = 0 ∧ st = m.ctx.status) ∧
    (m5.ctx.timer1 ≠ 0 →
      (legacyType r55 r41 = CT_SD1 → ∃ ma mb a55 ta tb,
        SD_SendCmd card fuel CMD55 0 ma = some (a55, mb, ta) ∧ a55 ≤ 1 ∧
        SD_SendCmd card fuel CMD41 0 mb = some (0, m5, tb)) ∧
      (legacyType r55 r41 ≠ CT_SD1 → ∃ ma ta,
        SD_SendCmd card fuel CMD1 0 ma = some (0, m5, ta)) ∧
      ∀ r16 m6 t6, SD_SendCmd card fuel CMD16 512 m5 = some (r16, m6, t6) →
        ∃ st m7 tr, SD_disk_initialize card fuel m = some (st, m7, tr) ∧
          (r16 = 0 → m7.ctx.card_type = legacyType r55 r41 ∧ st = m7.ctx.status ∧
            st &&& STA_NOINIT = 0) ∧
          (r16 ≠ 0 → m7.ctx.card_type = 0 ∧ st = m.ctx.status)) := by
  have hprobe : (if r55 ≤ 1 then do
        let r41 ← SD_SendCmd card fuel CMD41 0
        pure (if r41 ≤ 1 then CT_SD1 else CT_MMC)
      else pure CT_MMC) m3 = some (legacyType r55 r41, m4, t4) := by
    by_cases h55 : r55 ≤ 1
    · rw [if_pos h55] at hprobe41 ⊢
      rw [SD.bind_of_eq hprobe41]
      simp [legacyType, h55]
    · rw [if_neg h55] at hprobe41 ⊢
      obtain ⟨rfl, rfl⟩ := hprobe41
      simp [legacyType, h55]
  have hclassify : ∀ {ty : Nat} {mz : Machine} {tz : List BusEvent},
      SD_init_legacy card fuel m2 = some (ty, mz, tz) →
      ∃ tc, SD_init_classify card fuel m0 = some (ty, mz, tc) := by
    intro ty mz tz hleg
    unfold SD_init_classify
    rw [SD.bind_of_eq hcmd0, if_pos rfl, SD.bind_of_eq (SD.modifyCtx_apply _ m1),
      SD.bind_of_eq hcmd8, if_neg hr8, hleg]
    exact ⟨_, rfl⟩
  refine ⟨rfl, fun htimer => ?_, fun htimer => ?_⟩
  · have hleg : ∃ tl, SD_init_legacy card fuel m2 = some (0, m5, tl) := by
      unfold SD_init_legacy
      rw [SD.bind_of_eq hprobe55, SD.bind_of_eq hprobe, SD.bind_of_eq hloop,
        SD.bind_of_eq (SD.getCtx_apply m5), if_pos htimer]
      exact ⟨_, rfl⟩
    obtain ⟨tl, hleg⟩ := hleg
    obtain ⟨tc, hc⟩ := hclassify hleg
    exact SD_disk_initialize_failed hnodisk hpower hc
  · obtain ⟨hsd1, hmmc⟩ := SD_init_legacy_loop_accepted fuel hloop htimer
    refine ⟨hsd1, hmmc, fun r16 m6 t6 h16 => ?_⟩
    by_cases hr16 : r16 = 0
    · have hleg : ∃ tl, SD_init_legacy card fuel m2 = some (legacyType r55 r41, m6, tl) := by
        unfold SD_init_legacy
        rw [SD.bind_of_eq hprobe55, SD.bind_of_eq hprobe, SD.bind_of_eq hloop,
          SD.bind_of_eq (SD.getCtx_apply m5), if_neg htimer, SD.bind_of_eq h16,
          if_neg (not_not.mpr hr16)]
        exact ⟨_, rfl⟩
      obtain ⟨tl, hleg⟩ := hleg
      obtain ⟨tc, hc⟩ := hclassify hleg
      obtain ⟨st, m7, tr, h, hty, hst, hno⟩ := SD_disk_initialize_of_classify hnodisk hpower hc
      refine ⟨st, m7, tr, h, fun _ => ⟨hty, hst, hno ?_⟩, fun hne => absurd hr16 hne⟩
      unfold legacyType
      split <;> decide
    · have hleg : ∃ tl, SD_init_legacy card fuel m2 = some (0, m6, tl) := by
        unfold SD_init_legacy
        rw [SD.bind_of_eq hprobe55, SD.bind_of_eq hprobe, SD.bind_of_eq hloop,
          SD.bind_of_eq (SD.getCtx_apply m5), if_neg htimer, SD.bind_of_eq h16, if_pos hr16]
        exact ⟨_, rfl⟩
      obtain ⟨tl, hleg⟩ := hleg
      obtain ⟨tc, hc⟩ := hclassify hleg
      obtain ⟨st, m7, tr, h, hty, hst⟩ := SD_disk_initialize_failed hnodisk hpower hc
      exact ⟨st, m7, tr, h, fun h0 => absurd h0 hr16, fun _ => ⟨hty, hst⟩⟩

/-- C11, witness: the SDv1 scenario, where CMD8 is answered with `05`, both probes
with `01`, the second ACMD41 of the loop with `00` and CMD16 with `00`. -/
theorem legacy_classification_witness :
    ∃ st m7 tr, SD_disk_initialize (cardOfBytes sdv1Init) 2 ⟨SD_init, 0⟩ = some (st, m7, tr) ∧
      m7.ctx.card_type = 0x02 ∧ st = m7.ctx.status ∧ st &&& STA_NOINIT = 0 := by
  have h := legacy_classification (cardOfBytes sdv1Init) 2 ⟨SD_init, 0⟩
    (sdhcAt 0 0 1) (sdhcAt 0 500 3) (sdhcAt 1000 500 5) (sdhcAt 1000 500 7)
    (sdhcAt 1000 500 9) (sdhcAt 1000 500 17)
    ([BusEvent.csHigh] ++ List.replicate 10 (BusEvent.tx [0xFF]) ++ [BusEvent.csLow,
      BusEvent.tx [CMD0, 0, 0, 0, 0, 0x95], BusEvent.xfer 0xFF 0x01, BusEvent.csHigh,
      BusEvent.tx [0xFF]])
    (BusEvent.xfer 0xFF 0xFF :: frameEvents CMD0 0 0 0 0 0x95 ++ [BusEvent.xfer 0xFF 0x01])
    (BusEvent.xfer 0xFF 0xFF :: frameEvents CMD8 0 0 0x01 0xAA 0x87 ++ [BusEvent.xfer 0xFF 0x05])
    (BusEvent.xfer 0xFF 0xFF :: frameEvents CMD55 0 0 0 0 0x01 ++ [BusEvent.xfer 0xFF 0x01])
    (BusEvent.xfer 0xFF 0xFF :: frameEvents CMD41 0 0 0 0 0x01 ++ [BusEvent.xfer 0xFF 0x01])
    (BusEvent.xfer 0xFF 0xFF :: frameEvents CMD55 0 0 0 0 0x01 ++ [BusEvent.xfer 0xFF 0x01]
      ++ BusEvent.xfer 0xFF 0xFF :: frameEvents CMD41 0 0 0 0 0x01 ++ [BusEvent.xfer 0xFF 0x01]
      ++ BusEvent.xfer 0xFF 0xFF :: frameEvents CMD55 0 0 0 0 0x01 ++ [BusEvent.xfer 0xFF 0x01]
      ++ BusEvent.xfer 0xFF 0xFF :: frameEvents CMD41 0 0 0 0 0x01 ++ [BusEvent.xfer 0xFF 0x00])
    0x05 0x01 0x01
    (by decide) (by decide!) (by decide!) (by decide!) (by decide) (by decide!)
    (by rw [if_pos (by decide)]; decide!) (by decide!)
  obtain ⟨st, m7, tr, hrun, hok, -⟩ := (h.2.2 (by decide)).2.2 0 (sdhcAt 1000 500 19)
    (BusEvent.xfer 0xFF 0xFF :: frameEvents CMD16 0 0 0x02 0 0x01 ++ [BusEvent.xfer 0xFF 0x00])
    (by decide!)
  exact ⟨st, m7, tr, hrun, hok rfl⟩

end SDCard
